import Mathlib

/-!
Verification of the Scheduling2026V1 scheduling engine.

This file shallowly embeds the scheduling engine of the repository
(`src/services/csoService.ts`, the constraint kernel `constraintValidator`
concatenated into that file, and the validator in `src/utils/colorUtils.ts`)
into Lean 4, and settles the frozen claims about it.

Modelling conventions, used uniformly below:
  * Clock times are modelled as minutes since midnight (`ℤ`).  The source
    stores times as "HH:MM" strings and converts with `timeToMinutes` /
    `minutesToTime`; on the canonical domain these conversions are a
    bijection (spec section 4.1), so entries carry the minute values
    directly and the conversions are identities of the model.  String
    renderings are kept only where the source interpolates times into
    violation messages.
  * JavaScript numbers are modelled as `ℚ`.  `Math.log2` (used only inside
    the adaptive penalty scale factor) is not rational; it is passed in as
    an explicit function argument `jsLog2` of the fitness definitions.
  * `Math.random()` draws are modelled by an oracle `Oracle.rand : ℕ → ℚ`
    consuming one index per call site; the comparator-randomized shuffle
    `sort(() => 0.5 - Math.random())` (whose outcome is implementation
    defined) is modelled by `Oracle.shuffleT`.  `generateId` (Date.now plus
    a random suffix in the source) is modelled by a fresh counter.
  * JavaScript `Map`s keyed by strings are modelled as total functions with
    default values, matching the source's `map.get(k) || default` reads.
  * In-place mutation of a schedule-entry object is modelled as replacing
    the first entry with the same `id` in the schedule list; the source
    relies on entry ids being unique (they are freshly generated), under
    which the two coincide.
-/

namespace Cso

/-- Days of the week, from `types.ts` (`enum DayOfWeek`). -/
inductive DayOfWeek where
  | monday | tuesday | wednesday | thursday | friday | saturday | sunday
  deriving DecidableEq, Repr

/-- Session kinds, from `types.ts` (`type SessionType`). -/
inductive SessionType where
  | ABA | AlliedHealth_OT | AlliedHealth_SLP | IndirectTime | AdminTime
  deriving DecidableEq, Repr

/-- Allied-health service kinds, from `types.ts` (`type AlliedHealthServiceType`). -/
inductive AHType where
  | OT | SLP
  deriving DecidableEq, Repr

/-- `sessionType.startsWith('AlliedHealth_')` of the source. -/
def SessionType.isAlliedHealth : SessionType → Bool
  | .AlliedHealth_OT => true
  | .AlliedHealth_SLP => true
  | _ => false

/-- `s.sessionType.includes(need.type)` of the source: the only session-type
strings containing "OT" resp. "SLP" as substrings are the corresponding
allied-health kinds. -/
def SessionType.includesAH : SessionType → AHType → Bool
  | .AlliedHealth_OT, .OT => true
  | .AlliedHealth_SLP, .SLP => true
  | _, _ => false

/-- From `types.ts` (`interface AlliedHealthNeed`).  The preferred time slot
carries minute values (see the time convention above). -/
structure AlliedHealthNeed where
  type : AHType
  frequencyPerWeek : ℤ
  durationMinutes : ℤ
  preferredTimeSlot : Option (ℤ × ℤ)
  specificDays : List DayOfWeek
  deriving DecidableEq, Repr

/-- From `types.ts` (`interface Client`). -/
structure Client where
  id : String
  name : String
  teamId : Option String
  insuranceRequirements : List String
  alliedHealthNeeds : List AlliedHealthNeed
  deriving DecidableEq, Repr

/-- From `types.ts` (`interface Therapist`); the `role` tag is unused by the
engine and carried as an opaque string. -/
structure Therapist where
  id : String
  name : String
  teamId : Option String
  role : String
  qualifications : List String
  canProvideAlliedHealth : List AHType
  deriving DecidableEq, Repr

/-- Callout target kind, from `types.ts`. -/
inductive EntityKind where
  | client | therapist
  deriving DecidableEq, Repr

/-- From `types.ts` (`interface Callout`).  `startDate`/`endDate` are the
date-only timestamps of the source's "YYYY-MM-DD" strings, modelled as day
numbers; `startTime`/`endTime` are intra-day minute values. -/
structure Callout where
  id : String
  entityType : EntityKind
  entityId : String
  entityName : String
  startDate : ℤ
  endDate : ℤ
  startTime : ℤ
  endTime : ℤ
  reason : Option String
  deriving DecidableEq, Repr

/-- From `types.ts` (`interface ScheduleEntry`); times in minutes. -/
structure ScheduleEntry where
  id : String
  clientName : Option String
  clientId : Option String
  therapistName : String
  therapistId : String
  day : DayOfWeek
  startTime : ℤ
  endTime : ℤ
  sessionType : SessionType
  deriving DecidableEq, Repr

/-- `type GeneratedSchedule = ScheduleEntry[]`. -/
abbrev GeneratedSchedule := List ScheduleEntry

/-- From `types.ts` (`interface ValidationError`); the optional `details`
payload is never read by the engine (deduplication keys on
`ruleId + message` only) and is omitted. -/
structure ValidationError where
  ruleId : String
  message : String
  deriving DecidableEq, Repr

/-- A JavaScript `Date`, as far as the engine consults it: a date-only
timestamp (day number), the weekday the source derives with `getDay()`,
and a validity flag (`isNaN(date.getTime())`). -/
structure JDate where
  epochDay : ℤ
  weekday : DayOfWeek
  valid : Bool
  deriving DecidableEq, Repr

/-- From `types.ts` (`interface BaseScheduleConfig`), as far as the engine
reads it: the day set it applies to and its schedule. -/
structure BaseScheduleConfig where
  id : String
  name : String
  appliesToDays : List DayOfWeek
  schedule : GeneratedSchedule
  deriving DecidableEq, Repr

/-! ## Operational constants

The repository's `constants.ts` is not part of the provided sources (only
its importers are); the values below follow spec section 6. -/

/-- Modelled from the spec: `COMPANY_OPERATING_HOURS_START` ("08:00") of the
missing `constants.ts`; spec section 6 fixes OP_START = 08:00. -/
def COMPANY_OPERATING_HOURS_START : ℤ := 480

/-- Modelled from the spec: `COMPANY_OPERATING_HOURS_END` ("17:00") of the
missing `constants.ts`; spec section 6 fixes OP_END = 17:00. -/
def COMPANY_OPERATING_HOURS_END : ℤ := 1020

/-- Modelled from the spec: `STAFF_ASSUMED_AVAILABILITY_START` ("07:30") of
the missing `constants.ts`; spec section 6 fixes the staff availability
window to [07:30, 18:00]. -/
def STAFF_ASSUMED_AVAILABILITY_START : ℤ := 450

/-- Modelled from the spec: `STAFF_ASSUMED_AVAILABILITY_END` ("18:00") of
the missing `constants.ts`. -/
def STAFF_ASSUMED_AVAILABILITY_END : ℤ := 1080

/-- Modelled from the spec: `LUNCH_COVERAGE_START_TIME` ("11:30") of the
missing `constants.ts`; spec section 6 fixes LUNCH_START = 11:30. -/
def LUNCH_COVERAGE_START_TIME : ℤ := 690

/-- Modelled from the spec: `LUNCH_COVERAGE_END_TIME` ("13:30") of the
missing `constants.ts`; spec section 6 fixes LUNCH_END = 13:30 (latest
lunch end). -/
def LUNCH_COVERAGE_END_TIME : ℤ := 810

/-- Modelled from the spec: `IDEAL_LUNCH_WINDOW_START` ("11:30") of the
missing `constants.ts`; spec sections 3 (invariant 10) and 4.6 place lunch
starts in [LUNCH_START, LUNCH_END - 30] = [11:30, 13:00]. -/
def IDEAL_LUNCH_WINDOW_START : ℤ := 690

/-- Modelled from the spec: `IDEAL_LUNCH_WINDOW_END_FOR_START` ("13:00") of
the missing `constants.ts`: the latest start of a 30-minute lunch. -/
def IDEAL_LUNCH_WINDOW_END_FOR_START : ℤ := 780

/-! ## Time utilities (`src/utils/validationService`, in `colorUtils.ts`) -/

/-- `sessionsOverlap` of `colorUtils.ts`: half-open interval overlap. -/
def sessionsOverlap (entry1Start entry1End entry2Start entry2End : ℤ) : Bool :=
  entry1Start < entry2End && entry2Start < entry1End

/-- JavaScript `String(n).padStart(2, '0')` for the minute renderings. -/
def pad2 (n : ℤ) : String :=
  let s := toString n
  if s.length < 2 then "0" ++ s else s

/-- `minutesToTime` of `colorUtils.ts` ("HH:MM" rendering; `Math.floor` of a
division is integer floor division, JavaScript `%` keeps the dividend's
sign). -/
def minutesToTime (totalMinutes : ℤ) : String :=
  pad2 (Int.fdiv totalMinutes 60) ++ ":" ++ pad2 (Int.tmod totalMinutes 60)

/-- `to12HourTime` of `colorUtils.ts`, taken on the minute value of its
"HH:MM" argument. -/
def to12HourTime (totalMinutes : ℤ) : String :=
  let hours := Int.fdiv totalMinutes 60
  let minutes := Int.tmod totalMinutes 60
  let period := if hours ≥ 12 then "PM" else "AM"
  let hours12 := if Int.tmod hours 12 = 0 then 12 else Int.tmod hours 12
  toString hours12 ++ ":" ++ pad2 minutes ++ " " ++ period

/-- `isDateAffectedByCalloutRange` of `colorUtils.ts`: an invalid date is
affected by nothing; otherwise the date-only timestamps are compared
inclusively. -/
def isDateAffectedByCalloutRange (currentDate : JDate) (calloutStartDate calloutEndDate : ℤ) : Bool :=
  currentDate.valid && calloutStartDate ≤ currentDate.epochDay && currentDate.epochDay ≤ calloutEndDate

/-- `getDayOfWeekFromDate` of `csoService.ts` (and
`getDayOfWeekFromDateObject` of `colorUtils.ts`): the weekday of the date.
The source's fallback to "today" for an invalid `Date` is not modelled; all
claims below are about valid dates. -/
def getDayOfWeekFromDate (date : JDate) : DayOfWeek := date.weekday

/-- `getTherapistById` of `csoService.ts`. -/
def getTherapistById (therapists : List Therapist) (id : String) : Option Therapist :=
  therapists.find? (fun t => t.id = id)

/-- `getClientById` of `csoService.ts`. -/
def getClientById (clients : List Client) (id : String) : Option Client :=
  clients.find? (fun c => c.id = id)

/-! ## Constraint kernel (`src/services/constraintValidator`, concatenated
into `csoService.ts`) -/

/-- `interface ConstraintViolation` of the constraint kernel. -/
inductive VioKind where
  | hard | soft
  deriving DecidableEq, Repr

/-- A tagged kernel violation. -/
structure ConstraintViolation where
  type : VioKind
  severity : ℤ
  message : String
  deriving DecidableEq, Repr

/-- `s.id !== ignoreEntryId`: with no ignored id every entry passes. -/
def notIgnored (ignoreEntryId : Option String) (s : ScheduleEntry) : Bool :=
  match ignoreEntryId with
  | none => true
  | some i => s.id ≠ i

/-- `hasTherapistConflict` of the constraint kernel. -/
def hasTherapistConflict (schedule : GeneratedSchedule) (entry : ScheduleEntry)
    (ignoreEntryId : Option String) : Bool :=
  schedule.any (fun s =>
    notIgnored ignoreEntryId s &&
    s.therapistId = entry.therapistId &&
    s.day = entry.day &&
    sessionsOverlap s.startTime s.endTime entry.startTime entry.endTime)

/-- `hasClientConflict` of the constraint kernel. -/
def hasClientConflict (schedule : GeneratedSchedule) (entry : ScheduleEntry)
    (ignoreEntryId : Option String) : Bool :=
  match entry.clientId with
  | none => false
  | some _ =>
    schedule.any (fun s =>
      notIgnored ignoreEntryId s &&
      s.clientId = entry.clientId &&
      s.day = entry.day &&
      sessionsOverlap s.startTime s.endTime entry.startTime entry.endTime)

/-- `hasCalloutConflict` of the constraint kernel. -/
def hasCalloutConflict (entry : ScheduleEntry) (callouts : List Callout)
    (selectedDate : JDate) : Bool :=
  callouts.any (fun co =>
    isDateAffectedByCalloutRange selectedDate co.startDate co.endDate &&
    ((co.entityType = EntityKind.therapist && co.entityId = entry.therapistId) ||
     (co.entityType = EntityKind.client && some co.entityId = entry.clientId)) &&
    sessionsOverlap entry.startTime entry.endTime co.startTime co.endTime)

/-- `hasCredentialMismatch` of the constraint kernel. -/
def hasCredentialMismatch (entry : ScheduleEntry) (clients : List Client)
    (therapists : List Therapist) : Bool :=
  match entry.clientId with
  | none => false
  | some cid =>
    match clients.find? (fun c => c.id = cid), therapists.find? (fun t => t.id = entry.therapistId) with
    | some client, some therapist =>
      !(client.insuranceRequirements.all (fun req => therapist.qualifications.contains req))
    | _, _ => false

/-- `hasAlliedHealthQualificationMismatch` of the constraint kernel. -/
def hasAlliedHealthQualificationMismatch (entry : ScheduleEntry)
    (therapists : List Therapist) : Bool :=
  if !entry.sessionType.isAlliedHealth then false
  else
    match therapists.find? (fun t => t.id = entry.therapistId) with
    | none => false
    | some therapist =>
      let serviceType := if entry.sessionType = SessionType.AlliedHealth_OT then AHType.OT else AHType.SLP
      !(therapist.canProvideAlliedHealth.contains serviceType)

/-- `isSessionDurationValid` of the constraint kernel. -/
def isSessionDurationValid (entry : ScheduleEntry) : Bool :=
  let duration := entry.endTime - entry.startTime
  match entry.sessionType with
  | .ABA => duration ≥ 60 && duration ≤ 180
  | .IndirectTime => duration = 30
  | .AlliedHealth_OT => duration > 0
  | .AlliedHealth_SLP => duration > 0
  | .AdminTime => true

/-- `isWithinOperatingHours` of the constraint kernel. -/
def isWithinOperatingHours (entry : ScheduleEntry) : Bool :=
  if entry.sessionType = SessionType.IndirectTime then true
  else
    entry.startTime ≥ COMPANY_OPERATING_HOURS_START &&
    entry.endTime ≤ COMPANY_OPERATING_HOURS_END

/-- `hasSameClientBackToBackConflict` of the constraint kernel: an entry with
the same therapist, client and weekday that touches the candidate entry. -/
def hasSameClientBackToBackConflict (schedule : GeneratedSchedule)
    (entry : ScheduleEntry) (ignoreEntryId : Option String) : Bool :=
  match entry.clientId with
  | none => false
  | some _ =>
    schedule.any (fun s =>
      notIgnored ignoreEntryId s &&
      s.therapistId = entry.therapistId &&
      s.clientId = entry.clientId &&
      s.day = entry.day &&
      (s.endTime = entry.startTime || s.startTime = entry.endTime))

/-- The result record of `canAddEntryToSchedule`. -/
structure CanAddResult where
  valid : Bool
  violations : List ConstraintViolation
  deriving DecidableEq, Repr

/-- `canAddEntryToSchedule` of the constraint kernel: runs every predicate
and collects the tagged violations in source order. -/
def canAddEntryToSchedule (entry : ScheduleEntry) (schedule : GeneratedSchedule)
    (clients : List Client) (therapists : List Therapist) (selectedDate : JDate)
    (callouts : List Callout) (ignoreEntryId : Option String) : CanAddResult :=
  let violations : List ConstraintViolation :=
    (if hasTherapistConflict schedule entry ignoreEntryId then
      [⟨VioKind.hard, 100, "Therapist " ++ entry.therapistName ++ " has time conflict"⟩] else []) ++
    (if hasClientConflict schedule entry ignoreEntryId then
      [⟨VioKind.hard, 100, "Client has time conflict"⟩] else []) ++
    (if hasSameClientBackToBackConflict schedule entry ignoreEntryId then
      [⟨VioKind.hard, 100, "Therapist cannot have contiguous sessions with the same client (back-to-back forbidden)"⟩] else []) ++
    (if hasCalloutConflict entry callouts selectedDate then
      [⟨VioKind.hard, 110, "Entry conflicts with callout"⟩] else []) ++
    (if !isSessionDurationValid entry then
      [⟨VioKind.hard, 100, "Session duration is invalid"⟩] else []) ++
    (if !isWithinOperatingHours entry then
      [⟨VioKind.hard, 90, "Session outside operating hours"⟩] else []) ++
    (if hasCredentialMismatch entry clients therapists then
      [⟨VioKind.hard, 100, "Therapist credential mismatch"⟩] else []) ++
    (if hasAlliedHealthQualificationMismatch entry therapists then
      [⟨VioKind.hard, 100, "Allied health qualification missing"⟩] else [])
  ⟨violations.length = 0, violations⟩

/-- `getMdMedicaidTherapistCount` of the constraint kernel. -/
def getMdMedicaidTherapistCount (schedule : GeneratedSchedule) (clientId : String) : ℕ :=
  ((schedule.filter (fun s => s.clientId = some clientId)).map (fun s => s.therapistId)).dedup.length

/-- A half-open minute range, as in `getClientCoverageGaps` (source fields
`start`/`end`; `end` is a Lean keyword, hence `lo`/`hi`). -/
structure TimeRange where
  lo : ℤ
  hi : ℤ
  deriving DecidableEq, Repr

/-- One step of the range-subtraction loop of `getClientCoverageGaps`:
subtract one busy period from every available range. -/
def subtractBusy (availableRanges : List TimeRange) (busy : TimeRange) : List TimeRange :=
  availableRanges.flatMap (fun range =>
    if busy.hi ≤ range.lo || busy.lo ≥ range.hi then [range]
    else
      (if busy.lo > range.lo then [⟨range.lo, busy.lo⟩] else []) ++
      (if busy.hi < range.hi then [⟨busy.hi, range.hi⟩] else []))

/-- One step of stable insertion sort: insert `a` after every element
strictly before it, before the first other element. -/
def jsInsert (lt : α → α → Bool) (a : α) : List α → List α
  | [] => [a]
  | b :: l => if lt b a then b :: jsInsert lt a l else a :: b :: l

/-- JavaScript `Array.prototype.sort` is a stable sort, and a stable sort's
output is determined by the comparator alone; it is modelled as stable
insertion sort with `lt b a` meaning the comparator orders `b` strictly
before `a`. -/
def jsStableSort (lt : α → α → Bool) (l : List α) : List α :=
  l.foldr (jsInsert lt) []

theorem jsInsert_perm (lt : α → α → Bool) (a : α) (l : List α) :
    (jsInsert lt a l).Perm (a :: l) := by
  induction l with
  | nil => rfl
  | cons b l ih =>
    rw [jsInsert]
    by_cases h : lt b a = true
    · rw [if_pos h]
      exact (ih.cons b).trans (List.Perm.swap a b l)
    · rw [if_neg h]

theorem jsStableSort_perm (lt : α → α → Bool) (l : List α) :
    (jsStableSort lt l).Perm l := by
  induction l with
  | nil => rfl
  | cons a l ih =>
    exact (jsInsert_perm lt a (jsStableSort lt l)).trans (ih.cons a)

/-- Sorting by an integer key (JS comparator `(a, b) => key(a) - key(b)`). -/
def jsSortBy (key : α → ℤ) (l : List α) : List α :=
  jsStableSort (fun a b => key a < key b) l

/-- `getClientCoverageGaps` of the constraint kernel, at the default
operating-hours bounds: collect the client's callout windows for the date
and the client's scheduled entries as busy periods, sort them by start, and
subtract them from the single operating-hours range. -/
def getClientCoverageGaps (schedule : GeneratedSchedule) (clientId : String)
    (callouts : List Callout) (selectedDate : JDate) : List TimeRange :=
  let opStart := COMPANY_OPERATING_HOURS_START
  let opEnd := COMPANY_OPERATING_HOURS_END
  let calloutBusy : List TimeRange :=
    (callouts.filter (fun co =>
      co.entityType = EntityKind.client && co.entityId = clientId &&
      isDateAffectedByCalloutRange selectedDate co.startDate co.endDate)).map
      (fun co => ⟨co.startTime, co.endTime⟩)
  let entryBusy : List TimeRange :=
    (schedule.filter (fun s => s.clientId = some clientId)).map
      (fun s => ⟨s.startTime, s.endTime⟩)
  let busyPeriods := jsSortBy (fun b => b.lo) (calloutBusy ++ entryBusy)
  let availableRanges := busyPeriods.foldl subtractBusy [⟨opStart, opEnd⟩]
  availableRanges.filter (fun r => r.hi > r.lo)

/-- `isLunchPlacementValid` of the constraint kernel. -/
def isLunchPlacementValid (schedule : GeneratedSchedule) (therapistId : String)
    (startTime : ℤ) (therapists : List Therapist) : Bool :=
  match therapists.find? (fun t => t.id = therapistId) with
  | none => true
  | some therapist =>
    match therapist.teamId with
    | none => true
    | some teamId =>
      !(schedule.any (fun s =>
        if s.therapistId = therapistId then false
        else if s.sessionType ≠ SessionType.IndirectTime then false
        else
          match therapists.find? (fun t => t.id = s.therapistId) with
          | none => false
          | some teammate =>
            teammate.teamId = some teamId &&
            sessionsOverlap s.startTime s.endTime startTime (startTime + 30)))

/-! ## Availability tracker (`class AvailabilityTracker` of `csoService.ts`)

The source keeps one arbitrary-precision bitmask (`bigint`) of busy
15-minute slots per therapist and per client; a mask here is a `ℕ`. -/

/-- The per-entry record the tracker remembers for fast ignores. -/
structure EntryInfo where
  therapistId : String
  clientId : Option String
  start : ℤ
  stop : ℤ
  deriving DecidableEq, Repr

/-- The tracker state: `Map`s become total functions defaulting to the
empty mask resp. no record, matching `map.get(k) || 0n` reads. -/
structure AvailabilityTracker where
  therapistMasks : String → ℕ
  clientMasks : String → ℕ
  scheduleByEntry : String → Option EntryInfo

/-- `timeToBit` of the tracker: `Math.floor(mins / 15)`. -/
def timeToBit (mins : ℤ) : ℤ := Int.fdiv mins 15

/-- `getRangeMask` of the tracker: `((1n << L) - 1n) << s` for a positive
slot count `L`, else the empty mask.  The source would throw on a negative
start bit (a negative bigint shift); the model clamps with `toNat`, which
is only reachable outside the engine's domain of day times. -/
def getRangeMask (start stop : ℤ) : ℕ :=
  let startBit := timeToBit start
  let endBit := timeToBit stop
  let length := endBit - startBit
  if length ≤ 0 then 0
  else ((1 <<< length.toNat) - 1) <<< startBit.toNat

/-- `book` of the tracker: OR the range mask into the therapist's and (when
present) the client's mask. -/
def AvailabilityTracker.book (tr : AvailabilityTracker) (therapistId : String)
    (clientId : Option String) (start stop : ℤ) : AvailabilityTracker :=
  let mask := getRangeMask start stop
  let tr := { tr with therapistMasks :=
    fun x => if x = therapistId then tr.therapistMasks x ||| mask else tr.therapistMasks x }
  match clientId with
  | none => tr
  | some cid =>
    { tr with clientMasks :=
      fun x => if x = cid then tr.clientMasks x ||| mask else tr.clientMasks x }

/-- One step of `rebuild`'s callout pass. -/
def AvailabilityTracker.applyCallout (selectedDate : JDate) (tr : AvailabilityTracker)
    (co : Callout) : AvailabilityTracker :=
  if isDateAffectedByCalloutRange selectedDate co.startDate co.endDate then
    let mask := getRangeMask co.startTime co.endTime
    match co.entityType with
    | .therapist =>
      { tr with therapistMasks :=
        fun x => if x = co.entityId then tr.therapistMasks x ||| mask else tr.therapistMasks x }
    | .client =>
      { tr with clientMasks :=
        fun x => if x = co.entityId then tr.clientMasks x ||| mask else tr.clientMasks x }
  else tr

/-- `rebuild` of the tracker: clear all state, remember each entry's
details, OR in the callout masks, then OR in each entry's mask (the
schedule pass has the same effect as a `book` per entry). -/
def AvailabilityTracker.rebuild (schedule : GeneratedSchedule) (callouts : List Callout)
    (selectedDate : JDate) : AvailabilityTracker :=
  let tr0 : AvailabilityTracker :=
    { therapistMasks := fun _ => 0
      clientMasks := fun _ => 0
      scheduleByEntry := fun i =>
        (schedule.reverse.find? (fun s => s.id = i)).map
          (fun s => ⟨s.therapistId, s.clientId, s.startTime, s.endTime⟩) }
  let tr1 := callouts.foldl (AvailabilityTracker.applyCallout selectedDate) tr0
  schedule.foldl (fun tr s => tr.book s.therapistId s.clientId s.startTime s.endTime) tr1

/-- `isAvailable` of the tracker: AND the query mask against the entity's
mask, first subtracting the ignored entry's mask when the ignored entry
belongs to this entity.  (`schedule.forEach(set)` keeps the last record per
id, hence the `reverse.find?` in `rebuild`.) -/
def AvailabilityTracker.isAvailable (tr : AvailabilityTracker) (entityType : EntityKind)
    (entityId : String) (start stop : ℤ) (ignoreEntryId : Option String) : Bool :=
  let queryMask := getRangeMask start stop
  let entityMask :=
    match entityType with
    | .therapist => tr.therapistMasks entityId
    | .client => tr.clientMasks entityId
  let entityMask :=
    match ignoreEntryId with
    | none => entityMask
    | some i =>
      match tr.scheduleByEntry i with
      | none => entityMask
      | some info =>
        if (entityType = EntityKind.therapist && info.therapistId = entityId) ||
           (entityType = EntityKind.client && info.clientId = some entityId) then
          Nat.ldiff entityMask (getRangeMask info.start info.stop)
        else entityMask
  entityMask &&& queryMask = 0

/-! ## Bitmask facts

`getRangeMask` puts exactly the slots of a grid-aligned range into the
mask; masks of two such ranges intersect exactly when the ranges overlap. -/

theorem land_eq_zero_iff {m n : ℕ} :
    m &&& n = 0 ↔ ∀ i, ¬(m.testBit i = true ∧ n.testBit i = true) := by
  constructor
  · intro h i hi
    have := congrArg (fun x => Nat.testBit x i) h
    simp only [Nat.testBit_land, Nat.zero_testBit] at this
    rw [hi.1, hi.2] at this
    simp at this
  · intro h
    apply Nat.eq_of_testBit_eq
    intro i
    simp only [Nat.testBit_land, Nat.zero_testBit]
    by_cases h1 : m.testBit i = true
    · by_cases h2 : n.testBit i = true
      · exact absurd ⟨h1, h2⟩ (h i)
      · simp [h1, Bool.eq_false_iff.2 h2]
    · simp [Bool.eq_false_iff.2 h1]

theorem testBit_getRangeMask {sa sb : ℤ} (h0 : 0 ≤ sa) (h1 : sa < sb) (i : ℕ) :
    (getRangeMask (15 * sa) (15 * sb)).testBit i =
      (decide (sa ≤ (i : ℤ)) && decide ((i : ℤ) < sb)) := by
  have h15 : (15 : ℤ) ≠ 0 := by decide
  have ea : timeToBit (15 * sa) = sa := Int.mul_fdiv_cancel_left _ h15
  have eb : timeToBit (15 * sb) = sb := Int.mul_fdiv_cancel_left _ h15
  have hlen : ¬(sb - sa ≤ 0) := by omega
  rw [getRangeMask]
  simp only [ea, eb, if_neg hlen]
  rw [Nat.testBit_shiftLeft, Nat.one_shiftLeft, Nat.testBit_two_pow_sub_one]
  rw [Bool.eq_iff_iff]
  simp only [Bool.and_eq_true, decide_eq_true_eq, ge_iff_le]
  omega

theorem getRangeMask_land_eq_zero_iff {a b x y : ℤ}
    (ha : 0 ≤ a) (hab : a < b) (hx : 0 ≤ x) (hxy : x < y)
    (da : 15 ∣ a) (db : 15 ∣ b) (dx : 15 ∣ x) (dy : 15 ∣ y) :
    getRangeMask a b &&& getRangeMask x y = 0 ↔ (b ≤ x ∨ y ≤ a) := by
  obtain ⟨sa, rfl⟩ := da
  obtain ⟨sb, rfl⟩ := db
  obtain ⟨sx, rfl⟩ := dx
  obtain ⟨sy, rfl⟩ := dy
  have h0a : 0 ≤ sa := by omega
  have h1a : sa < sb := by omega
  have h0x : 0 ≤ sx := by omega
  have h1x : sx < sy := by omega
  rw [land_eq_zero_iff]
  constructor
  · intro h
    by_contra hcon
    push_neg at hcon
    have hi := h (max sa sx).toNat
    rw [testBit_getRangeMask h0a h1a, testBit_getRangeMask h0x h1x] at hi
    simp only [Bool.and_eq_true, decide_eq_true_eq] at hi
    omega
  · intro h i
    rw [testBit_getRangeMask h0a h1a, testBit_getRangeMask h0x h1x]
    simp only [Bool.and_eq_true, decide_eq_true_eq]
    omega

theorem lor_land_eq_zero_iff {m n q : ℕ} :
    (m ||| n) &&& q = 0 ↔ m &&& q = 0 ∧ n &&& q = 0 := by
  simp only [land_eq_zero_iff, Nat.testBit_lor, Bool.or_eq_true]
  constructor
  · intro h
    exact ⟨fun i hi => h i ⟨Or.inl hi.1, hi.2⟩, fun i hi => h i ⟨Or.inr hi.1, hi.2⟩⟩
  · rintro ⟨h1, h2⟩ i ⟨hm | hn, hq⟩
    · exact h1 i ⟨hm, hq⟩
    · exact h2 i ⟨hn, hq⟩

/-! ## Coverage-gap semantics (for claim C7)

`getClientCoverageGaps` subtracts busy periods from the operating window.
The predicates below give the minute-level semantics the claim speaks
about. -/

/-- A minute is covered by one of a list of busy periods. -/
def coveredByBusy (busies : List TimeRange) (m : ℤ) : Prop :=
  ∃ b ∈ busies, b.lo ≤ m ∧ m < b.hi

/-- A minute of the operating window left uncovered by the busy periods. -/
def residMinute (busies : List TimeRange) (m : ℤ) : Prop :=
  COMPANY_OPERATING_HOURS_START ≤ m ∧ m < COMPANY_OPERATING_HOURS_END ∧
    ¬coveredByBusy busies m

/-- A maximal subinterval of the operating window consisting of uncovered
minutes: non-empty, inside the window, all its minutes uncovered, and not
extendable on either side. -/
def IsMaximalGap (busies : List TimeRange) (r : TimeRange) : Prop :=
  r.lo < r.hi ∧ COMPANY_OPERATING_HOURS_START ≤ r.lo ∧
  r.hi ≤ COMPANY_OPERATING_HOURS_END ∧
  (∀ m, r.lo ≤ m → m < r.hi → residMinute busies m) ∧
  (r.lo = COMPANY_OPERATING_HOURS_START ∨ ¬residMinute busies (r.lo - 1)) ∧
  (r.hi = COMPANY_OPERATING_HOURS_END ∨ ¬residMinute busies r.hi)

/-- The busy periods `getClientCoverageGaps` subtracts for a client:
the client's callout windows applying to the date, then the client's
scheduled entries (before sorting). -/
def clientBusyPeriods (schedule : GeneratedSchedule) (clientId : String)
    (callouts : List Callout) (selectedDate : JDate) : List TimeRange :=
  ((callouts.filter (fun co =>
      co.entityType = EntityKind.client && co.entityId = clientId &&
      isDateAffectedByCalloutRange selectedDate co.startDate co.endDate)).map
      (fun co => ⟨co.startTime, co.endTime⟩)) ++
  ((schedule.filter (fun s => s.clientId = some clientId)).map
      (fun s => ⟨s.startTime, s.endTime⟩))

/-- The claim's notion of a covered instant: inside some client-targeted
callout applying to the date, or inside some scheduled entry of the
client. -/
def claimCovered (schedule : GeneratedSchedule) (clientId : String)
    (callouts : List Callout) (selectedDate : JDate) (m : ℤ) : Prop :=
  (∃ co ∈ callouts, co.entityType = EntityKind.client ∧ co.entityId = clientId ∧
    isDateAffectedByCalloutRange selectedDate co.startDate co.endDate = true ∧
    co.startTime ≤ m ∧ m < co.endTime) ∨
  (∃ s ∈ schedule, s.clientId = some clientId ∧ s.startTime ≤ m ∧ m < s.endTime)

theorem coveredByBusy_clientBusyPeriods (schedule : GeneratedSchedule)
    (clientId : String) (callouts : List Callout) (selectedDate : JDate) (m : ℤ) :
    coveredByBusy (clientBusyPeriods schedule clientId callouts selectedDate) m ↔
      claimCovered schedule clientId callouts selectedDate m := by
  simp only [coveredByBusy, clientBusyPeriods, claimCovered, List.mem_append,
    List.mem_map, List.mem_filter, Bool.and_eq_true, decide_eq_true_eq]
  constructor
  · rintro ⟨b, (⟨co, ⟨hco, het, hcid⟩, rfl⟩ | ⟨s, ⟨hs, hcl⟩, rfl⟩), hm⟩
    · exact Or.inl ⟨co, hco, het.1, het.2, hcid, hm⟩
    · exact Or.inr ⟨s, hs, hcl, hm⟩
  · rintro (⟨co, hco, het, hcid, hdate, hm⟩ | ⟨s, hs, hcl, hm⟩)
    · exact ⟨⟨co.startTime, co.endTime⟩, Or.inl ⟨co, ⟨hco, ⟨het, hcid⟩, hdate⟩, rfl⟩, hm⟩
    · exact ⟨⟨s.startTime, s.endTime⟩, Or.inr ⟨s, ⟨hs, hcl⟩, rfl⟩, hm⟩

/-- The invariant of the subtraction fold: the current ranges sit inside
the window and are non-empty; their union is exactly the residual of the
processed busy periods; and each range is inextensible relative to the
processed periods. -/
def SubtractInv (processed : List TimeRange) (ranges : List TimeRange) : Prop :=
  (∀ r ∈ ranges, COMPANY_OPERATING_HOURS_START ≤ r.lo ∧
      r.hi ≤ COMPANY_OPERATING_HOURS_END ∧ r.lo < r.hi) ∧
  (∀ m, (∃ r ∈ ranges, r.lo ≤ m ∧ m < r.hi) ↔ residMinute processed m) ∧
  (∀ r ∈ ranges,
    (r.lo = COMPANY_OPERATING_HOURS_START ∨ coveredByBusy processed (r.lo - 1)) ∧
    (r.hi = COMPANY_OPERATING_HOURS_END ∨ coveredByBusy processed r.hi))

theorem coveredByBusy_append (P Q : List TimeRange) (m : ℤ) :
    coveredByBusy (P ++ Q) m ↔ coveredByBusy P m ∨ coveredByBusy Q m := by
  simp only [coveredByBusy, List.mem_append]
  constructor
  · rintro ⟨b, hb | hb, hm⟩
    · exact Or.inl ⟨b, hb, hm⟩
    · exact Or.inr ⟨b, hb, hm⟩
  · rintro (⟨b, hb, hm⟩ | ⟨b, hb, hm⟩)
    · exact ⟨b, Or.inl hb, hm⟩
    · exact ⟨b, Or.inr hb, hm⟩

theorem coveredByBusy_singleton (b : TimeRange) (m : ℤ) :
    coveredByBusy [b] m ↔ b.lo ≤ m ∧ m < b.hi := by
  simp [coveredByBusy]

theorem subtractBusy_inv {processed ranges : List TimeRange} {busy : TimeRange}
    (hwf : busy.lo < busy.hi) (hInv : SubtractInv processed ranges) :
    SubtractInv (processed ++ [busy]) (subtractBusy ranges busy) := by
  obtain ⟨hB, hM, hX⟩ := hInv
  have memParts : ∀ r' : TimeRange, r' ∈ subtractBusy ranges busy ↔
      ∃ r ∈ ranges,
        ((busy.hi ≤ r.lo ∨ busy.lo ≥ r.hi) ∧ r' = r) ∨
        (¬(busy.hi ≤ r.lo ∨ busy.lo ≥ r.hi) ∧
          ((busy.lo > r.lo ∧ r' = ⟨r.lo, busy.lo⟩) ∨
           (busy.hi < r.hi ∧ r' = ⟨busy.hi, r.hi⟩))) := by
    intro r'
    simp only [subtractBusy, List.mem_flatMap]
    constructor
    · rintro ⟨r, hr, hmem⟩
      refine ⟨r, hr, ?_⟩
      by_cases hout : busy.hi ≤ r.lo ∨ busy.lo ≥ r.hi
      · left
        rw [if_pos (by simpa using hout)] at hmem
        simp at hmem
        exact ⟨hout, hmem⟩
      · right
        rw [if_neg (by simpa using hout)] at hmem
        refine ⟨hout, ?_⟩
        rcases List.mem_append.1 hmem with h | h
        · by_cases hg : busy.lo > r.lo
          · rw [if_pos (by simpa using hg)] at h
            simp at h
            exact Or.inl ⟨hg, h⟩
          · rw [if_neg (by simpa using hg)] at h
            simp at h
        · by_cases hg : busy.hi < r.hi
          · rw [if_pos (by simpa using hg)] at h
            simp at h
            exact Or.inr ⟨hg, h⟩
          · rw [if_neg (by simpa using hg)] at h
            simp at h
    · rintro ⟨r, hr, ⟨hout, heq⟩ | ⟨hout, hcase⟩⟩
      · subst heq
        exact ⟨r', hr, by rw [if_pos (by simpa using hout)]; simp⟩
      · refine ⟨r, hr, ?_⟩
        rw [if_neg (by simpa using hout)]
        rcases hcase with ⟨hg, heq⟩ | ⟨hg, heq⟩ <;> subst heq
        · exact List.mem_append.2 (Or.inl (by rw [if_pos (by simpa using hg)]; simp))
        · exact List.mem_append.2 (Or.inr (by rw [if_pos (by simpa using hg)]; simp))
  refine ⟨?_, ?_, ?_⟩
  · intro r' hr'
    rcases (memParts r').1 hr' with ⟨r, hr, ⟨_, rfl⟩ | ⟨hout, hcase⟩⟩
    · exact hB r' hr
    · have hb := hB r hr
      push_neg at hout
      rcases hcase with ⟨hg, rfl⟩ | ⟨hg, rfl⟩
      · exact ⟨by simpa using hb.1, by simp; omega, by simpa using hg⟩
      · exact ⟨by simp; omega, by simpa using hb.2.1, by simpa using hg⟩
  · intro m
    have hres : residMinute (processed ++ [busy]) m ↔
        residMinute processed m ∧ ¬(busy.lo ≤ m ∧ m < busy.hi) := by
      simp only [residMinute, coveredByBusy_append, coveredByBusy_singleton]
      tauto
    rw [hres, ← hM]
    constructor
    · rintro ⟨r', hr', hm⟩
      rcases (memParts r').1 hr' with ⟨r, hr, ⟨hout, rfl⟩ | ⟨hout, hcase⟩⟩
      · exact ⟨⟨r', hr, hm⟩, by omega⟩
      · push_neg at hout
        rcases hcase with ⟨hg, rfl⟩ | ⟨hg, rfl⟩
        · dsimp only at hm
          exact ⟨⟨r, hr, by omega⟩, by omega⟩
        · dsimp only at hm
          exact ⟨⟨r, hr, by omega⟩, by omega⟩
    · rintro ⟨⟨r, hr, hm⟩, hnb⟩
      by_cases hout : busy.hi ≤ r.lo ∨ busy.lo ≥ r.hi
      · exact ⟨r, (memParts r).2 ⟨r, hr, Or.inl ⟨hout, rfl⟩⟩, hm⟩
      · push_neg at hout
        by_cases hlt : m < busy.lo
        · refine ⟨⟨r.lo, busy.lo⟩, (memParts _).2 ⟨r, hr, Or.inr ⟨by omega, Or.inl ⟨by omega, rfl⟩⟩⟩, ?_⟩
          simp only
          omega
        · refine ⟨⟨busy.hi, r.hi⟩, (memParts _).2 ⟨r, hr, Or.inr ⟨by omega, Or.inr ⟨by omega, rfl⟩⟩⟩, ?_⟩
          simp only
          omega
  · intro r' hr'
    rcases (memParts r').1 hr' with ⟨r, hr, ⟨hout, rfl⟩ | ⟨hout, hcase⟩⟩
    · have := hX r' hr
      constructor
      · rcases this.1 with h | h
        · exact Or.inl h
        · exact Or.inr ((coveredByBusy_append _ _ _).2 (Or.inl h))
      · rcases this.2 with h | h
        · exact Or.inl h
        · exact Or.inr ((coveredByBusy_append _ _ _).2 (Or.inl h))
    · push_neg at hout
      rcases hcase with ⟨hg, rfl⟩ | ⟨hg, rfl⟩
      · constructor
        · rcases (hX r hr).1 with h | h
          · exact Or.inl h
          · exact Or.inr ((coveredByBusy_append _ _ _).2 (Or.inl h))
        · refine Or.inr ((coveredByBusy_append _ _ _).2 (Or.inr ?_))
          rw [coveredByBusy_singleton]
          simp only
          omega
      · constructor
        · refine Or.inr ((coveredByBusy_append _ _ _).2 (Or.inr ?_))
          rw [coveredByBusy_singleton]
          simp only
          omega
        · rcases (hX r hr).2 with h | h
          · exact Or.inl h
          · exact Or.inr ((coveredByBusy_append _ _ _).2 (Or.inl h))

theorem foldl_subtractBusy_inv {L : List TimeRange}
    (hwf : ∀ b ∈ L, b.lo < b.hi) :
    ∀ {processed ranges : List TimeRange}, SubtractInv processed ranges →
      SubtractInv (processed ++ L) (L.foldl subtractBusy ranges) := by
  induction L with
  | nil => intro processed ranges h; simpa using h
  | cons b L ih =>
    intro processed ranges h
    have hb : b.lo < b.hi := hwf b (List.mem_cons_self _ _)
    have hL : ∀ x ∈ L, x.lo < x.hi := fun x hx => hwf x (List.mem_cons_of_mem _ hx)
    have step := subtractBusy_inv hb h
    have := (ih hL) step
    simpa [List.append_assoc] using this

/-- From the fold invariant, the ranges are exactly the maximal residual
intervals. -/
theorem subtractInv_mem_iff_maximal {P ranges : List TimeRange}
    (hInv : SubtractInv P ranges) (r : TimeRange) :
    r ∈ ranges ↔ IsMaximalGap P r := by
  obtain ⟨hB, hM, hX⟩ := hInv
  constructor
  · intro hr
    obtain ⟨hlo, hhi, hpos⟩ := hB r hr
    refine ⟨hpos, hlo, hhi, ?_, ?_, ?_⟩
    · intro m h1 h2
      exact (hM m).1 ⟨r, hr, h1, h2⟩
    · rcases (hX r hr).1 with h | h
      · exact Or.inl h
      · exact Or.inr (fun hres => hres.2.2 h)
    · rcases (hX r hr).2 with h | h
      · exact Or.inl h
      · exact Or.inr (fun hres => hres.2.2 h)
  · rintro ⟨hpos, hlo, hhi, hall, hleft, hright⟩
    have hres : residMinute P r.lo := hall r.lo le_rfl hpos
    obtain ⟨r', hr', hmem⟩ := (hM r.lo).2 hres
    have hInvB := hB r' hr'
    have hXr' := hX r' hr'
    -- the containing range starts exactly at r.lo
    have hlo_eq : r'.lo = r.lo := by
      by_contra hne
      have hlt : r'.lo < r.lo := by omega
      have : residMinute P (r.lo - 1) := (hM (r.lo - 1)).1 ⟨r', hr', by omega, by omega⟩
      rcases hleft with h | h
      · omega
      · exact h this
    -- and ends exactly at r.hi
    have hhi_eq : r'.hi = r.hi := by
      by_contra hne
      rcases lt_or_gt_of_ne hne with hlt | hgt
      · have : residMinute P r'.hi := hall r'.hi (by omega) (by omega)
        rcases hXr'.2 with h | h
        · omega
        · exact this.2.2 h
      · have : residMinute P r.hi := (hM r.hi).1 ⟨r', hr', by omega, by omega⟩
        rcases hright with h | h
        · omega
        · exact h this
    have : r' = r := by
      cases r'
      cases r
      simp only at hlo_eq hhi_eq
      simp [hlo_eq, hhi_eq]
    rwa [this] at hr'

/-- The residual minutes of a client, in the claim's vocabulary. -/
def clientResid (schedule : GeneratedSchedule) (clientId : String)
    (callouts : List Callout) (selectedDate : JDate) (m : ℤ) : Prop :=
  COMPANY_OPERATING_HOURS_START ≤ m ∧ m < COMPANY_OPERATING_HOURS_END ∧
    ¬claimCovered schedule clientId callouts selectedDate m

/-- A maximal residual interval of a client, in the claim's vocabulary. -/
def IsMaximalClientGap (schedule : GeneratedSchedule) (clientId : String)
    (callouts : List Callout) (selectedDate : JDate) (r : TimeRange) : Prop :=
  r.lo < r.hi ∧ COMPANY_OPERATING_HOURS_START ≤ r.lo ∧
  r.hi ≤ COMPANY_OPERATING_HOURS_END ∧
  (∀ m, r.lo ≤ m → m < r.hi → clientResid schedule clientId callouts selectedDate m) ∧
  (r.lo = COMPANY_OPERATING_HOURS_START ∨
    ¬clientResid schedule clientId callouts selectedDate (r.lo - 1)) ∧
  (r.hi = COMPANY_OPERATING_HOURS_END ∨
    ¬clientResid schedule clientId callouts selectedDate r.hi)

theorem coveredByBusy_perm {P Q : List TimeRange} (h : P.Perm Q) (m : ℤ) :
    coveredByBusy P m ↔ coveredByBusy Q m := by
  simp only [coveredByBusy]
  constructor
  · rintro ⟨b, hb, hm⟩; exact ⟨b, h.mem_iff.1 hb, hm⟩
  · rintro ⟨b, hb, hm⟩; exact ⟨b, h.mem_iff.2 hb, hm⟩

/-- Amended claim C7: provided the client's scheduled entries and the
client-targeted callouts applying to the date all have positive duration,
`getClientCoverageGaps` returns exactly the maximal subintervals of the
operating window covered neither by such a callout nor by an entry of the
client, and returns the empty list iff every instant of the window is so
covered. -/
theorem getClientCoverageGaps_maximal (schedule : GeneratedSchedule)
    (clientId : String) (callouts : List Callout) (selectedDate : JDate)
    (hwfE : ∀ s ∈ schedule, s.clientId = some clientId → s.startTime < s.endTime)
    (hwfC : ∀ co ∈ callouts, co.entityType = EntityKind.client → co.entityId = clientId →
      isDateAffectedByCalloutRange selectedDate co.startDate co.endDate = true →
      co.startTime < co.endTime) :
    (∀ r, r ∈ getClientCoverageGaps schedule clientId callouts selectedDate ↔
      IsMaximalClientGap schedule clientId callouts selectedDate r) ∧
    (getClientCoverageGaps schedule clientId callouts selectedDate = [] ↔
      ∀ m, COMPANY_OPERATING_HOURS_START ≤ m → m < COMPANY_OPERATING_HOURS_END →
        claimCovered schedule clientId callouts selectedDate m) := by
  set busies := clientBusyPeriods schedule clientId callouts selectedDate with hbusies
  have hwfB : ∀ b ∈ busies, b.lo < b.hi := by
    intro b hb
    rw [hbusies, clientBusyPeriods] at hb
    rcases List.mem_append.1 hb with h | h
    · obtain ⟨co, hco, rfl⟩ := List.mem_map.1 h
      obtain ⟨hmem, hcond⟩ := List.mem_filter.1 hco
      simp only [Bool.and_eq_true, decide_eq_true_eq] at hcond
      exact hwfC co hmem hcond.1.1 hcond.1.2 hcond.2
    · obtain ⟨s, hs, rfl⟩ := List.mem_map.1 h
      obtain ⟨hmem, hcond⟩ := List.mem_filter.1 hs
      simp only [decide_eq_true_eq] at hcond
      exact hwfE s hmem hcond
  set sorted := jsSortBy (fun b => b.lo) busies with hsorted
  have hperm : sorted.Perm busies := by
    rw [hsorted, jsSortBy]
    exact jsStableSort_perm _ busies
  have hwfS : ∀ b ∈ sorted, b.lo < b.hi := fun b hb => hwfB b (hperm.mem_iff.1 hb)
  have hInit : SubtractInv []
      [⟨COMPANY_OPERATING_HOURS_START, COMPANY_OPERATING_HOURS_END⟩] := by
    refine ⟨?_, ?_, ?_⟩
    · intro r hr
      simp only [List.mem_singleton] at hr
      subst hr
      refine ⟨le_rfl, le_rfl, by decide⟩
    · intro m
      simp only [List.mem_singleton, residMinute, coveredByBusy]
      constructor
      · rintro ⟨r, rfl, hm⟩
        exact ⟨hm.1, hm.2, by simp⟩
      · rintro ⟨h1, h2, -⟩
        exact ⟨_, rfl, h1, h2⟩
    · intro r hr
      simp only [List.mem_singleton] at hr
      subst hr
      exact ⟨Or.inl rfl, Or.inl rfl⟩
  have hInv := foldl_subtractBusy_inv hwfS hInit
  rw [List.nil_append] at hInv
  set ranges := sorted.foldl subtractBusy
      [⟨COMPANY_OPERATING_HOURS_START, COMPANY_OPERATING_HOURS_END⟩] with hranges
  have hgaps : getClientCoverageGaps schedule clientId callouts selectedDate =
      ranges.filter (fun r => r.hi > r.lo) := by
    rw [getClientCoverageGaps, hranges, hsorted, hbusies, clientBusyPeriods]
  have hfilter : ranges.filter (fun r => r.hi > r.lo) = ranges := by
    apply List.filter_eq_self.2
    intro r hr
    have := (hInv.1 r hr).2.2
    simpa using this
  rw [hgaps, hfilter]
  -- convert the sorted-busy semantics to the claim vocabulary
  have hcov : ∀ m, coveredByBusy sorted m ↔
      claimCovered schedule clientId callouts selectedDate m := by
    intro m
    rw [coveredByBusy_perm hperm m, hbusies]
    exact coveredByBusy_clientBusyPeriods _ _ _ _ m
  have hresid : ∀ m, residMinute sorted m ↔
      clientResid schedule clientId callouts selectedDate m := by
    intro m
    simp only [residMinute, clientResid, hcov]
  have hmax : ∀ r, IsMaximalGap sorted r ↔
      IsMaximalClientGap schedule clientId callouts selectedDate r := by
    intro r
    simp only [IsMaximalGap, IsMaximalClientGap, hresid]
  constructor
  · intro r
    rw [subtractInv_mem_iff_maximal hInv r, hmax r]
  · constructor
    · intro hempty m h1 h2
      by_contra hnc
      have : residMinute sorted m := ⟨h1, h2, fun hc => hnc ((hcov m).1 hc)⟩
      obtain ⟨r, hr, -⟩ := (hInv.2.1 m).2 this
      rw [hempty] at hr
      exact absurd hr (List.not_mem_nil _)
    · intro hall
      by_contra hne
      obtain ⟨r, hr⟩ := List.exists_mem_of_ne_nil _ hne
      obtain ⟨hlo, hhi, hpos⟩ := hInv.1 r hr
      have hres : residMinute sorted r.lo := (hInv.2.1 r.lo).1 ⟨r, hr, le_rfl, hpos⟩
      exact hres.2.2 ((hcov r.lo).2 (hall r.lo hres.1 hres.2.1))

/-- Witness for the amended claim C7 at a concrete schedule: one 09:00 to
10:00 entry of the client, no callouts. -/
theorem getClientCoverageGaps_maximal_witness :
    ((∀ s ∈ ([⟨"e1", some "C", some "c1", "T", "t1", DayOfWeek.monday, 540, 600,
          SessionType.ABA⟩] : GeneratedSchedule),
        s.clientId = some "c1" → s.startTime < s.endTime) ∧
      (∀ co ∈ ([] : List Callout), co.entityType = EntityKind.client → co.entityId = "c1" →
        isDateAffectedByCalloutRange ⟨0, DayOfWeek.monday, true⟩ co.startDate co.endDate = true →
        co.startTime < co.endTime)) ∧
    ((∀ r, r ∈ getClientCoverageGaps
        [⟨"e1", some "C", some "c1", "T", "t1", DayOfWeek.monday, 540, 600, SessionType.ABA⟩]
        "c1" [] ⟨0, DayOfWeek.monday, true⟩ ↔
      IsMaximalClientGap
        [⟨"e1", some "C", some "c1", "T", "t1", DayOfWeek.monday, 540, 600, SessionType.ABA⟩]
        "c1" [] ⟨0, DayOfWeek.monday, true⟩ r) ∧
    (getClientCoverageGaps
        [⟨"e1", some "C", some "c1", "T", "t1", DayOfWeek.monday, 540, 600, SessionType.ABA⟩]
        "c1" [] ⟨0, DayOfWeek.monday, true⟩ = [] ↔
      ∀ m, COMPANY_OPERATING_HOURS_START ≤ m → m < COMPANY_OPERATING_HOURS_END →
        claimCovered
          [⟨"e1", some "C", some "c1", "T", "t1", DayOfWeek.monday, 540, 600, SessionType.ABA⟩]
          "c1" [] ⟨0, DayOfWeek.monday, true⟩ m)) :=
  ⟨⟨by decide, by decide⟩,
    getClientCoverageGaps_maximal
      [⟨"e1", some "C", some "c1", "T", "t1", DayOfWeek.monday, 540, 600, SessionType.ABA⟩]
      "c1" [] ⟨0, DayOfWeek.monday, true⟩ (by decide) (by decide)⟩

/-- Counterexample to claim C7 as stated: a single zero-length entry of the
client at 10:00 splits the returned gaps into two touching intervals
[08:00, 10:00) and [10:00, 17:00), the first of which is not a maximal
uncovered subinterval (minute 600 is also uncovered). -/
theorem getClientCoverageGaps_not_maximal :
    getClientCoverageGaps
        [⟨"e1", some "C", some "c1", "T", "t1", DayOfWeek.monday, 600, 600, SessionType.ABA⟩]
        "c1" [] ⟨0, DayOfWeek.monday, true⟩ =
      [⟨480, 600⟩, ⟨600, 1020⟩] ∧
    (⟨480, 600⟩ : TimeRange) ∈ getClientCoverageGaps
        [⟨"e1", some "C", some "c1", "T", "t1", DayOfWeek.monday, 600, 600, SessionType.ABA⟩]
        "c1" [] ⟨0, DayOfWeek.monday, true⟩ ∧
    ¬IsMaximalClientGap
        [⟨"e1", some "C", some "c1", "T", "t1", DayOfWeek.monday, 600, 600, SessionType.ABA⟩]
        "c1" [] ⟨0, DayOfWeek.monday, true⟩ ⟨480, 600⟩ := by
  refine ⟨by decide, by decide, ?_⟩
  rintro ⟨-, -, -, -, -, hright⟩
  rcases hright with h | h
  · exact absurd h (by decide)
  · apply h
    refine ⟨by decide, by decide, ?_⟩
    intro hc
    rcases hc with ⟨co, hco, -⟩ | ⟨s, hs, hcl, hm⟩
    · exact absurd hco (List.not_mem_nil _)
    · simp only [List.mem_singleton] at hs
      subst hs
      simp only at hm
      omega

/-! ## Randomness, identifiers and GA configuration (`csoService.ts`)

`Math.random()` draws are an oracle stream; the engine's behaviour is
quantified over all oracles.  `generateId` is a fresh counter (the source
uses `Date.now()` plus a random base-36 suffix; only freshness matters). -/

/-- The source of nondeterminism: the `Math.random()` stream (one index per
call site) and the outcome of the comparator-randomized therapist shuffle
`sort(() => 0.5 - Math.random())`, whose result is implementation
defined. -/
structure Oracle where
  rand : ℕ → ℚ
  shuffleT : ℕ → List Therapist → List Therapist

/-- An oracle drawn from the real `Math.random()`: every draw lies in
`[0, 1)`. -/
def Oracle.Valid (o : Oracle) : Prop := ∀ k, 0 ≤ o.rand k ∧ o.rand k < 1

/-- The threaded counters: next random index and next fresh id. -/
structure St where
  k : ℕ
  idc : ℕ
  deriving DecidableEq, Repr

/-- Consume one random draw. -/
def St.draw (st : St) : St := { st with k := st.k + 1 }

/-- `generateId` of `csoService.ts`, as a fresh-id supply. -/
def generateId (st : St) : String × St :=
  ("entry-" ++ toString st.idc, { st with idc := st.idc + 1 })

/-- `Math.floor` of a rational, to an index (clamped at zero like
`Int.toNat`; a real draw in `[0, 1)` scaled by a length never goes
negative). -/
def jsFloorNat (q : ℚ) : ℕ := (⌊q⌋).toNat

/-- The entry a JavaScript out-of-bounds index would produce (`undefined`);
never reached under a valid oracle. -/
def dEntry : ScheduleEntry :=
  ⟨"", none, none, "", "", DayOfWeek.monday, 0, 0, SessionType.ABA⟩

/-- `POPULATION_SIZE` of `csoService.ts`. -/
def POPULATION_SIZE : ℕ := 50

/-- `MAX_GENERATIONS` of `csoService.ts`. -/
def MAX_GENERATIONS : ℕ := 150

/-- `ELITISM_RATE` (0.1) of `csoService.ts`. -/
def ELITISM_RATE : ℚ := ⟨1, 10, by decide, by decide⟩

/-- `CROSSOVER_RATE` (0.7) of `csoService.ts`. -/
def CROSSOVER_RATE : ℚ := ⟨7, 10, by decide, by decide⟩

/-- `MUTATION_RATE` (0.95) of `csoService.ts`. -/
def MUTATION_RATE : ℚ := ⟨19, 20, by decide, by decide⟩

/-- `PLATEAU_LIMIT` of `csoService.ts`. -/
def PLATEAU_LIMIT : ℕ := 30

/-- The rational one half (the source's literal `0.5`). -/
def qHalf : ℚ := ⟨1, 2, by decide, by decide⟩

/-- The rational 0.3 (the source's literal in selection and team checks). -/
def qThreeTenths : ℚ := ⟨3, 10, by decide, by decide⟩

/-! ## Incremental mutation (`mutateIncremental` of `csoService.ts`) -/

/-- One iteration of the mutation loop: pick a random index; skip lunches;
slide by plus or minus 15 minutes, or resize an ABA entry by plus or minus
15 minutes within [60, 180]; accept only when the kernel admits the edited
entry against the current schedule ignoring the entry itself. -/
def mutateStep (o : Oracle) (clients : List Client) (therapists : List Therapist)
    (selectedDate : JDate) (callouts : List Callout)
    (state : GeneratedSchedule × St) : GeneratedSchedule × St :=
  let newSchedule := state.1
  let st := state.2
  let idx := jsFloorNat (o.rand st.k * newSchedule.length)
  let st := st.draw
  let entry := newSchedule.getD idx dEntry
  if entry.sessionType = SessionType.IndirectTime then (newSchedule, st)
  else
    let action := o.rand st.k
    let st := st.draw
    if action < qHalf then
      -- SLIDE
      let shift := (⌊o.rand st.k * 3⌋ - 1) * 15
      let st := st.draw
      if shift = 0 then (newSchedule, st)
      else
        let currentStart := entry.startTime
        let currentEnd := entry.endTime
        let duration := currentEnd - currentStart
        let newStart := currentStart + shift
        let newEnd := newStart + duration
        let shiftedEntry := { entry with startTime := newStart, endTime := newEnd }
        let validation := canAddEntryToSchedule shiftedEntry newSchedule clients therapists
          selectedDate callouts (some entry.id)
        if validation.valid then (newSchedule.set idx shiftedEntry, st)
        else (newSchedule, st)
    else
      -- RESIZE (ABA only)
      if entry.sessionType = SessionType.ABA then
        let change : ℤ := if o.rand st.k < qHalf then -15 else 15
        let st := st.draw
        let currentStart := entry.startTime
        let currentEnd := entry.endTime
        let currentDuration := currentEnd - currentStart
        let newDuration := currentDuration + change
        if 60 ≤ newDuration ∧ newDuration ≤ 180 then
          let resizedEntry := { entry with endTime := currentStart + newDuration }
          let validation := canAddEntryToSchedule resizedEntry newSchedule clients therapists
            selectedDate callouts (some entry.id)
          if validation.valid then (newSchedule.set idx resizedEntry, st)
          else (newSchedule, st)
        else (newSchedule, st)
      else (newSchedule, st)

/-- The mutation loop, `numMutations` iterations. -/
def mutateLoop (o : Oracle) (clients : List Client) (therapists : List Therapist)
    (selectedDate : JDate) (callouts : List Callout) :
    ℕ → GeneratedSchedule × St → GeneratedSchedule × St
  | 0, state => state
  | n + 1, state =>
    mutateLoop o clients therapists selectedDate callouts n
      (mutateStep o clients therapists selectedDate callouts state)

/-- `mutateIncremental` of `csoService.ts`. -/
def mutateIncremental (o : Oracle) (schedule : GeneratedSchedule) (clients : List Client)
    (therapists : List Therapist) (selectedDate : JDate) (callouts : List Callout)
    (st : St) : GeneratedSchedule × St :=
  if schedule.length = 0 then (schedule, st)
  else
    let numMutations := max 1 (jsFloorNat ((schedule.length : ℚ) * ⟨1, 10, by decide, by decide⟩))
    mutateLoop o clients therapists selectedDate callouts numMutations (schedule, st)

/-! ## Claim C10: the mutation's frame -/

/-- The frame relation of one entry under mutation: all fields except the
times are preserved, and a lunch entry is untouched. -/
def FrameEntry (orig e : ScheduleEntry) : Prop :=
  e.id = orig.id ∧ e.clientName = orig.clientName ∧ e.clientId = orig.clientId ∧
  e.therapistName = orig.therapistName ∧ e.therapistId = orig.therapistId ∧
  e.day = orig.day ∧ e.sessionType = orig.sessionType ∧
  (orig.sessionType = SessionType.IndirectTime → e = orig)

/-- The frame relation of a whole schedule, positionally. -/
def FrameSched (orig l : GeneratedSchedule) : Prop :=
  l.length = orig.length ∧
  ∀ i, i < orig.length → FrameEntry (orig.getD i dEntry) (l.getD i dEntry)

theorem frameEntry_refl (e : ScheduleEntry) : FrameEntry e e :=
  ⟨rfl, rfl, rfl, rfl, rfl, rfl, rfl, fun _ => rfl⟩

theorem frameSched_refl (l : GeneratedSchedule) : FrameSched l l :=
  ⟨rfl, fun _ _ => frameEntry_refl _⟩

theorem frameSched_set {orig l : GeneratedSchedule} {idx : ℕ} {e' : ScheduleEntry}
    (hF : FrameSched orig l)
    (hid : e'.id = (l.getD idx dEntry).id)
    (hcn : e'.clientName = (l.getD idx dEntry).clientName)
    (hci : e'.clientId = (l.getD idx dEntry).clientId)
    (htn : e'.therapistName = (l.getD idx dEntry).therapistName)
    (hti : e'.therapistId = (l.getD idx dEntry).therapistId)
    (hd : e'.day = (l.getD idx dEntry).day)
    (hst : e'.sessionType = (l.getD idx dEntry).sessionType)
    (hNI : (l.getD idx dEntry).sessionType ≠ SessionType.IndirectTime) :
    FrameSched orig (l.set idx e') := by
  obtain ⟨hlen, hall⟩ := hF
  refine ⟨by rw [List.length_set, hlen], ?_⟩
  intro i hi
  by_cases hidx : idx = i
  · subst hidx
    have hidxlt : idx < l.length := by omega
    have hgetset : (l.set idx e').getD idx dEntry = e' := by
      rw [List.getD_eq_getElem?_getD, List.getElem?_set_self hidxlt, Option.getD_some]
    rw [hgetset]
    obtain ⟨h1, h2, h3, h4, h5, h6, h7, h8⟩ := hall idx hi
    refine ⟨hid.trans h1, hcn.trans h2, hci.trans h3, htn.trans h4, hti.trans h5,
      hd.trans h6, hst.trans h7, ?_⟩
    intro hIT
    exact absurd (h7.trans hIT) hNI
  · have heq : (l.set idx e').getD i dEntry = l.getD i dEntry := by
      rw [List.getD_eq_getElem?_getD, List.getElem?_set_ne hidx, ← List.getD_eq_getElem?_getD]
    rw [heq]
    exact hall i hi

theorem mutateStep_frame (o : Oracle) (clients : List Client) (therapists : List Therapist)
    (selectedDate : JDate) (callouts : List Callout) (orig : GeneratedSchedule)
    (state : GeneratedSchedule × St) (hF : FrameSched orig state.1) :
    FrameSched orig (mutateStep o clients therapists selectedDate callouts state).1 := by
  obtain ⟨l, st⟩ := state
  rw [mutateStep]
  dsimp only
  simp only [apply_ite Prod.fst]
  split
  · exact hF
  next hNI =>
    split
    · -- SLIDE
      split
      · exact hF
      · split
        · exact frameSched_set hF rfl rfl rfl rfl rfl rfl rfl hNI
        · exact hF
    · -- RESIZE
      split
      next hABA =>
        -- the sign of the change, the duration bound, and the kernel verdict
        split
        all_goals
          split
          · split
            · exact frameSched_set hF rfl rfl rfl rfl rfl rfl rfl (by rw [hABA]; decide)
            · exact hF
          · exact hF
      · exact hF

theorem mutateLoop_frame (o : Oracle) (clients : List Client) (therapists : List Therapist)
    (selectedDate : JDate) (callouts : List Callout) (orig : GeneratedSchedule) :
    ∀ (n : ℕ) (state : GeneratedSchedule × St), FrameSched orig state.1 →
      FrameSched orig (mutateLoop o clients therapists selectedDate callouts n state).1 := by
  intro n
  induction n with
  | zero => intro state h; exact h
  | succ n ih =>
    intro state h
    exact ih _ (mutateStep_frame o clients therapists selectedDate callouts orig state h)

/-- C10: `mutateIncremental` returns a schedule with exactly as many entries
as its input; positionally, every `IndirectTime` entry is returned
unchanged, and every other entry keeps its id, client, therapist, day and
session type (it can differ only in `startTime` and `endTime`). -/
theorem mutateIncremental_frame (o : Oracle) (schedule : GeneratedSchedule)
    (clients : List Client) (therapists : List Therapist) (selectedDate : JDate)
    (callouts : List Callout) (st : St) (hval : o.Valid) :
    (mutateIncremental o schedule clients therapists selectedDate callouts st).1.length =
      schedule.length ∧
    ∀ i, i < schedule.length →
      FrameEntry (schedule.getD i dEntry)
        ((mutateIncremental o schedule clients therapists selectedDate callouts st).1.getD i dEntry) := by
  have : FrameSched schedule
      (mutateIncremental o schedule clients therapists selectedDate callouts st).1 := by
    rw [mutateIncremental]
    split
    · exact frameSched_refl _
    · exact mutateLoop_frame o clients therapists selectedDate callouts schedule _ _
        (frameSched_refl _)
  exact ⟨this.1, this.2⟩

/-- Witness for C10 at a concrete one-entry schedule and the constant-zero
oracle. -/
theorem mutateIncremental_frame_witness :
    (Oracle.Valid ⟨fun _ => 0, fun _ ts => ts⟩) ∧
    ((mutateIncremental ⟨fun _ => 0, fun _ ts => ts⟩
        [⟨"e1", some "C", some "c1", "T", "t1", DayOfWeek.monday, 540, 600, SessionType.ABA⟩]
        [] [] ⟨0, DayOfWeek.monday, true⟩ [] ⟨0, 0⟩).1.length = 1 ∧
     ∀ i, i < ([⟨"e1", some "C", some "c1", "T", "t1", DayOfWeek.monday, 540, 600,
          SessionType.ABA⟩] : GeneratedSchedule).length →
      FrameEntry (([⟨"e1", some "C", some "c1", "T", "t1", DayOfWeek.monday, 540, 600,
          SessionType.ABA⟩] : GeneratedSchedule).getD i dEntry)
        ((mutateIncremental ⟨fun _ => 0, fun _ ts => ts⟩
          [⟨"e1", some "C", some "c1", "T", "t1", DayOfWeek.monday, 540, 600, SessionType.ABA⟩]
          [] [] ⟨0, DayOfWeek.monday, true⟩ [] ⟨0, 0⟩).1.getD i dEntry)) :=
  ⟨fun _ => ⟨le_refl 0, (by decide : (0:ℚ) < 1)⟩,
   mutateIncremental_frame ⟨fun _ => 0, fun _ ts => ts⟩
     [⟨"e1", some "C", some "c1", "T", "t1", DayOfWeek.monday, 540, 600, SessionType.ABA⟩]
     [] [] ⟨0, DayOfWeek.monday, true⟩ [] ⟨0, 0⟩
     (fun _ => ⟨le_refl 0, (by decide : (0:ℚ) < 1)⟩)⟩

/-! ## In-place mutation helpers

The repair operators mutate schedule-entry objects in place or `splice`
them out.  An in-place field assignment becomes an update of the first
entry with the object's id; `findIndex` plus `splice` becomes removal of
the first entry with the id.  The two models agree with the source
whenever entry ids are unique, which the engine guarantees by generating
fresh ids. -/

/-- Update the first entry carrying the given id. -/
def updateFirstById (eid : String) (f : ScheduleEntry → ScheduleEntry) :
    GeneratedSchedule → GeneratedSchedule
  | [] => []
  | e :: rest => if e.id = eid then f e :: rest else e :: updateFirstById eid f rest

/-- Remove the first entry carrying the given id (`findIndex` then
`splice(idx, 1)`; no change when the id is absent). -/
def removeFirstById (eid : String) : GeneratedSchedule → GeneratedSchedule
  | [] => []
  | e :: rest => if e.id = eid then rest else e :: removeFirstById eid rest

/-- JavaScript `[...new Set(l)]`: deduplicate keeping first occurrences. -/
def jsDedup [DecidableEq α] (l : List α) : List α :=
  go [] l
where
  go (seen : List α) : List α → List α
    | [] => []
    | a :: l => if a ∈ seen then go seen l else a :: go (a :: seen) l

/-! ## The Medicaid cap repair (`fixMdMedicaidLimit` of `csoService.ts`) -/

/-- Processing of one snapshot session by `fixMdMedicaidLimit`: keep it
when its therapist is allowed; otherwise swap to the first of the allowed
therapists the kernel accepts (ignoring the session itself), and failing
that splice the session out. -/
def medicaidFixSession (clients : List Client) (therapists : List Therapist)
    (selectedDate : JDate) (callouts : List Callout) (allowedIds : List String)
    (schedule : GeneratedSchedule) (session : ScheduleEntry) : GeneratedSchedule :=
  if session.therapistId ∈ allowedIds then schedule
  else
    let bestSub := allowedIds.find? (fun tid =>
      match getTherapistById therapists tid with
      | none => false
      | some t =>
        (canAddEntryToSchedule { session with therapistId := t.id, therapistName := t.name }
          schedule clients therapists selectedDate callouts (some session.id)).valid)
    match bestSub with
    | some tid =>
      match getTherapistById therapists tid with
      | some t => updateFirstById session.id
          (fun e => { e with therapistId := t.id, therapistName := t.name }) schedule
      | none => schedule
    | none => removeFirstById session.id schedule

/-- The per-client pass of `fixMdMedicaidLimit`: snapshot the client's
sessions; when more than three distinct therapists appear, keep the first
three and process every snapshot session against the evolving schedule. -/
def fixMdMedicaidLimitClient (clients : List Client) (therapists : List Therapist)
    (selectedDate : JDate) (callouts : List Callout)
    (schedule : GeneratedSchedule) (client : Client) : GeneratedSchedule :=
  if "MD_MEDICAID" ∉ client.insuranceRequirements then schedule
  else
    let clientSessions := schedule.filter (fun s => s.clientId = some client.id)
    let uniqueTherapists := jsDedup (clientSessions.map (fun s => s.therapistId))
    if uniqueTherapists.length > 3 then
      let allowedIds := uniqueTherapists.take 3
      clientSessions.foldl
        (medicaidFixSession clients therapists selectedDate callouts allowedIds) schedule
    else schedule

/-- `fixMdMedicaidLimit` of `csoService.ts`. -/
def fixMdMedicaidLimit (schedule : GeneratedSchedule) (clients : List Client)
    (therapists : List Therapist) (selectedDate : JDate) (callouts : List Callout) :
    GeneratedSchedule :=
  clients.foldl (fixMdMedicaidLimitClient clients therapists selectedDate callouts) schedule

/-! ## Claim C2: the Medicaid cap repair -/

/-- Counterexample to claim C2 as stated: with a duplicated entry id, the
splice of an un-swappable forbidden entry removes a different client's
entry carrying the same id, and the MD_MEDICAID client keeps four distinct
therapists.  The client's four entries make therapists t1..t4 its distinct
set (t4 forbidden); every swap of the 10:30 to 11:30 entry is rejected by
the kernel (client conflict with the 10:00 to 11:00 entry), and the splice
hits the first entry with id "dup", which belongs to client d. -/
theorem fixMdMedicaidLimit_dup_id_violation :
    "MD_MEDICAID" ∈ (⟨"c", "C", none, ["MD_MEDICAID"], []⟩ : Client).insuranceRequirements ∧
    (jsDedup (((fixMdMedicaidLimit
        [⟨"dup", some "D", some "d", "T9", "t9", DayOfWeek.monday, 540, 600, SessionType.ABA⟩,
         ⟨"a", some "C", some "c", "T1", "t1", DayOfWeek.monday, 600, 660, SessionType.ABA⟩,
         ⟨"b", some "C", some "c", "T2", "t2", DayOfWeek.monday, 480, 540, SessionType.ABA⟩,
         ⟨"c3", some "C", some "c", "T3", "t3", DayOfWeek.monday, 540, 600, SessionType.ABA⟩,
         ⟨"dup", some "C", some "c", "T4", "t4", DayOfWeek.monday, 630, 690, SessionType.ABA⟩]
        [⟨"c", "C", none, ["MD_MEDICAID"], []⟩]
        [⟨"t1", "T1", none, "RBT", ["MD_MEDICAID"], []⟩,
         ⟨"t2", "T2", none, "RBT", ["MD_MEDICAID"], []⟩,
         ⟨"t3", "T3", none, "RBT", ["MD_MEDICAID"], []⟩,
         ⟨"t4", "T4", none, "RBT", ["MD_MEDICAID"], []⟩]
        ⟨0, DayOfWeek.monday, true⟩ []).filter
      (fun s => s.clientId = some "c")).map (fun s => s.therapistId))).length = 4 := by
  exact ⟨by decide, by decide⟩

/-! Generic facts about the in-place helpers, used to prove the amended
claim under unique ids. -/

theorem updateFirstById_map_id (eid : String) (f : ScheduleEntry → ScheduleEntry)
    (hf : ∀ e, (f e).id = e.id) (l : GeneratedSchedule) :
    (updateFirstById eid f l).map (fun e => e.id) = l.map (fun e => e.id) := by
  induction l with
  | nil => rfl
  | cons e rest ih =>
    rw [updateFirstById]
    by_cases h : e.id = eid
    · rw [if_pos h]
      simp [hf]
    · rw [if_neg h]
      simp [ih]

theorem mem_updateFirstById {eid : String} {f : ScheduleEntry → ScheduleEntry}
    {l : GeneratedSchedule} {e' : ScheduleEntry} (h : e' ∈ updateFirstById eid f l) :
    e' ∈ l ∨ ∃ e ∈ l, e.id = eid ∧ e' = f e := by
  induction l with
  | nil => exact absurd h (List.not_mem_nil _)
  | cons e rest ih =>
    rw [updateFirstById] at h
    by_cases heq : e.id = eid
    · rw [if_pos heq] at h
      rcases List.mem_cons.1 h with h | h
      · exact Or.inr ⟨e, List.mem_cons_self _ _, heq, h⟩
      · exact Or.inl (List.mem_cons_of_mem _ h)
    · rw [if_neg heq] at h
      rcases List.mem_cons.1 h with h | h
      · exact Or.inl (h ▸ List.mem_cons_self _ _)
      · rcases ih h with h | ⟨g, hg, hgid, hge⟩
        · exact Or.inl (List.mem_cons_of_mem _ h)
        · exact Or.inr ⟨g, List.mem_cons_of_mem _ hg, hgid, hge⟩

theorem mem_removeFirstById {eid : String} {l : GeneratedSchedule} {e' : ScheduleEntry}
    (h : e' ∈ removeFirstById eid l) : e' ∈ l := by
  induction l with
  | nil => exact absurd h (List.not_mem_nil _)
  | cons e rest ih =>
    rw [removeFirstById] at h
    by_cases heq : e.id = eid
    · rw [if_pos heq] at h
      exact List.mem_cons_of_mem _ h
    · rw [if_neg heq] at h
      rcases List.mem_cons.1 h with h | h
      · exact h ▸ List.mem_cons_self _ _
      · exact List.mem_cons_of_mem _ (ih h)

theorem removeFirstById_sublist_map_id (eid : String) (l : GeneratedSchedule) :
    ((removeFirstById eid l).map (fun e => e.id)).Sublist (l.map (fun e => e.id)) := by
  induction l with
  | nil => exact List.Sublist.refl _
  | cons e rest ih =>
    rw [removeFirstById]
    by_cases heq : e.id = eid
    · rw [if_pos heq]
      simp only [List.map_cons]
      exact List.sublist_cons_of_sublist _ (List.Sublist.refl _)
    · rw [if_neg heq]
      simp only [List.map_cons]
      exact ih.cons₂ _

/-- Pairwise-distinct ids identify entries. -/
theorem eq_of_mem_of_id_eq {l : GeneratedSchedule}
    (hids : (l.map (fun e => e.id)).Nodup) {e1 e2 : ScheduleEntry}
    (h1 : e1 ∈ l) (h2 : e2 ∈ l) (hid : e1.id = e2.id) : e1 = e2 := by
  induction l with
  | nil => exact absurd h1 (List.not_mem_nil _)
  | cons e rest ih =>
    simp only [List.map_cons, List.nodup_cons] at hids
    rcases List.mem_cons.1 h1 with h1' | h1'
    · rcases List.mem_cons.1 h2 with h2' | h2'
      · rw [h1', h2']
      · exfalso
        apply hids.1
        rw [← h1', hid]
        exact List.mem_map_of_mem _ h2'
    · rcases List.mem_cons.1 h2 with h2' | h2'
      · exfalso
        apply hids.1
        rw [← h2', ← hid]
        exact List.mem_map_of_mem _ h1'
      · exact ih hids.2 h1' h2'

/-- Under unique ids, no survivor of a removal carries the removed id. -/
theorem removeFirstById_id_ne {eid : String} {l : GeneratedSchedule}
    (hids : (l.map (fun e => e.id)).Nodup) {e' : ScheduleEntry}
    (h : e' ∈ removeFirstById eid l) : e'.id ≠ eid := by
  induction l with
  | nil => exact absurd h (List.not_mem_nil _)
  | cons e rest ih =>
    simp only [List.map_cons, List.nodup_cons] at hids
    rw [removeFirstById] at h
    by_cases heq : e.id = eid
    · rw [if_pos heq] at h
      intro he'
      exact hids.1 (heq ▸ he' ▸ List.mem_map_of_mem (fun e => e.id) h)
    · rw [if_neg heq] at h
      rcases List.mem_cons.1 h with h | h
      · rw [h]; exact heq
      · exact ih hids.2 h

theorem mem_jsDedup_go [DecidableEq α] (seen l : List α) (x : α) :
    x ∈ jsDedup.go seen l ↔ x ∈ l ∧ x ∉ seen := by
  induction l generalizing seen with
  | nil => simp [jsDedup.go]
  | cons a l ih =>
    rw [jsDedup.go]
    by_cases h : a ∈ seen
    · rw [if_pos h, ih]
      constructor
      · rintro ⟨hx, hs⟩
        exact ⟨List.mem_cons_of_mem _ hx, hs⟩
      · rintro ⟨hx, hs⟩
        rcases List.mem_cons.1 hx with rfl | hx
        · exact absurd h hs
        · exact ⟨hx, hs⟩
    · rw [if_neg h]
      simp only [List.mem_cons, ih]
      constructor
      · rintro (rfl | ⟨hx, hs⟩)
        · exact ⟨Or.inl rfl, h⟩
        · exact ⟨Or.inr hx, fun hxs => hs (Or.inr hxs)⟩
      · rintro ⟨rfl | hx, hs⟩
        · exact Or.inl rfl
        · by_cases hxa : x = a
          · exact Or.inl hxa
          · exact Or.inr ⟨hx, fun hxs => by
              rcases hxs with h' | h'
              · exact hxa h'
              · exact hs h'⟩

theorem mem_jsDedup [DecidableEq α] (l : List α) (x : α) :
    x ∈ jsDedup l ↔ x ∈ l := by
  rw [jsDedup, mem_jsDedup_go]
  simp

theorem jsDedup_go_nodup [DecidableEq α] (seen l : List α) :
    (jsDedup.go seen l).Nodup := by
  induction l generalizing seen with
  | nil => exact List.nodup_nil
  | cons a l ih =>
    rw [jsDedup.go]
    by_cases h : a ∈ seen
    · rw [if_pos h]; exact ih seen
    · rw [if_neg h]
      refine List.nodup_cons.2 ⟨?_, ih (a :: seen)⟩
      intro hmem
      exact ((mem_jsDedup_go _ _ _).1 hmem).2 (List.mem_cons_self _ _)

theorem jsDedup_nodup [DecidableEq α] (l : List α) : (jsDedup l).Nodup :=
  jsDedup_go_nodup [] l

theorem jsDedup_length_le [DecidableEq α] {l A : List α} (h : ∀ x ∈ l, x ∈ A) :
    (jsDedup l).length ≤ A.length :=
  ((jsDedup_nodup l).subperm (fun x hx => h x ((mem_jsDedup _ _).1 hx))).length_le

/-- The distinct therapists of one client's entries, in order of first
appearance. -/
def distinctTherapists (s : GeneratedSchedule) (cid : String) : List String :=
  jsDedup ((s.filter (fun e => e.clientId = some cid)).map (fun e => e.therapistId))

/-- Under unique ids, a survivor of an update carrying the updated id is
the image of the (unique) updated entry. -/
theorem updateFirstById_image {eid : String} {f : ScheduleEntry → ScheduleEntry}
    {l : GeneratedSchedule}
    (hids : (l.map (fun e => e.id)).Nodup) {e' : ScheduleEntry}
    (h : e' ∈ updateFirstById eid f l) (hide : e'.id = eid)
    (hf : ∀ e, (f e).id = e.id) :
    ∃ g ∈ l, g.id = eid ∧ e' = f g := by
  induction l with
  | nil => exact absurd h (List.not_mem_nil _)
  | cons e rest ih =>
    simp only [List.map_cons, List.nodup_cons] at hids
    rw [updateFirstById] at h
    by_cases heq : e.id = eid
    · rw [if_pos heq] at h
      rcases List.mem_cons.1 h with h | h
      · exact ⟨e, List.mem_cons_self _ _, heq, h⟩
      · exfalso
        apply hids.1
        rw [heq, ← hide]
        exact List.mem_map_of_mem _ h
    · rw [if_neg heq] at h
      rcases List.mem_cons.1 h with h | h
      · exact absurd (h ▸ hide) heq
      · obtain ⟨g, hg, hgid, hge⟩ := ih hids.2 h
        exact ⟨g, List.mem_cons_of_mem _ hg, hgid, hge⟩

/-- The swap the Medicaid repair (and the credential and team repairs)
performs on an entry. -/
def swapTherapist (t : Therapist) (e : ScheduleEntry) : ScheduleEntry :=
  { e with therapistId := t.id, therapistName := t.name }

/-- Two entries equal in every field except possibly the therapist. -/
def SameButTherapist (g e' : ScheduleEntry) : Prop :=
  e'.id = g.id ∧ e'.clientName = g.clientName ∧ e'.clientId = g.clientId ∧
  e'.day = g.day ∧ e'.startTime = g.startTime ∧ e'.endTime = g.endTime ∧
  e'.sessionType = g.sessionType

theorem sameButTherapist_refl (e : ScheduleEntry) : SameButTherapist e e :=
  ⟨rfl, rfl, rfl, rfl, rfl, rfl, rfl⟩

theorem sameButTherapist_swap (t : Therapist) (e : ScheduleEntry) :
    SameButTherapist e (swapTherapist t e) :=
  ⟨rfl, rfl, rfl, rfl, rfl, rfl, rfl⟩

theorem sameButTherapist_trans {a b c : ScheduleEntry}
    (h1 : SameButTherapist a b) (h2 : SameButTherapist b c) : SameButTherapist a c :=
  ⟨h2.1.trans h1.1, h2.2.1.trans h1.2.1, h2.2.2.1.trans h1.2.2.1,
   h2.2.2.2.1.trans h1.2.2.2.1, h2.2.2.2.2.1.trans h1.2.2.2.2.1,
   h2.2.2.2.2.2.1.trans h1.2.2.2.2.2.1, h2.2.2.2.2.2.2.trans h1.2.2.2.2.2.2⟩

/-- Whatever one Medicaid session step produces corresponds to a current
entry, at most with the therapist swapped to an allowed one. -/
theorem mem_medicaidFixSession {clients : List Client} {therapists : List Therapist}
    {selectedDate : JDate} {callouts : List Callout} {allowedIds : List String}
    {cur : GeneratedSchedule} {sess e' : ScheduleEntry}
    (h : e' ∈ medicaidFixSession clients therapists selectedDate callouts allowedIds cur sess) :
    ∃ g ∈ cur, SameButTherapist g e' ∧ (e' = g ∨ e'.therapistId ∈ allowedIds) := by
  rw [medicaidFixSession] at h
  split at h
  · exact ⟨e', h, sameButTherapist_refl _, Or.inl rfl⟩
  · dsimp only at h
    split at h
    next tid hbs =>
      split at h
      next t hgt =>
        rcases mem_updateFirstById h with h | ⟨g, hg, hgid, hge⟩
        · exact ⟨e', h, sameButTherapist_refl _, Or.inl rfl⟩
        · have htid : t.id = tid := by
            have := List.find?_some hgt
            simpa using this
          have hmemA : tid ∈ allowedIds := List.mem_of_find?_eq_some hbs
          refine ⟨g, hg, ?_, Or.inr ?_⟩
          · rw [hge]
            exact sameButTherapist_swap t g
          · rw [hge]
            show t.id ∈ allowedIds
            rw [htid]
            exact hmemA
      next hgt =>
        exact ⟨e', h, sameButTherapist_refl _, Or.inl rfl⟩
    next hbs =>
      exact ⟨e', mem_removeFirstById h, sameButTherapist_refl _, Or.inl rfl⟩

/-- One Medicaid session step only shrinks or keeps the id sequence. -/
theorem updateFirstById_ids_sublist (eid : String) (f : ScheduleEntry → ScheduleEntry)
    (hf : ∀ e, (f e).id = e.id) (l : GeneratedSchedule) :
    ((updateFirstById eid f l).map (fun e => e.id)).Sublist (l.map (fun e => e.id)) := by
  rw [updateFirstById_map_id eid f hf l]

theorem medicaidFixSession_ids_sublist (clients : List Client) (therapists : List Therapist)
    (selectedDate : JDate) (callouts : List Callout) (allowedIds : List String)
    (cur : GeneratedSchedule) (sess : ScheduleEntry) :
    ((medicaidFixSession clients therapists selectedDate callouts allowedIds cur sess).map
      (fun e => e.id)).Sublist (cur.map (fun e => e.id)) := by
  rw [medicaidFixSession]
  split
  · exact List.Sublist.refl _
  · dsimp only
    split
    · split
      next t hgt =>
        exact updateFirstById_ids_sublist sess.id
          (fun e => { e with therapistId := t.id, therapistName := t.name }) (fun _ => rfl) cur
      · exact List.Sublist.refl _
    · exact removeFirstById_sublist_map_id _ _

/-- The cap invariant along the per-client session fold: every entry of the
client either already has an allowed therapist or its snapshot session is
still pending; at the end all the client's entries are on allowed
therapists. -/
theorem medicaid_fold_cap (clients : List Client) (therapists : List Therapist)
    (selectedDate : JDate) (callouts : List Callout) (allowedIds : List String)
    (cid : String) :
    ∀ (snap : List ScheduleEntry) (cur : GeneratedSchedule),
      (cur.map (fun e => e.id)).Nodup →
      (∀ e ∈ cur, e.clientId = some cid →
        (e.therapistId ∈ allowedIds ∨ ∃ s0 ∈ snap, s0.id = e.id ∧ s0.therapistId = e.therapistId)) →
      ∀ e ∈ snap.foldl (medicaidFixSession clients therapists selectedDate callouts allowedIds) cur,
        e.clientId = some cid → e.therapistId ∈ allowedIds := by
  intro snap
  induction snap with
  | nil =>
    intro cur _ hInv e he hcid
    rcases hInv e he hcid with h | ⟨s0, hs0, -⟩
    · exact h
    · exact absurd hs0 (List.not_mem_nil _)
  | cons sess snap' ih =>
    intro cur hids hInv
    rw [List.foldl_cons]
    apply ih
    · exact ((medicaidFixSession_ids_sublist clients therapists selectedDate callouts
        allowedIds cur sess).nodup hids)
    · intro e' he' hcid
      rw [medicaidFixSession] at he'
      split at he'
      next hc =>
        rcases hInv e' he' hcid with h | ⟨s0, hs0, hid, hth⟩
        · exact Or.inl h
        · rcases List.mem_cons.1 hs0 with rfl | hs0
          · exact Or.inl (by rw [← hth]; exact hc)
          · exact Or.inr ⟨s0, hs0, hid, hth⟩
      next hc =>
        dsimp only at he'
        split at he'
        next tid hbs =>
          split at he'
          next t hgt =>
            have htid : t.id = tid := by
              have := List.find?_some hgt
              simpa using this
            have hmemA : tid ∈ allowedIds := List.mem_of_find?_eq_some hbs
            rcases mem_updateFirstById he' with hmem | ⟨g, hg, hgid, hge⟩
            · rcases hInv e' hmem hcid with h | ⟨s0, hs0, hid, hth⟩
              · exact Or.inl h
              · rcases List.mem_cons.1 hs0 with rfl | hs0
                · obtain ⟨g, hg, hgid, hge⟩ :=
                    updateFirstById_image hids he' hid.symm (fun _ => rfl)
                  refine Or.inl ?_
                  rw [hge]
                  show t.id ∈ allowedIds
                  rw [htid]
                  exact hmemA
                · exact Or.inr ⟨s0, hs0, hid, hth⟩
            · refine Or.inl ?_
              rw [hge]
              show t.id ∈ allowedIds
              rw [htid]
              exact hmemA
          next hgt =>
            exfalso
            have := List.find?_some hbs
            rw [hgt] at this
            simp at this
        next hbs =>
          rcases hInv e' (mem_removeFirstById he') hcid with h | ⟨s0, hs0, hid, hth⟩
          · exact Or.inl h
          · rcases List.mem_cons.1 hs0 with rfl | hs0
            · exact absurd hid.symm (removeFirstById_id_ne hids he')
            · exact Or.inr ⟨s0, hs0, hid, hth⟩

theorem fixMdMedicaidLimitClient_ids_sublist (clients : List Client)
    (therapists : List Therapist) (selectedDate : JDate) (callouts : List Callout)
    (s : GeneratedSchedule) (c : Client) :
    ((fixMdMedicaidLimitClient clients therapists selectedDate callouts s c).map
      (fun e => e.id)).Sublist (s.map (fun e => e.id)) := by
  rw [fixMdMedicaidLimitClient]
  split
  · exact List.Sublist.refl _
  · dsimp only
    split
    · have : ∀ (snap : List ScheduleEntry) (cur : GeneratedSchedule),
        ((snap.foldl (medicaidFixSession clients therapists selectedDate callouts
            ((jsDedup ((s.filter (fun x => x.clientId = some c.id)).map
              (fun x => x.therapistId))).take 3)) cur).map (fun e => e.id)).Sublist
          (cur.map (fun e => e.id)) := by
        intro snap
        induction snap with
        | nil => intro cur; exact List.Sublist.refl _
        | cons sess snap' ih =>
          intro cur
          exact (ih _).trans (medicaidFixSession_ids_sublist _ _ _ _ _ cur sess)
      exact this _ s
    · exact List.Sublist.refl _

/-- The per-client pass caps its own MD_MEDICAID client at three distinct
therapists, measured on the pass output. -/
theorem fixMdMedicaidLimitClient_cap (clients : List Client) (therapists : List Therapist)
    (selectedDate : JDate) (callouts : List Callout) (s : GeneratedSchedule) (c : Client)
    (hids : (s.map (fun e => e.id)).Nodup)
    (hmd : "MD_MEDICAID" ∈ c.insuranceRequirements) :
    (distinctTherapists (fixMdMedicaidLimitClient clients therapists selectedDate callouts s c)
      c.id).length ≤ 3 := by
  rw [fixMdMedicaidLimitClient, if_neg (by simpa using hmd)]
  dsimp only
  split
  next hgt3 =>
    set allowedIds := (jsDedup ((s.filter (fun x => x.clientId = some c.id)).map
      (fun x => x.therapistId))).take 3 with hA
    have hall := medicaid_fold_cap clients therapists selectedDate callouts allowedIds c.id
      (s.filter (fun x => x.clientId = some c.id)) s hids
      (fun e he hcid => Or.inr ⟨e, List.mem_filter.2 ⟨he, by simpa using hcid⟩, rfl, rfl⟩)
    have hsub : ∀ x ∈ (((s.filter (fun x => x.clientId = some c.id)).foldl
        (medicaidFixSession clients therapists selectedDate callouts allowedIds) s).filter
          (fun e => e.clientId = some c.id)).map (fun e => e.therapistId), x ∈ allowedIds := by
      intro x hx
      obtain ⟨e, he, rfl⟩ := List.mem_map.1 hx
      obtain ⟨hmem, hcid⟩ := List.mem_filter.1 he
      exact hall e hmem (by simpa using hcid)
    calc (distinctTherapists _ c.id).length
        ≤ allowedIds.length := jsDedup_length_le hsub
      _ ≤ 3 := by rw [hA]; simpa using (List.length_take 3 _).le.trans (by simp)
  next hgt3 =>
    simpa [distinctTherapists] using Nat.le_of_not_lt (by simpa using hgt3)

/-- In the over-cap branch, every entry of the client in the pass output is
on one of the first three distinct therapists of the input. -/
theorem fixMdMedicaidLimitClient_strong (clients : List Client) (therapists : List Therapist)
    (selectedDate : JDate) (callouts : List Callout) (s : GeneratedSchedule) (c : Client)
    (hids : (s.map (fun e => e.id)).Nodup)
    (hmd : "MD_MEDICAID" ∈ c.insuranceRequirements)
    (hgt3 : 3 < (distinctTherapists s c.id).length) :
    ∀ e ∈ fixMdMedicaidLimitClient clients therapists selectedDate callouts s c,
      e.clientId = some c.id → e.therapistId ∈ (distinctTherapists s c.id).take 3 := by
  rw [fixMdMedicaidLimitClient, if_neg (by simpa using hmd)]
  dsimp only
  rw [if_pos (by simpa [distinctTherapists] using hgt3)]
  exact medicaid_fold_cap clients therapists selectedDate callouts _ c.id
    (s.filter (fun x => x.clientId = some c.id)) s hids
    (fun e he hcid => Or.inr ⟨e, List.mem_filter.2 ⟨he, by simpa using hcid⟩, rfl, rfl⟩)

/-- Whatever the per-client pass outputs corresponds to an input entry, at
most with the therapist swapped. -/
theorem mem_fixMdMedicaidLimitClient {clients : List Client} {therapists : List Therapist}
    {selectedDate : JDate} {callouts : List Callout} {s : GeneratedSchedule} {c : Client}
    {e' : ScheduleEntry}
    (h : e' ∈ fixMdMedicaidLimitClient clients therapists selectedDate callouts s c) :
    ∃ g ∈ s, SameButTherapist g e' := by
  rw [fixMdMedicaidLimitClient] at h
  split at h
  · exact ⟨e', h, sameButTherapist_refl _⟩
  · dsimp only at h
    split at h
    · have : ∀ (snap : List ScheduleEntry) (cur : GeneratedSchedule) (e' : ScheduleEntry),
          e' ∈ snap.foldl (medicaidFixSession clients therapists selectedDate callouts
            ((jsDedup ((s.filter (fun x => x.clientId = some c.id)).map
              (fun x => x.therapistId))).take 3)) cur →
          ∃ g ∈ cur, SameButTherapist g e' := by
        intro snap
        induction snap with
        | nil => intro cur e' h; exact ⟨e', h, sameButTherapist_refl _⟩
        | cons sess snap' ih =>
          intro cur e' h
          obtain ⟨g, hg, hsame⟩ := ih _ e' h
          obtain ⟨g2, hg2, hsame2, -⟩ := mem_medicaidFixSession hg
          exact ⟨g2, hg2, sameButTherapist_trans hsame2 hsame⟩
      exact this _ s e' h
    · exact ⟨e', h, sameButTherapist_refl _⟩

theorem filter_updateFirstById_of_ne {cid c'id : String} (hne : cid ≠ c'id)
    (eid : String) (f : ScheduleEntry → ScheduleEntry)
    (hfcl : ∀ e, (f e).clientId = e.clientId) :
    ∀ (l : GeneratedSchedule), (∀ e ∈ l, e.id = eid → e.clientId = some c'id) →
      (updateFirstById eid f l).filter (fun e => e.clientId = some cid) =
        l.filter (fun e => e.clientId = some cid) := by
  intro l
  induction l with
  | nil => intro _; rfl
  | cons e rest ih =>
    intro hsess
    rw [updateFirstById]
    by_cases heq : e.id = eid
    · rw [if_pos heq]
      have hcl : e.clientId = some c'id := hsess e (List.mem_cons_self _ _) heq
      have h1 : (decide ((f e).clientId = some cid)) = false := by
        rw [hfcl, hcl]
        simp [hne.symm]
      have h2 : (decide (e.clientId = some cid)) = false := by
        rw [hcl]
        simp [hne.symm]
      rw [List.filter_cons, List.filter_cons, h1, h2]
      simp
    · rw [if_neg heq]
      rw [List.filter_cons, List.filter_cons,
        ih (fun x hx hxe => hsess x (List.mem_cons_of_mem _ hx) hxe)]

theorem filter_removeFirstById_of_ne {cid c'id : String} (hne : cid ≠ c'id)
    (eid : String) :
    ∀ (l : GeneratedSchedule), (∀ e ∈ l, e.id = eid → e.clientId = some c'id) →
      (removeFirstById eid l).filter (fun e => e.clientId = some cid) =
        l.filter (fun e => e.clientId = some cid) := by
  intro l
  induction l with
  | nil => intro _; rfl
  | cons e rest ih =>
    intro hsess
    rw [removeFirstById]
    by_cases heq : e.id = eid
    · rw [if_pos heq]
      have hcl : e.clientId = some c'id := hsess e (List.mem_cons_self _ _) heq
      have h2 : (decide (e.clientId = some cid)) = false := by
        rw [hcl]
        simp [hne.symm]
      rw [List.filter_cons, h2]
      simp
    · rw [if_neg heq]
      rw [List.filter_cons, List.filter_cons,
        ih (fun x hx hxe => hsess x (List.mem_cons_of_mem _ hx) hxe)]

theorem medicaidFixSession_filter_frame {clients : List Client} {therapists : List Therapist}
    {selectedDate : JDate} {callouts : List Callout} {allowedIds : List String}
    {cid c'id : String} (hne : cid ≠ c'id) (cur : GeneratedSchedule) (sess : ScheduleEntry)
    (hsess : ∀ e ∈ cur, e.id = sess.id → e.clientId = some c'id) :
    (medicaidFixSession clients therapists selectedDate callouts allowedIds cur sess).filter
      (fun e => e.clientId = some cid) = cur.filter (fun e => e.clientId = some cid) := by
  rw [medicaidFixSession]
  split
  · rfl
  · dsimp only
    split
    · split
      next t hgt =>
        exact filter_updateFirstById_of_ne hne sess.id
          (fun e => { e with therapistId := t.id, therapistName := t.name })
          (fun _ => rfl) cur hsess
      · rfl
    · exact filter_removeFirstById_of_ne hne sess.id cur hsess

theorem medicaid_fold_filter_frame {clients : List Client} {therapists : List Therapist}
    {selectedDate : JDate} {callouts : List Callout} {allowedIds : List String}
    {cid c'id : String} (hne : cid ≠ c'id) (snapIds : List String) :
    ∀ (snap : List ScheduleEntry) (cur : GeneratedSchedule),
      (∀ s0 ∈ snap, s0.id ∈ snapIds) →
      (∀ e ∈ cur, e.id ∈ snapIds → e.clientId = some c'id) →
      (snap.foldl (medicaidFixSession clients therapists selectedDate callouts allowedIds)
        cur).filter (fun e => e.clientId = some cid) =
        cur.filter (fun e => e.clientId = some cid) := by
  intro snap
  induction snap with
  | nil => intro cur _ _; rfl
  | cons sess snap' ih =>
    intro cur hsnap hinv
    rw [List.foldl_cons]
    have hstep := @medicaidFixSession_filter_frame clients therapists selectedDate callouts
      allowedIds cid c'id hne cur sess
      (fun e he hide => hinv e he (hide ▸ hsnap sess (List.mem_cons_self _ _)))
    have hinv' : ∀ e' ∈ medicaidFixSession clients therapists selectedDate callouts
        allowedIds cur sess, e'.id ∈ snapIds → e'.clientId = some c'id := by
      intro e' he' hid
      obtain ⟨g, hg, hsame, -⟩ := mem_medicaidFixSession he'
      rw [hsame.2.2.1]
      rw [hsame.1] at hid
      exact hinv g hg hid
    rw [ih _ (fun s0 hs0 => hsnap s0 (List.mem_cons_of_mem _ hs0)) hinv', hstep]

theorem fixMdMedicaidLimitClient_filter_frame {clients : List Client}
    {therapists : List Therapist} {selectedDate : JDate} {callouts : List Callout}
    {s : GeneratedSchedule} {c : Client} {cid : String}
    (hids : (s.map (fun e => e.id)).Nodup) (hne : cid ≠ c.id) :
    (fixMdMedicaidLimitClient clients therapists selectedDate callouts s c).filter
      (fun e => e.clientId = some cid) = s.filter (fun e => e.clientId = some cid) := by
  rw [fixMdMedicaidLimitClient]
  split
  · rfl
  · dsimp only
    split
    · apply medicaid_fold_filter_frame hne
        ((s.filter (fun x => x.clientId = some c.id)).map (fun e => e.id))
      · intro s0 hs0
        exact List.mem_map_of_mem _ hs0
      · intro e he hid
        obtain ⟨g, hg, hgid⟩ := List.mem_map.1 hid
        have hgs : g ∈ s := (List.mem_filter.1 hg).1
        have := eq_of_mem_of_id_eq hids he hgs hgid.symm
        rw [this]
        simpa using (List.mem_filter.1 hg).2
    · rfl

/-! Lifted to the fold over all clients. -/

theorem fixMdMedicaidLimit_fold_ids_sublist (clients0 : List Client)
    (therapists : List Therapist) (selectedDate : JDate) (callouts : List Callout) :
    ∀ (L : List Client) (s : GeneratedSchedule),
      ((L.foldl (fixMdMedicaidLimitClient clients0 therapists selectedDate callouts) s).map
        (fun e => e.id)).Sublist (s.map (fun e => e.id)) := by
  intro L
  induction L with
  | nil => intro s; exact List.Sublist.refl _
  | cons c L' ih =>
    intro s
    exact (ih _).trans (fixMdMedicaidLimitClient_ids_sublist _ _ _ _ s c)

theorem fixMdMedicaidLimit_fold_mem {clients0 : List Client} {therapists : List Therapist}
    {selectedDate : JDate} {callouts : List Callout} :
    ∀ {L : List Client} {s : GeneratedSchedule} {e' : ScheduleEntry},
      e' ∈ L.foldl (fixMdMedicaidLimitClient clients0 therapists selectedDate callouts) s →
      ∃ g ∈ s, SameButTherapist g e' := by
  intro L
  induction L with
  | nil => intro s e' h; exact ⟨e', h, sameButTherapist_refl _⟩
  | cons c L' ih =>
    intro s e' h
    obtain ⟨g, hg, hsame⟩ := ih h
    obtain ⟨g2, hg2, hsame2⟩ := mem_fixMdMedicaidLimitClient hg
    exact ⟨g2, hg2, sameButTherapist_trans hsame2 hsame⟩

theorem fixMdMedicaidLimit_fold_filter_frame {clients0 : List Client}
    {therapists : List Therapist} {selectedDate : JDate} {callouts : List Callout}
    {cid : String} :
    ∀ (L : List Client) (s : GeneratedSchedule), (s.map (fun e => e.id)).Nodup →
      (∀ c' ∈ L, cid ≠ c'.id) →
      (L.foldl (fixMdMedicaidLimitClient clients0 therapists selectedDate callouts) s).filter
        (fun e => e.clientId = some cid) = s.filter (fun e => e.clientId = some cid) := by
  intro L
  induction L with
  | nil => intro s _ _; rfl
  | cons c L' ih =>
    intro s hids hne
    rw [List.foldl_cons]
    rw [ih _ ((fixMdMedicaidLimitClient_ids_sublist _ _ _ _ s c).nodup hids)
      (fun c' hc' => hne c' (List.mem_cons_of_mem _ hc'))]
    exact fixMdMedicaidLimitClient_filter_frame hids (hne c (List.mem_cons_self _ _))

theorem fixMdMedicaidLimitClient_preserve_cap {clients0 : List Client}
    {therapists : List Therapist} {selectedDate : JDate} {callouts : List Callout}
    {s : GeneratedSchedule} {c' : Client} {cid : String}
    (hids : (s.map (fun e => e.id)).Nodup)
    (hcap : (distinctTherapists s cid).length ≤ 3) :
    (distinctTherapists (fixMdMedicaidLimitClient clients0 therapists selectedDate callouts
      s c') cid).length ≤ 3 := by
  by_cases hmd : "MD_MEDICAID" ∈ c'.insuranceRequirements
  · by_cases hcid : cid = c'.id
    · subst hcid
      exact fixMdMedicaidLimitClient_cap clients0 therapists selectedDate callouts s c'
        hids hmd
    · rw [distinctTherapists, fixMdMedicaidLimitClient_filter_frame hids hcid]
      exact hcap
  · rw [fixMdMedicaidLimitClient, if_pos (by simpa using hmd)]
    exact hcap

theorem fixMdMedicaidLimit_fold_preserve_cap {clients0 : List Client}
    {therapists : List Therapist} {selectedDate : JDate} {callouts : List Callout}
    {cid : String} :
    ∀ (L : List Client) (s : GeneratedSchedule), (s.map (fun e => e.id)).Nodup →
      (distinctTherapists s cid).length ≤ 3 →
      (distinctTherapists (L.foldl (fixMdMedicaidLimitClient clients0 therapists selectedDate
        callouts) s) cid).length ≤ 3 := by
  intro L
  induction L with
  | nil => intro s _ h; exact h
  | cons c L' ih =>
    intro s hids hcap
    rw [List.foldl_cons]
    exact ih _ ((fixMdMedicaidLimitClient_ids_sublist _ _ _ _ s c).nodup hids)
      (fixMdMedicaidLimitClient_preserve_cap hids hcap)

/-- A pass for a client not carrying MD_MEDICAID is the identity. -/
theorem fixMdMedicaidLimitClient_noop_nonMd {clients : List Client}
    {therapists : List Therapist} {selectedDate : JDate} {callouts : List Callout}
    {s : GeneratedSchedule} {c : Client}
    (hmd : "MD_MEDICAID" ∉ c.insuranceRequirements) :
    fixMdMedicaidLimitClient clients therapists selectedDate callouts s c = s := by
  rw [fixMdMedicaidLimitClient, if_pos (by simpa using hmd)]

/-- A pass for a client id already within the cap is the identity. -/
theorem fixMdMedicaidLimitClient_noop_cap {clients : List Client}
    {therapists : List Therapist} {selectedDate : JDate} {callouts : List Callout}
    {s : GeneratedSchedule} {c : Client}
    (hcap : (distinctTherapists s c.id).length ≤ 3) :
    fixMdMedicaidLimitClient clients therapists selectedDate callouts s c = s := by
  rw [fixMdMedicaidLimitClient]
  split
  · rfl
  · dsimp only
    rw [if_neg (by simpa [distinctTherapists, not_lt] using hcap)]

/-- Passes of clients that do no Medicaid work for `cid` (a different id,
or no MD_MEDICAID requirement) keep `cid`'s entries unchanged. -/
theorem fold_filter_frame_weak {clients0 : List Client} {therapists : List Therapist}
    {selectedDate : JDate} {callouts : List Callout} {cid : String} :
    ∀ (L : List Client) (s : GeneratedSchedule), (s.map (fun e => e.id)).Nodup →
      (∀ c' ∈ L, cid ≠ c'.id ∨ "MD_MEDICAID" ∉ c'.insuranceRequirements) →
      (L.foldl (fixMdMedicaidLimitClient clients0 therapists selectedDate callouts)
        s).filter (fun e => e.clientId = some cid) =
        s.filter (fun e => e.clientId = some cid) := by
  intro L
  induction L with
  | nil => intro s _ _; rfl
  | cons c L' ih =>
    intro s hids hw
    rw [List.foldl_cons]
    rcases hw c (List.mem_cons_self _ _) with hne | hnmd
    · rw [ih _ ((fixMdMedicaidLimitClient_ids_sublist _ _ _ _ s c).nodup hids)
        (fun c' hc' => hw c' (List.mem_cons_of_mem _ hc'))]
      exact fixMdMedicaidLimitClient_filter_frame hids hne
    · rw [fixMdMedicaidLimitClient_noop_nonMd hnmd]
      exact ih s hids (fun c' hc' => hw c' (List.mem_cons_of_mem _ hc'))

/-- Once a client id is within the cap, every later pass keeps its entries
unchanged: a pass for the same id is the identity, and other passes leave
the id's entries alone. -/
theorem fold_filter_frame_of_cap {clients0 : List Client} {therapists : List Therapist}
    {selectedDate : JDate} {callouts : List Callout} {cid : String} :
    ∀ (L : List Client) (s : GeneratedSchedule), (s.map (fun e => e.id)).Nodup →
      (distinctTherapists s cid).length ≤ 3 →
      (L.foldl (fixMdMedicaidLimitClient clients0 therapists selectedDate callouts)
        s).filter (fun e => e.clientId = some cid) =
        s.filter (fun e => e.clientId = some cid) := by
  intro L
  induction L with
  | nil => intro s _ _; rfl
  | cons c L' ih =>
    intro s hids hcap
    rw [List.foldl_cons]
    by_cases hcid : cid = c.id
    · rw [fixMdMedicaidLimitClient_noop_cap (hcid ▸ hcap)]
      exact ih s hids hcap
    · have hstep := @fixMdMedicaidLimitClient_filter_frame clients0 therapists selectedDate
        callouts s c cid hids hcid
      rw [ih _ ((fixMdMedicaidLimitClient_ids_sublist _ _ _ _ s c).nodup hids)
        (fixMdMedicaidLimitClient_preserve_cap hids hcap), hstep]

/-- The first element of a list satisfying a property, with the prefix of
non-satisfying elements. -/
theorem exists_first_split {α : Type} (p : α → Prop) :
    ∀ {l : List α} {x : α}, x ∈ l → p x →
      ∃ K1 a K2, l = K1 ++ a :: K2 ∧ p a ∧ ∀ b ∈ K1, ¬p b := by
  intro l
  induction l with
  | nil => intro x hx _; exact absurd hx (List.not_mem_nil x)
  | cons y t ih =>
    intro x hx hp
    by_cases hy : p y
    · exact ⟨[], y, t, rfl, hy, fun b hb => absurd hb (List.not_mem_nil b)⟩
    · have hxt : x ∈ t := by
        rcases List.mem_cons.1 hx with h | h
        · exact absurd (h ▸ hp) hy
        · exact h
      obtain ⟨K1, a, K2, hsplit, hpa, hK1⟩ := ih hxt hp
      refine ⟨y :: K1, a, K2, by rw [hsplit]; rfl, hpa, fun b hb => ?_⟩
      rcases List.mem_cons.1 hb with h | h
      · exact h ▸ hy
      · exact hK1 b h

/-- Amended claim C2: provided the schedule's entry ids are pairwise
distinct (as the engine's freshly generated ids are), after
`fixMdMedicaidLimit` every MD_MEDICAID client has at most 3 distinct
therapists across its entries, and when a client had more than three,
every entry of that client under a forbidden therapist is either
reassigned to one of the first three distinct therapists (all other
fields preserved) or absent from the result.  Duplicate client records
are harmless: the first MD_MEDICAID pass for an id does the work, and
every later pass for that id finds it within the cap and is the
identity. -/
theorem fixMdMedicaidLimit_cap_amended (schedule : GeneratedSchedule)
    (clients : List Client) (therapists : List Therapist) (selectedDate : JDate)
    (callouts : List Callout)
    (hids : (schedule.map (fun e => e.id)).Nodup) :
    (∀ c ∈ clients, "MD_MEDICAID" ∈ c.insuranceRequirements →
      (distinctTherapists (fixMdMedicaidLimit schedule clients therapists selectedDate callouts)
        c.id).length ≤ 3) ∧
    (∀ c ∈ clients, "MD_MEDICAID" ∈ c.insuranceRequirements →
      3 < (distinctTherapists schedule c.id).length →
      ∀ e ∈ schedule, e.clientId = some c.id →
        e.therapistId ∉ (distinctTherapists schedule c.id).take 3 →
        ((∃ e' ∈ fixMdMedicaidLimit schedule clients therapists selectedDate callouts,
            e'.id = e.id ∧ e'.therapistId ∈ (distinctTherapists schedule c.id).take 3 ∧
            SameButTherapist e e') ∨
          (∀ e' ∈ fixMdMedicaidLimit schedule clients therapists selectedDate callouts,
            e'.id ≠ e.id))) := by
  constructor
  · intro c hc hmd
    obtain ⟨L1, L2, rfl⟩ := List.append_of_mem hc
    rw [fixMdMedicaidLimit, List.foldl_append, List.foldl_cons]
    have hids1 : ((L1.foldl (fixMdMedicaidLimitClient (L1 ++ c :: L2) therapists selectedDate
        callouts) schedule).map (fun e => e.id)).Nodup :=
      (fixMdMedicaidLimit_fold_ids_sublist _ _ _ _ L1 schedule).nodup hids
    have hcap := fixMdMedicaidLimitClient_cap (L1 ++ c :: L2) therapists selectedDate callouts
      _ c hids1 hmd
    exact fixMdMedicaidLimit_fold_preserve_cap L2 _
      ((fixMdMedicaidLimitClient_ids_sublist _ _ _ _ _ c).nodup hids1) hcap
  · intro c hc hmd hgt3 e he hecid hent
    obtain ⟨K1, c0, K2, hsplit, hp0, hK1⟩ :=
      exists_first_split
        (fun c' => c'.id = c.id ∧ "MD_MEDICAID" ∈ c'.insuranceRequirements) hc ⟨rfl, hmd⟩
    rw [fixMdMedicaidLimit, hsplit, List.foldl_append, List.foldl_cons]
    set ctx := K1 ++ c0 :: K2 with hctx
    set s1 := K1.foldl (fixMdMedicaidLimitClient ctx therapists selectedDate callouts)
      schedule with hs1
    have hids1 : (s1.map (fun e => e.id)).Nodup :=
      (fixMdMedicaidLimit_fold_ids_sublist _ _ _ _ K1 schedule).nodup hids
    have hframe1 : s1.filter (fun x => x.clientId = some c.id) =
        schedule.filter (fun x => x.clientId = some c.id) :=
      fold_filter_frame_weak K1 schedule hids (fun c' hc' => by
        by_cases hmd' : "MD_MEDICAID" ∈ c'.insuranceRequirements
        · left
          intro heq
          exact hK1 c' hc' ⟨heq.symm, hmd'⟩
        · right
          exact hmd')
    have hdt1 : distinctTherapists s1 c.id = distinctTherapists schedule c.id := by
      rw [distinctTherapists, distinctTherapists, hframe1]
    set s2 := fixMdMedicaidLimitClient ctx therapists selectedDate callouts s1 c0 with hs2
    have hids2 : (s2.map (fun e => e.id)).Nodup :=
      (fixMdMedicaidLimitClient_ids_sublist _ _ _ _ s1 c0).nodup hids1
    have hstrong := fixMdMedicaidLimitClient_strong ctx therapists selectedDate callouts
      s1 c0 hids1 hp0.2 (by rw [hp0.1, hdt1]; exact hgt3)
    have hcap2 : (distinctTherapists s2 c.id).length ≤ 3 := by
      rw [← hp0.1]
      exact fixMdMedicaidLimitClient_cap ctx therapists selectedDate callouts s1 c0
        hids1 hp0.2
    have hframe2 : (K2.foldl (fixMdMedicaidLimitClient ctx therapists selectedDate callouts)
        s2).filter (fun x => x.clientId = some c.id) =
        s2.filter (fun x => x.clientId = some c.id) :=
      fold_filter_frame_of_cap K2 s2 hids2 hcap2
    by_cases hex : ∃ e' ∈ K2.foldl (fixMdMedicaidLimitClient ctx therapists selectedDate
        callouts) s2, e'.id = e.id
    · left
      obtain ⟨e', he', hid⟩ := hex
      -- correspondence back to the original schedule
      obtain ⟨g2, hg2, hsame2⟩ := fixMdMedicaidLimit_fold_mem he'
      obtain ⟨g1, hg1, hsame1⟩ := mem_fixMdMedicaidLimitClient hg2
      obtain ⟨g0, hg0, hsame0⟩ := fixMdMedicaidLimit_fold_mem hg1
      have hsame : SameButTherapist g0 e' :=
        sameButTherapist_trans (sameButTherapist_trans hsame0 hsame1) hsame2
      have hg0e : g0 = e := eq_of_mem_of_id_eq hids hg0 he (hsame.1 ▸ hid)
      subst hg0e
      have hcid' : e'.clientId = some c.id := hsame.2.2.1.trans hecid
      have he'mem : e' ∈ s2.filter (fun x => x.clientId = some c.id) := by
        rw [← hframe2]
        exact List.mem_filter.2 ⟨he', by simpa using hcid'⟩
      have he's2 : e' ∈ s2 := (List.mem_filter.1 he'mem).1
      have hth : e'.therapistId ∈ (distinctTherapists schedule c.id).take 3 := by
        rw [← hdt1]
        have h3 := hstrong e' he's2 (by rw [hp0.1]; exact hcid')
        rwa [hp0.1] at h3
      exact ⟨e', he', hid, hth, hsame⟩
    · right
      push_neg at hex
      exact hex

/-- Witness for the amended claim C2 at a concrete over-cap schedule: four
one-hour sessions of an MD_MEDICAID client under four distinct therapists;
the fourth is swapped to one of the first three. -/
theorem fixMdMedicaidLimit_cap_amended_witness :
    (([⟨"a", some "C", some "c", "T1", "t1", DayOfWeek.monday, 480, 540, SessionType.ABA⟩,
       ⟨"b", some "C", some "c", "T2", "t2", DayOfWeek.monday, 555, 615, SessionType.ABA⟩,
       ⟨"c3", some "C", some "c", "T3", "t3", DayOfWeek.monday, 630, 690, SessionType.ABA⟩,
       ⟨"d", some "C", some "c", "T4", "t4", DayOfWeek.monday, 705, 765, SessionType.ABA⟩] :
       GeneratedSchedule).map (fun e => e.id)).Nodup ∧
    (∀ c ∈ ([⟨"c", "C", none, ["MD_MEDICAID"], []⟩] : List Client),
      "MD_MEDICAID" ∈ c.insuranceRequirements →
      (distinctTherapists (fixMdMedicaidLimit
        [⟨"a", some "C", some "c", "T1", "t1", DayOfWeek.monday, 480, 540, SessionType.ABA⟩,
         ⟨"b", some "C", some "c", "T2", "t2", DayOfWeek.monday, 555, 615, SessionType.ABA⟩,
         ⟨"c3", some "C", some "c", "T3", "t3", DayOfWeek.monday, 630, 690, SessionType.ABA⟩,
         ⟨"d", some "C", some "c", "T4", "t4", DayOfWeek.monday, 705, 765, SessionType.ABA⟩]
        [⟨"c", "C", none, ["MD_MEDICAID"], []⟩]
        [⟨"t1", "T1", none, "RBT", ["MD_MEDICAID"], []⟩,
         ⟨"t2", "T2", none, "RBT", ["MD_MEDICAID"], []⟩,
         ⟨"t3", "T3", none, "RBT", ["MD_MEDICAID"], []⟩,
         ⟨"t4", "T4", none, "RBT", ["MD_MEDICAID"], []⟩]
        ⟨0, DayOfWeek.monday, true⟩ []) c.id).length ≤ 3) :=
  ⟨by decide,
   (fixMdMedicaidLimit_cap_amended
      [⟨"a", some "C", some "c", "T1", "t1", DayOfWeek.monday, 480, 540, SessionType.ABA⟩,
       ⟨"b", some "C", some "c", "T2", "t2", DayOfWeek.monday, 555, 615, SessionType.ABA⟩,
       ⟨"c3", some "C", some "c", "T3", "t3", DayOfWeek.monday, 630, 690, SessionType.ABA⟩,
       ⟨"d", some "C", some "c", "T4", "t4", DayOfWeek.monday, 705, 765, SessionType.ABA⟩]
      [⟨"c", "C", none, ["MD_MEDICAID"], []⟩]
      [⟨"t1", "T1", none, "RBT", ["MD_MEDICAID"], []⟩,
       ⟨"t2", "T2", none, "RBT", ["MD_MEDICAID"], []⟩,
       ⟨"t3", "T3", none, "RBT", ["MD_MEDICAID"], []⟩,
       ⟨"t4", "T4", none, "RBT", ["MD_MEDICAID"], []⟩]
      ⟨0, DayOfWeek.monday, true⟩ [] (by decide)).1⟩

/-! ## Claim C5: the availability tracker on a single booking -/

/-- C5: for an `AvailabilityTracker` built from an empty schedule and no
callouts, after `book(t, c, a, b)` with `[a, b)` a non-empty range aligned
to the 15-minute grid, `isAvailable` for therapist `t` (and likewise for
client `c`) returns `false` exactly on the grid-aligned non-empty ranges
`[x, y)` overlapping `[a, b)` and `true` exactly on the disjoint ones. -/
theorem tracker_book_isAvailable_iff (date : JDate) (t c : String) (a b x y : ℤ)
    (ha : 0 ≤ a) (hab : a < b) (hx : 0 ≤ x) (hxy : x < y)
    (da : 15 ∣ a) (db : 15 ∣ b) (dx : 15 ∣ x) (dy : 15 ∣ y) :
    ((((AvailabilityTracker.rebuild [] [] date).book t (some c) a b).isAvailable
        EntityKind.therapist t x y none = false ↔ (a < y ∧ x < b)) ∧
     (((AvailabilityTracker.rebuild [] [] date).book t (some c) a b).isAvailable
        EntityKind.therapist t x y none = true ↔ (b ≤ x ∨ y ≤ a))) ∧
    ((((AvailabilityTracker.rebuild [] [] date).book t (some c) a b).isAvailable
        EntityKind.client c x y none = false ↔ (a < y ∧ x < b)) ∧
     (((AvailabilityTracker.rebuild [] [] date).book t (some c) a b).isAvailable
        EntityKind.client c x y none = true ↔ (b ≤ x ∨ y ≤ a))) := by
  have key := getRangeMask_land_eq_zero_iff ha hab hx hxy da db dx dy
  have ht : ((AvailabilityTracker.rebuild [] [] date).book t (some c) a b).isAvailable
      EntityKind.therapist t x y none = decide (getRangeMask a b &&& getRangeMask x y = 0) := by
    simp [AvailabilityTracker.rebuild, AvailabilityTracker.book,
      AvailabilityTracker.isAvailable]
  have hc : ((AvailabilityTracker.rebuild [] [] date).book t (some c) a b).isAvailable
      EntityKind.client c x y none = decide (getRangeMask a b &&& getRangeMask x y = 0) := by
    simp [AvailabilityTracker.rebuild, AvailabilityTracker.book,
      AvailabilityTracker.isAvailable]
  rw [ht, hc]
  refine ⟨⟨?_, ?_⟩, ?_, ?_⟩ <;>
    simp only [decide_eq_false_iff_not, decide_eq_true_eq, key] <;> omega

/-- Witness for C5 at a concrete overlapping and a concrete disjoint query:
booking `[09:00, 10:00)` makes `[09:30, 09:45)` unavailable for both the
therapist and the client. -/
theorem tracker_book_isAvailable_iff_witness :
    ((0:ℤ) ≤ 540 ∧ (540:ℤ) < 600 ∧ (0:ℤ) ≤ 570 ∧ (570:ℤ) < 585 ∧
      (15:ℤ) ∣ 540 ∧ (15:ℤ) ∣ 600 ∧ (15:ℤ) ∣ 570 ∧ (15:ℤ) ∣ 585) ∧
    ((((AvailabilityTracker.rebuild [] [] ⟨0, DayOfWeek.monday, true⟩).book "t1" (some "c1") 540 600).isAvailable
        EntityKind.therapist "t1" 570 585 none = false ↔ ((540:ℤ) < 585 ∧ (570:ℤ) < 600)) ∧
     (((AvailabilityTracker.rebuild [] [] ⟨0, DayOfWeek.monday, true⟩).book "t1" (some "c1") 540 600).isAvailable
        EntityKind.therapist "t1" 570 585 none = true ↔ ((600:ℤ) ≤ 570 ∨ (585:ℤ) ≤ 540))) ∧
    ((((AvailabilityTracker.rebuild [] [] ⟨0, DayOfWeek.monday, true⟩).book "t1" (some "c1") 540 600).isAvailable
        EntityKind.client "c1" 570 585 none = false ↔ ((540:ℤ) < 585 ∧ (570:ℤ) < 600)) ∧
     (((AvailabilityTracker.rebuild [] [] ⟨0, DayOfWeek.monday, true⟩).book "t1" (some "c1") 540 600).isAvailable
        EntityKind.client "c1" 570 585 none = true ↔ ((600:ℤ) ≤ 570 ∨ (585:ℤ) ≤ 540))) :=
  ⟨by decide,
   (tracker_book_isAvailable_iff ⟨0, DayOfWeek.monday, true⟩ "t1" "c1" 540 600 570 585
      (by decide) (by decide) (by decide) (by decide)
      (by decide) (by decide) (by decide) (by decide)).1,
   (tracker_book_isAvailable_iff ⟨0, DayOfWeek.monday, true⟩ "t1" "c1" 540 600 570 585
      (by decide) (by decide) (by decide) (by decide)
      (by decide) (by decide) (by decide) (by decide)).2⟩

/-! ## Claim C6: the same-client back-to-back predicate and the kernel -/

/-- C6: `hasSameClientBackToBackConflict(schedule, E, ignoreEntryId?)`
returns true iff `E` has a non-null client and some non-ignored entry of
the schedule shares its therapist, client and day and touches it (its end
is `E`'s start or its start is `E`'s end); whenever it returns true,
`canAddEntryToSchedule` for `E` reports a hard violation and returns
`valid = false`. -/
theorem backToBack_characterization (schedule : GeneratedSchedule)
    (entry : ScheduleEntry) (ignoreEntryId : Option String)
    (clients : List Client) (therapists : List Therapist) (selectedDate : JDate)
    (callouts : List Callout) :
    (hasSameClientBackToBackConflict schedule entry ignoreEntryId = true ↔
      ((∃ cid, entry.clientId = some cid) ∧
        ∃ s ∈ schedule,
          (∀ i, ignoreEntryId = some i → s.id ≠ i) ∧
          s.therapistId = entry.therapistId ∧
          s.clientId = entry.clientId ∧
          s.day = entry.day ∧
          (s.endTime = entry.startTime ∨ s.startTime = entry.endTime))) ∧
    (hasSameClientBackToBackConflict schedule entry ignoreEntryId = true →
      (canAddEntryToSchedule entry schedule clients therapists selectedDate callouts
          ignoreEntryId).valid = false ∧
      ∃ v ∈ (canAddEntryToSchedule entry schedule clients therapists selectedDate callouts
          ignoreEntryId).violations, v.type = VioKind.hard) := by
  constructor
  · rw [hasSameClientBackToBackConflict]
    cases hcid : entry.clientId with
    | none => simp [hcid]
    | some cid =>
      simp only [List.any_eq_true, Bool.and_eq_true, decide_eq_true_eq, Bool.or_eq_true]
      constructor
      · rintro ⟨s, hs, ⟨⟨⟨hni, hth⟩, hcl⟩, hday⟩, htouch⟩
        refine ⟨⟨cid, rfl⟩, s, hs, ?_, hth, hcl, hday, htouch⟩
        intro i hi
        rw [hi] at hni
        simpa [notIgnored] using hni
      · rintro ⟨-, s, hs, hni, hth, hcl, hday, htouch⟩
        refine ⟨s, hs, ⟨⟨⟨?_, hth⟩, hcl⟩, hday⟩, htouch⟩
        cases ignoreEntryId with
        | none => simp [notIgnored]
        | some i => simpa [notIgnored] using hni i rfl
  · intro hb2b
    have hmem : (⟨VioKind.hard, 100,
        "Therapist cannot have contiguous sessions with the same client (back-to-back forbidden)"⟩ :
          ConstraintViolation) ∈
        (canAddEntryToSchedule entry schedule clients therapists selectedDate callouts
          ignoreEntryId).violations := by
      rw [canAddEntryToSchedule]
      simp only [hb2b, if_true]
      simp
    refine ⟨?_, _, hmem, rfl⟩
    rw [canAddEntryToSchedule] at hmem ⊢
    simp only [decide_eq_false_iff_not]
    intro hlen
    rw [List.length_eq_zero] at hlen
    rw [hlen] at hmem
    exact absurd hmem (List.not_mem_nil _)

/-- Witness for C6: a concrete schedule where the predicate fires (an
earlier 09:00 to 10:00 session of the same therapist and client touches a
10:00 to 11:00 candidate) and the kernel rejects the entry. -/
theorem backToBack_characterization_witness :
    (hasSameClientBackToBackConflict
        [⟨"e1", some "Cl", some "c1", "Th", "t1", DayOfWeek.monday, 540, 600, SessionType.ABA⟩]
        ⟨"e2", some "Cl", some "c1", "Th", "t1", DayOfWeek.monday, 600, 660, SessionType.ABA⟩
        none = true) ∧
    ((canAddEntryToSchedule
        ⟨"e2", some "Cl", some "c1", "Th", "t1", DayOfWeek.monday, 600, 660, SessionType.ABA⟩
        [⟨"e1", some "Cl", some "c1", "Th", "t1", DayOfWeek.monday, 540, 600, SessionType.ABA⟩]
        [] [] ⟨0, DayOfWeek.monday, true⟩ [] none).valid = false ∧
      ∃ v ∈ (canAddEntryToSchedule
        ⟨"e2", some "Cl", some "c1", "Th", "t1", DayOfWeek.monday, 600, 660, SessionType.ABA⟩
        [⟨"e1", some "Cl", some "c1", "Th", "t1", DayOfWeek.monday, 540, 600, SessionType.ABA⟩]
        [] [] ⟨0, DayOfWeek.monday, true⟩ [] none).violations, v.type = VioKind.hard) :=
  ⟨by decide,
   (backToBack_characterization
      [⟨"e1", some "Cl", some "c1", "Th", "t1", DayOfWeek.monday, 540, 600, SessionType.ABA⟩]
      ⟨"e2", some "Cl", some "c1", "Th", "t1", DayOfWeek.monday, 600, 660, SessionType.ABA⟩
      none [] [] ⟨0, DayOfWeek.monday, true⟩ []).2 (by decide)⟩



/-! ## Claim C3: conflict counts under the repair operators -/

/-- The duration clamp of `fixSessionDurations` on one entry: an ABA
session longer than 180 minutes is cut to 180, one shorter than 60 minutes
is extended to 60, by moving the end time; other session types pass
through. -/
def fixSessionDuration1 (entry : ScheduleEntry) : ScheduleEntry :=
  if entry.sessionType = SessionType.ABA then
    if entry.endTime - entry.startTime > 180 then
      { entry with endTime := entry.startTime + 180 }
    else if entry.endTime - entry.startTime < 60 then
      { entry with endTime := entry.startTime + 60 }
    else entry
  else entry

/-- `fixSessionDurations` of `csoService.ts` (the forEach pushes the image
of every entry). -/
def fixSessionDurations (schedule : GeneratedSchedule) : GeneratedSchedule :=
  schedule.map fixSessionDuration1

/-- A therapist time conflict between two entries: same therapist, same
day, overlapping times (the per-entry test of `hasTherapistConflict`). -/
def isTherapistConflictPair (a b : ScheduleEntry) : Bool :=
  a.therapistId = b.therapistId && a.day = b.day &&
    sessionsOverlap a.startTime a.endTime b.startTime b.endTime

/-- A client time conflict between two entries: same non-null client, same
day, overlapping times (the per-entry test of `hasClientConflict`). -/
def isClientConflictPair (a b : ScheduleEntry) : Bool :=
  a.clientId.isSome && a.clientId = b.clientId && a.day = b.day &&
    sessionsOverlap a.startTime a.endTime b.startTime b.endTime

/-- Number of entries of `l` in conflict with `e`. -/
def conflictsWith (p : ScheduleEntry → ScheduleEntry → Bool) (e : ScheduleEntry)
    (l : GeneratedSchedule) : ℕ :=
  (l.filter (p e)).length

/-- Number of unordered conflicting pairs of the schedule. -/
def conflictCount (p : ScheduleEntry → ScheduleEntry → Bool) : GeneratedSchedule → ℕ
  | [] => 0
  | e :: rest => conflictsWith p e rest + conflictCount p rest

/-- The number of therapist time conflicts of a schedule. -/
def therapistConflictCount (schedule : GeneratedSchedule) : ℕ :=
  conflictCount isTherapistConflictPair schedule

/-- The number of client time conflicts of a schedule. -/
def clientConflictCount (schedule : GeneratedSchedule) : ℕ :=
  conflictCount isClientConflictPair schedule

/-- Counterexample to claim C3 as stated: the duration clamp extends a
half-hour ABA session to a full hour with no availability check, and the
extension overlaps the therapist's (and the same client's) next session:
both conflict counts rise from zero to one. -/
theorem fixSessionDurations_conflict_increase :
    therapistConflictCount
        [⟨"x", some "C", some "c", "T", "t", DayOfWeek.monday, 540, 570, SessionType.ABA⟩,
         ⟨"y", some "C", some "c", "T", "t", DayOfWeek.monday, 570, 630, SessionType.ABA⟩] = 0 ∧
    clientConflictCount
        [⟨"x", some "C", some "c", "T", "t", DayOfWeek.monday, 540, 570, SessionType.ABA⟩,
         ⟨"y", some "C", some "c", "T", "t", DayOfWeek.monday, 570, 630, SessionType.ABA⟩] = 0 ∧
    therapistConflictCount (fixSessionDurations
        [⟨"x", some "C", some "c", "T", "t", DayOfWeek.monday, 540, 570, SessionType.ABA⟩,
         ⟨"y", some "C", some "c", "T", "t", DayOfWeek.monday, 570, 630, SessionType.ABA⟩]) = 1 ∧
    clientConflictCount (fixSessionDurations
        [⟨"x", some "C", some "c", "T", "t", DayOfWeek.monday, 540, 570, SessionType.ABA⟩,
         ⟨"y", some "C", some "c", "T", "t", DayOfWeek.monday, 570, 630, SessionType.ABA⟩]) = 1 := by
  exact ⟨by decide, by decide, by decide, by decide⟩

/-! Counting lemmas for conflict pairs. -/

theorem sessionsOverlap_comm (a1 a2 b1 b2 : ℤ) :
    sessionsOverlap a1 a2 b1 b2 = sessionsOverlap b1 b2 a1 a2 := by
  simp [sessionsOverlap, Bool.and_comm]

theorem isTherapistConflictPair_symm (a b : ScheduleEntry) :
    isTherapistConflictPair a b = isTherapistConflictPair b a := by
  rw [Bool.eq_iff_iff]
  simp only [isTherapistConflictPair, Bool.and_eq_true, decide_eq_true_eq, and_assoc,
    sessionsOverlap, Int.lt_iff_add_one_le]
  constructor
  · rintro ⟨h1, h2, h3, h4⟩
    exact ⟨h1.symm, h2.symm, h4, h3⟩
  · rintro ⟨h1, h2, h3, h4⟩
    exact ⟨h1.symm, h2.symm, h4, h3⟩

theorem isClientConflictPair_symm (a b : ScheduleEntry) :
    isClientConflictPair a b = isClientConflictPair b a := by
  rw [Bool.eq_iff_iff]
  simp only [isClientConflictPair, Bool.and_eq_true, decide_eq_true_eq, and_assoc,
    sessionsOverlap, Int.lt_iff_add_one_le]
  constructor
  · rintro ⟨h0, h1, h2, h3, h4⟩
    exact ⟨h1 ▸ h0, h1.symm, h2.symm, h4, h3⟩
  · rintro ⟨h0, h1, h2, h3, h4⟩
    exact ⟨h1 ▸ h0, h1.symm, h2.symm, h4, h3⟩

theorem conflictsWith_cons (p : ScheduleEntry → ScheduleEntry → Bool) (e a : ScheduleEntry)
    (l : GeneratedSchedule) :
    conflictsWith p e (a :: l) = (if p e a then 1 else 0) + conflictsWith p e l := by
  rw [conflictsWith, conflictsWith, List.filter_cons]
  split
  · simp [Nat.add_comm]
  · simp

theorem conflictsWith_append (p : ScheduleEntry → ScheduleEntry → Bool) (e : ScheduleEntry)
    (l1 l2 : GeneratedSchedule) :
    conflictsWith p e (l1 ++ l2) = conflictsWith p e l1 + conflictsWith p e l2 := by
  simp [conflictsWith, List.filter_append]

/-- Splitting off one entry of a schedule: its pairs with everybody else,
plus the pairs among the others. -/
theorem conflictCount_append_cons (p : ScheduleEntry → ScheduleEntry → Bool)
    (hsymm : ∀ a b, p a b = p b a) (A B : GeneratedSchedule) (e : ScheduleEntry) :
    conflictCount p (A ++ e :: B) =
      conflictsWith p e (A ++ B) + conflictCount p (A ++ B) := by
  induction A with
  | nil => simp [conflictCount]
  | cons a A ih =>
    have h1 : conflictCount p ((a :: A) ++ e :: B) =
        conflictsWith p a (A ++ e :: B) + conflictCount p (A ++ e :: B) := rfl
    have h2 : conflictCount p ((a :: A) ++ B) =
        conflictsWith p a (A ++ B) + conflictCount p (A ++ B) := rfl
    have h3 : conflictsWith p e ((a :: A) ++ B) =
        (if p e a then 1 else 0) + conflictsWith p e (A ++ B) :=
      conflictsWith_cons p e a (A ++ B)
    have h4 : conflictsWith p a (A ++ e :: B) =
        conflictsWith p a A + ((if p a e then 1 else 0) + conflictsWith p a B) := by
      rw [conflictsWith_append, conflictsWith_cons]
    rw [h1, h2, h3, h4, ih, conflictsWith_append p e A B, conflictsWith_append p a A B,
      hsymm a e]
    cases hpe : p e a <;> simp <;> omega

/-- `removeFirstById` either misses (schedule unchanged) or deletes one
occurrence in place. -/
theorem removeFirstById_cases (i : String) (l : GeneratedSchedule) :
    removeFirstById i l = l ∨
    ∃ A e B, l = A ++ e :: B ∧ e.id = i ∧ removeFirstById i l = A ++ B := by
  induction l with
  | nil => exact Or.inl rfl
  | cons a l ih =>
    by_cases h : a.id = i
    · refine Or.inr ⟨[], a, l, rfl, h, ?_⟩
      simp only [removeFirstById, if_pos h, List.nil_append]
    · rcases ih with heq | ⟨A, e, B, hl, hei, hres⟩
      · left
        simp only [removeFirstById, if_neg h, heq]
      · refine Or.inr ⟨a :: A, e, B, by rw [hl, List.cons_append], hei, ?_⟩
        simp only [removeFirstById, if_neg h, hres, List.cons_append]

/-- `updateFirstById` either misses or rewrites one occurrence in place. -/
theorem updateFirstById_cases (i : String) (f : ScheduleEntry → ScheduleEntry)
    (l : GeneratedSchedule) :
    updateFirstById i f l = l ∨
    ∃ A e B, l = A ++ e :: B ∧ e.id = i ∧ updateFirstById i f l = A ++ f e :: B := by
  induction l with
  | nil => exact Or.inl rfl
  | cons a l ih =>
    by_cases h : a.id = i
    · refine Or.inr ⟨[], a, l, rfl, h, ?_⟩
      simp only [updateFirstById, if_pos h, List.nil_append]
    · rcases ih with heq | ⟨A, e, B, hl, hei, hres⟩
      · left
        simp only [updateFirstById, if_neg h, heq]
      · refine Or.inr ⟨a :: A, e, B, by rw [hl, List.cons_append], hei, ?_⟩
        simp only [updateFirstById, if_neg h, hres, List.cons_append]

theorem conflictCount_removeFirstById_le (p : ScheduleEntry → ScheduleEntry → Bool)
    (hsymm : ∀ a b, p a b = p b a) (i : String) (l : GeneratedSchedule) :
    conflictCount p (removeFirstById i l) ≤ conflictCount p l := by
  rcases removeFirstById_cases i l with heq | ⟨A, e, B, hl, -, hres⟩
  · rw [heq]
  · rw [hres, hl, conflictCount_append_cons p hsymm]
    exact Nat.le_add_left _ _

/-- A kernel acceptance means in particular no therapist time conflict
against the schedule it was checked on. -/
theorem canAdd_valid_no_therapist_conflict {entry : ScheduleEntry}
    {schedule : GeneratedSchedule} {clients : List Client} {therapists : List Therapist}
    {selectedDate : JDate} {callouts : List Callout} {ignoreId : Option String}
    (h : (canAddEntryToSchedule entry schedule clients therapists selectedDate callouts
      ignoreId).valid = true) :
    hasTherapistConflict schedule entry ignoreId = false := by
  by_contra hb
  rw [Bool.not_eq_false] at hb
  simp [canAddEntryToSchedule, hb] at h

theorem notIgnored_some (i : String) (s : ScheduleEntry) :
    notIgnored (some i) s = decide (s.id ≠ i) := rfl

/-- Swapping the therapist of two entries equal but for the therapist
yields the same entry. -/
theorem swap_eq_of_sameBut {g e : ScheduleEntry} (h : SameButTherapist g e)
    (tid tname : String) :
    ({ e with therapistId := tid, therapistName := tname } : ScheduleEntry) =
      { g with therapistId := tid, therapistName := tname } := by
  obtain ⟨h1, h2, h3, h4, h5, h6, h7⟩ := h
  cases g
  cases e
  simp_all

theorem id_ne_of_nodup_append_cons {A B : GeneratedSchedule} {e x : ScheduleEntry}
    (hids : ((A ++ e :: B).map (fun s => s.id)).Nodup) (hx : x ∈ A ++ B) :
    x.id ≠ e.id := by
  rw [List.map_append, List.map_cons, List.nodup_append] at hids
  rcases List.mem_append.1 hx with hx | hx
  · intro h
    exact hids.2.2 (List.mem_map_of_mem _ hx) (by rw [h]; exact List.mem_cons_self _ _)
  · intro h
    exact (List.nodup_cons.1 hids.2.1).1 (by rw [← h]; exact List.mem_map_of_mem _ hx)

/-- Correspondence of the evolving schedule of the Medicaid repair to the
pass input: ids stay pairwise distinct and every current entry is an input
entry, at most with the therapist swapped. -/
def MedInv (base cur : GeneratedSchedule) : Prop :=
  (cur.map (fun e => e.id)).Nodup ∧ ∀ e' ∈ cur, ∃ g ∈ base, SameButTherapist g e'

theorem medInv_step {clients : List Client} {therapists : List Therapist}
    {selectedDate : JDate} {callouts : List Callout} {allowedIds : List String}
    {base cur : GeneratedSchedule} {sess : ScheduleEntry} (h : MedInv base cur) :
    MedInv base (medicaidFixSession clients therapists selectedDate callouts allowedIds
      cur sess) := by
  refine ⟨(medicaidFixSession_ids_sublist clients therapists selectedDate callouts allowedIds
    cur sess).nodup h.1, fun e' he' => ?_⟩
  obtain ⟨g, hg, hsame, -⟩ := mem_medicaidFixSession he'
  obtain ⟨g0, hg0, hsame0⟩ := h.2 g hg
  exact ⟨g0, hg0, sameButTherapist_trans hsame0 hsame⟩

/-- One Medicaid repair step never increases either conflict count: a swap
is kernel-checked against the evolving schedule, a removal only deletes
pairs. -/
theorem medicaidFixSession_conflict_le {clients : List Client} {therapists : List Therapist}
    {selectedDate : JDate} {callouts : List Callout} {allowedIds : List String}
    {base cur : GeneratedSchedule} {sess : ScheduleEntry}
    (hbase : (base.map (fun e => e.id)).Nodup) (hsess : sess ∈ base)
    (hinv : MedInv base cur) :
    conflictCount isTherapistConflictPair
        (medicaidFixSession clients therapists selectedDate callouts allowedIds cur sess) ≤
      conflictCount isTherapistConflictPair cur ∧
    conflictCount isClientConflictPair
        (medicaidFixSession clients therapists selectedDate callouts allowedIds cur sess) ≤
      conflictCount isClientConflictPair cur := by
  rw [medicaidFixSession]
  split
  · exact ⟨le_rfl, le_rfl⟩
  · dsimp only
    split
    next tid hfind =>
      split
      next t hget =>
        have hpred := List.find?_some hfind
        rw [hget] at hpred
        have hvalid : (canAddEntryToSchedule
            { sess with therapistId := t.id, therapistName := t.name } cur clients therapists
            selectedDate callouts (some sess.id)).valid = true := hpred
        have hvT := canAdd_valid_no_therapist_conflict hvalid
        rcases updateFirstById_cases sess.id
            (fun e => { e with therapistId := t.id, therapistName := t.name }) cur with
          heq | ⟨A, e, B, hl, hei, hres⟩
        · rw [heq]
          exact ⟨le_rfl, le_rfl⟩
        · have hecur : e ∈ cur := by
            rw [hl]
            exact List.mem_append_right _ (List.mem_cons_self _ _)
          obtain ⟨g, hg, hsame⟩ := hinv.2 e hecur
          have hge : g = sess := by
            apply eq_of_mem_of_id_eq hbase hg hsess
            rw [hsame.1] at hei
            exact hei
          subst hge
          have hfe := swap_eq_of_sameBut hsame t.id t.name
          have hidsAB : ∀ x ∈ A ++ B, x.id ≠ e.id :=
            fun x hx => id_ne_of_nodup_append_cons (hl ▸ hinv.1) hx
          have hcwT : conflictsWith isTherapistConflictPair
              ({ e with therapistId := t.id, therapistName := t.name }) (A ++ B) = 0 := by
            rw [hfe, conflictsWith, List.length_eq_zero, List.filter_eq_nil]
            intro x hx hpx
            rw [hasTherapistConflict, List.any_eq_false] at hvT
            have hxcur : x ∈ cur := by
              rw [hl]
              rcases List.mem_append.1 hx with hxa | hxb
              · exact List.mem_append_left _ hxa
              · exact List.mem_append_right _ (List.mem_cons_of_mem _ hxb)
            refine hvT x hxcur ?_
            simp only [isTherapistConflictPair, Bool.and_eq_true, decide_eq_true_eq,
              and_assoc] at hpx
            obtain ⟨htid, hday, hov⟩ := hpx
            simp only [notIgnored_some, Bool.and_eq_true, decide_eq_true_eq, and_assoc]
            refine ⟨fun hh => hidsAB x hx (hh.trans hei.symm), htid.symm, hday.symm, ?_⟩
            rw [sessionsOverlap_comm]
            exact hov
          constructor
          · rw [hres, hl,
              conflictCount_append_cons isTherapistConflictPair isTherapistConflictPair_symm
                A B _,
              conflictCount_append_cons isTherapistConflictPair isTherapistConflictPair_symm
                A B e,
              hcwT]
            omega
          · rw [hres, hl,
              conflictCount_append_cons isClientConflictPair isClientConflictPair_symm A B _,
              conflictCount_append_cons isClientConflictPair isClientConflictPair_symm A B e]
            have hcw : conflictsWith isClientConflictPair
                ({ e with therapistId := t.id, therapistName := t.name }) (A ++ B) =
                conflictsWith isClientConflictPair e (A ++ B) := rfl
            rw [hcw]
      next hget =>
        exact ⟨le_rfl, le_rfl⟩
    next hfind =>
      exact ⟨conflictCount_removeFirstById_le _ isTherapistConflictPair_symm _ _,
        conflictCount_removeFirstById_le _ isClientConflictPair_symm _ _⟩

theorem medicaid_fold_conflict_le {clients : List Client} {therapists : List Therapist}
    {selectedDate : JDate} {callouts : List Callout} {allowedIds : List String}
    {base : GeneratedSchedule} (hbase : (base.map (fun e => e.id)).Nodup) :
    ∀ (snap : List ScheduleEntry) (cur : GeneratedSchedule), (∀ x ∈ snap, x ∈ base) →
      MedInv base cur →
      conflictCount isTherapistConflictPair (snap.foldl
          (medicaidFixSession clients therapists selectedDate callouts allowedIds) cur) ≤
        conflictCount isTherapistConflictPair cur ∧
      conflictCount isClientConflictPair (snap.foldl
          (medicaidFixSession clients therapists selectedDate callouts allowedIds) cur) ≤
        conflictCount isClientConflictPair cur := by
  intro snap
  induction snap with
  | nil =>
    intro cur _ _
    exact ⟨le_rfl, le_rfl⟩
  | cons sess snap ih =>
    intro cur hsnap hinv
    rw [List.foldl_cons]
    have hstep := @medicaidFixSession_conflict_le clients therapists selectedDate callouts
      allowedIds base cur sess hbase (hsnap sess (List.mem_cons_self _ _)) hinv
    have hrest := ih (medicaidFixSession clients therapists selectedDate callouts allowedIds
      cur sess) (fun x hx => hsnap x (List.mem_cons_of_mem _ hx)) (medInv_step hinv)
    exact ⟨hrest.1.trans hstep.1, hrest.2.trans hstep.2⟩

theorem fixMdMedicaidLimitClient_conflict_le (clients : List Client)
    (therapists : List Therapist) (selectedDate : JDate) (callouts : List Callout)
    (s : GeneratedSchedule) (c : Client) (hids : (s.map (fun e => e.id)).Nodup) :
    conflictCount isTherapistConflictPair
        (fixMdMedicaidLimitClient clients therapists selectedDate callouts s c) ≤
      conflictCount isTherapistConflictPair s ∧
    conflictCount isClientConflictPair
        (fixMdMedicaidLimitClient clients therapists selectedDate callouts s c) ≤
      conflictCount isClientConflictPair s := by
  rw [fixMdMedicaidLimitClient]
  split
  · exact ⟨le_rfl, le_rfl⟩
  · dsimp only
    split
    · exact medicaid_fold_conflict_le hids _ s (fun x hx => (List.mem_filter.1 hx).1)
        ⟨hids, fun e' he' => ⟨e', he', sameButTherapist_refl e'⟩⟩
    · exact ⟨le_rfl, le_rfl⟩

theorem fixMdMedicaidLimit_fold_conflict_le (clients0 : List Client)
    (therapists : List Therapist) (selectedDate : JDate) (callouts : List Callout) :
    ∀ (L : List Client) (s : GeneratedSchedule), (s.map (fun e => e.id)).Nodup →
      conflictCount isTherapistConflictPair (L.foldl
          (fixMdMedicaidLimitClient clients0 therapists selectedDate callouts) s) ≤
        conflictCount isTherapistConflictPair s ∧
      conflictCount isClientConflictPair (L.foldl
          (fixMdMedicaidLimitClient clients0 therapists selectedDate callouts) s) ≤
        conflictCount isClientConflictPair s := by
  intro L
  induction L with
  | nil =>
    intro s _
    exact ⟨le_rfl, le_rfl⟩
  | cons c L ih =>
    intro s hids
    rw [List.foldl_cons]
    have hstep := fixMdMedicaidLimitClient_conflict_le clients0 therapists selectedDate
      callouts s c hids
    have hrest := ih (fixMdMedicaidLimitClient clients0 therapists selectedDate callouts s c)
      ((fixMdMedicaidLimitClient_ids_sublist clients0 therapists selectedDate callouts
        s c).nodup hids)
    exact ⟨hrest.1.trans hstep.1, hrest.2.trans hstep.2⟩

/-- Amended claim C3: the repair pipeline is not conflict-monotone
operator-by-operator — the duration clamp can create fresh overlaps
(`fixSessionDurations_conflict_increase`) — but the kernel-guarded Medicaid
cap repair is: provided the schedule's entry ids are pairwise distinct,
`fixMdMedicaidLimit` never increases the number of therapist time conflicts
or client time conflicts. -/
theorem fixMdMedicaidLimit_conflict_le (schedule : GeneratedSchedule)
    (clients : List Client) (therapists : List Therapist) (selectedDate : JDate)
    (callouts : List Callout) (hids : (schedule.map (fun e => e.id)).Nodup) :
    therapistConflictCount (fixMdMedicaidLimit schedule clients therapists selectedDate
      callouts) ≤ therapistConflictCount schedule ∧
    clientConflictCount (fixMdMedicaidLimit schedule clients therapists selectedDate
      callouts) ≤ clientConflictCount schedule := by
  rw [fixMdMedicaidLimit]
  exact fixMdMedicaidLimit_fold_conflict_le clients therapists selectedDate callouts clients
    schedule hids

/-- Witness for the amended claim C3 at a concrete over-cap schedule: four
touching sessions of an MD_MEDICAID client under four therapists; the
repair runs its swap and removal paths and the conflict count does not
grow. -/
theorem fixMdMedicaidLimit_conflict_le_witness :
    ((([⟨"w1", some "Cw", some "cw", "U1", "u1", DayOfWeek.tuesday, 480, 540, SessionType.ABA⟩,
        ⟨"w2", some "Cw", some "cw", "U2", "u2", DayOfWeek.tuesday, 555, 615, SessionType.ABA⟩,
        ⟨"w3", some "Cw", some "cw", "U3", "u3", DayOfWeek.tuesday, 630, 690, SessionType.ABA⟩,
        ⟨"w4", some "Cw", some "cw", "U4", "u4", DayOfWeek.tuesday, 705, 765, SessionType.ABA⟩] :
        GeneratedSchedule).map (fun e => e.id)).Nodup) ∧
    therapistConflictCount (fixMdMedicaidLimit
        [⟨"w1", some "Cw", some "cw", "U1", "u1", DayOfWeek.tuesday, 480, 540, SessionType.ABA⟩,
         ⟨"w2", some "Cw", some "cw", "U2", "u2", DayOfWeek.tuesday, 555, 615, SessionType.ABA⟩,
         ⟨"w3", some "Cw", some "cw", "U3", "u3", DayOfWeek.tuesday, 630, 690, SessionType.ABA⟩,
         ⟨"w4", some "Cw", some "cw", "U4", "u4", DayOfWeek.tuesday, 705, 765, SessionType.ABA⟩]
        [⟨"cw", "Cw", none, ["MD_MEDICAID"], []⟩]
        [⟨"u1", "U1", none, "RBT", ["MD_MEDICAID"], []⟩,
         ⟨"u2", "U2", none, "RBT", ["MD_MEDICAID"], []⟩,
         ⟨"u3", "U3", none, "RBT", ["MD_MEDICAID"], []⟩,
         ⟨"u4", "U4", none, "RBT", ["MD_MEDICAID"], []⟩]
        ⟨1, DayOfWeek.tuesday, true⟩ []) ≤ therapistConflictCount
        [⟨"w1", some "Cw", some "cw", "U1", "u1", DayOfWeek.tuesday, 480, 540, SessionType.ABA⟩,
         ⟨"w2", some "Cw", some "cw", "U2", "u2", DayOfWeek.tuesday, 555, 615, SessionType.ABA⟩,
         ⟨"w3", some "Cw", some "cw", "U3", "u3", DayOfWeek.tuesday, 630, 690, SessionType.ABA⟩,
         ⟨"w4", some "Cw", some "cw", "U4", "u4", DayOfWeek.tuesday, 705, 765, SessionType.ABA⟩] :=
  ⟨by decide,
   (fixMdMedicaidLimit_conflict_le
      [⟨"w1", some "Cw", some "cw", "U1", "u1", DayOfWeek.tuesday, 480, 540, SessionType.ABA⟩,
       ⟨"w2", some "Cw", some "cw", "U2", "u2", DayOfWeek.tuesday, 555, 615, SessionType.ABA⟩,
       ⟨"w3", some "Cw", some "cw", "U3", "u3", DayOfWeek.tuesday, 630, 690, SessionType.ABA⟩,
       ⟨"w4", some "Cw", some "cw", "U4", "u4", DayOfWeek.tuesday, 705, 765, SessionType.ABA⟩]
      [⟨"cw", "Cw", none, ["MD_MEDICAID"], []⟩]
      [⟨"u1", "U1", none, "RBT", ["MD_MEDICAID"], []⟩,
       ⟨"u2", "U2", none, "RBT", ["MD_MEDICAID"], []⟩,
       ⟨"u3", "U3", none, "RBT", ["MD_MEDICAID"], []⟩,
       ⟨"u4", "U4", none, "RBT", ["MD_MEDICAID"], []⟩]
      ⟨1, DayOfWeek.tuesday, true⟩ [] (by decide)).1⟩

/-! ## Claim C8: crossover and conflicts -/

/-- The BCBA-first sort rank of an entry in `crossover` (`0` when the
entry's therapist exists and holds a BCBA qualification, else `1`). -/
def bcbaRank (therapists : List Therapist) (e : ScheduleEntry) : ℤ :=
  match getTherapistById therapists e.therapistId with
  | some t => if t.qualifications.contains "BCBA" then 0 else 1
  | none => 1

/-- The `crossover` sort comparator: BCBA first, then ascending start. -/
def crossLt (therapists : List Therapist) (a b : ScheduleEntry) : Bool :=
  if bcbaRank therapists a ≠ bcbaRank therapists b then
    bcbaRank therapists a < bcbaRank therapists b
  else a.startTime < b.startTime

/-- Fresh ids for the merged offspring (`{ ...s, id: generateId() }` per
pushed entry, in push order). -/
def freshenIds : GeneratedSchedule → St → GeneratedSchedule × St
  | [], st => ([], st)
  | e :: l, st =>
    let p := generateId st
    let q := freshenIds l p.2
    ({ e with id := p.1 } :: q.1, q.2)

/-- The replay of one merged entry against the availability tracker: keep
it and book its slots when both its therapist and its client are free. -/
def crossoverReplayStep (state : GeneratedSchedule × AvailabilityTracker)
    (entry : ScheduleEntry) : GeneratedSchedule × AvailabilityTracker :=
  let tAvail := state.2.isAvailable EntityKind.therapist entry.therapistId
    entry.startTime entry.endTime none
  let cAvail :=
    match entry.clientId with
    | none => true
    | some cid => state.2.isAvailable EntityKind.client cid entry.startTime entry.endTime none
  if tAvail && cAvail then
    (state.1 ++ [entry], state.2.book entry.therapistId entry.clientId
      entry.startTime entry.endTime)
  else state

/-- `crossover` of `csoService.ts`: with probability `1 - CROSSOVER_RATE`
return a clone of a random parent; otherwise merge the entries of the
first half of the therapist list taken from parent 1 with the remaining
therapists' entries from parent 2, sort BCBA-first then by ascending
start, and replay against a tracker built from an empty schedule. -/
def crossover (o : Oracle) (parent1 parent2 : GeneratedSchedule)
    (therapists : List Therapist) (clients : List Client) (selectedDate : JDate)
    (callouts : List Callout) (st : St) : GeneratedSchedule × St :=
  let r := o.rand st.k
  let st1 := st.draw
  if r > CROSSOVER_RATE then
    let r2 := o.rand st1.k
    (if r2 < qHalf then parent1 else parent2, st1.draw)
  else
    let therapistIds := therapists.map (fun t => t.id)
    let midpoint := therapistIds.length / 2
    let p1Ids := therapistIds.take midpoint
    let merged := parent1.filter (fun s => s.therapistId ∈ p1Ids) ++
      parent2.filter (fun s => s.therapistId ∉ p1Ids)
    let q := freshenIds merged st1
    let sorted := jsStableSort (crossLt therapists) q.1
    ((sorted.foldl crossoverReplayStep
      ([], AvailabilityTracker.rebuild [] callouts selectedDate)).1, q.2)

/-- Counterexample to claim C8 as stated: when the first draw exceeds
`CROSSOVER_RATE` (here 0.8 > 0.7) the crossover returns a clone of a random
parent without any conflict resolution, and the clone inherits the parent's
overlapping same-therapist sessions. -/
theorem crossover_clone_conflict :
    0 < therapistConflictCount (crossover
      ⟨fun k => if k = 0 then ⟨4, 5, by decide, by decide⟩ else ⟨3, 10, by decide, by decide⟩,
       fun _ ts => ts⟩
      [⟨"a1", some "C", some "c", "T", "t", DayOfWeek.monday, 540, 660, SessionType.ABA⟩,
       ⟨"a2", some "C", some "c", "T", "t", DayOfWeek.monday, 600, 720, SessionType.ABA⟩]
      []
      [⟨"t", "T", none, "RBT", [], []⟩] [] ⟨0, DayOfWeek.monday, true⟩ [] ⟨0, 0⟩).1 := by
  decide

/-! Replay invariant machinery for the merge path. -/

/-- Grid-aligned non-empty entry times. -/
def EntryAligned (e : ScheduleEntry) : Prop :=
  0 ≤ e.startTime ∧ e.startTime < e.endTime ∧ 15 ∣ e.startTime ∧ 15 ∣ e.endTime

instance (e : ScheduleEntry) : Decidable (EntryAligned e) :=
  inferInstanceAs (Decidable (0 ≤ e.startTime ∧ e.startTime < e.endTime ∧
    15 ∣ e.startTime ∧ 15 ∣ e.endTime))

/-- Every set bit of `m` is set in `M`. -/
def SubMask (m M : ℕ) : Prop := ∀ i, m.testBit i = true → M.testBit i = true

theorem subMask_lor_left {m M : ℕ} (q : ℕ) (h : SubMask m M) : SubMask m (M ||| q) := by
  intro i hi
  simp [Nat.testBit_lor, h i hi]

theorem subMask_lor_self {q : ℕ} (M : ℕ) : SubMask q (M ||| q) := by
  intro i hi
  simp [Nat.testBit_lor, hi]

theorem subMask_land_zero {m M q : ℕ} (h : SubMask m M) (hz : M &&& q = 0) : m &&& q = 0 := by
  rw [land_eq_zero_iff] at hz ⊢
  intro i hi
  exact hz i ⟨h i hi.1, hi.2⟩

/-- Disjoint slot masks of aligned ranges mean the ranges do not overlap. -/
theorem sessionsOverlap_false_of_mask_disjoint {a b : ScheduleEntry}
    (ha : EntryAligned a) (hb : EntryAligned b)
    (hz : getRangeMask a.startTime a.endTime &&& getRangeMask b.startTime b.endTime = 0) :
    sessionsOverlap a.startTime a.endTime b.startTime b.endTime = false := by
  obtain ⟨h0a, hab, da1, da2⟩ := ha
  obtain ⟨h0b, hbb, db1, db2⟩ := hb
  have hd := (getRangeMask_land_eq_zero_iff h0a hab h0b hbb da1 da2 db1 db2).1 hz
  rw [Bool.eq_false_iff]
  intro h
  simp only [sessionsOverlap, Bool.and_eq_true, decide_eq_true_eq] at h
  omega

theorem book_therapistMasks (tr : AvailabilityTracker) (tid : String) (cid : Option String)
    (a b : ℤ) (x : String) :
    (tr.book tid cid a b).therapistMasks x =
      if x = tid then tr.therapistMasks x ||| getRangeMask a b else tr.therapistMasks x := by
  cases cid <;> rfl

theorem book_clientMasks_none (tr : AvailabilityTracker) (tid : String) (a b : ℤ)
    (x : String) : (tr.book tid none a b).clientMasks x = tr.clientMasks x := rfl

theorem book_clientMasks_some (tr : AvailabilityTracker) (tid c : String) (a b : ℤ)
    (x : String) :
    (tr.book tid (some c) a b).clientMasks x =
      if x = c then tr.clientMasks x ||| getRangeMask a b else tr.clientMasks x := rfl

/-- Invariant of the crossover replay: accepted entries are aligned, their
slot masks are recorded in the tracker, and no two accepted entries of the
same therapist or of the same non-null client overlap. -/
structure ReplayInv (acc : GeneratedSchedule) (tr : AvailabilityTracker) : Prop where
  aligned : ∀ e ∈ acc, EntryAligned e
  tmask : ∀ e ∈ acc,
    SubMask (getRangeMask e.startTime e.endTime) (tr.therapistMasks e.therapistId)
  cmask : ∀ e ∈ acc, ∀ cid, e.clientId = some cid →
    SubMask (getRangeMask e.startTime e.endTime) (tr.clientMasks cid)
  tpair : acc.Pairwise (fun a b => isTherapistConflictPair a b = false)
  cpair : acc.Pairwise (fun a b => isClientConflictPair a b = false)

theorem crossoverReplayStep_inv {acc : GeneratedSchedule} {tr : AvailabilityTracker}
    {entry : ScheduleEntry} (he : EntryAligned entry) (hinv : ReplayInv acc tr) :
    ReplayInv (crossoverReplayStep (acc, tr) entry).1
      (crossoverReplayStep (acc, tr) entry).2 := by
  rw [crossoverReplayStep]
  dsimp only
  split
  next hcond =>
    rw [Bool.and_eq_true] at hcond
    obtain ⟨htA, hcA⟩ := hcond
    have htz : tr.therapistMasks entry.therapistId &&&
        getRangeMask entry.startTime entry.endTime = 0 := by
      simpa [AvailabilityTracker.isAvailable] using htA
    have hpairT : ∀ a ∈ acc, isTherapistConflictPair a entry = false := by
      intro a hacc
      rw [Bool.eq_false_iff]
      intro hp
      simp only [isTherapistConflictPair, Bool.and_eq_true, decide_eq_true_eq,
        and_assoc] at hp
      obtain ⟨htid, hday, hov⟩ := hp
      have hsub := hinv.tmask a hacc
      rw [htid] at hsub
      have hz := subMask_land_zero hsub htz
      have hfalse := sessionsOverlap_false_of_mask_disjoint (hinv.aligned a hacc) he hz
      rw [hfalse] at hov
      exact Bool.false_ne_true hov
    have hpairC : ∀ a ∈ acc, isClientConflictPair a entry = false := by
      intro a hacc
      rw [Bool.eq_false_iff]
      intro hp
      simp only [isClientConflictPair, Bool.and_eq_true, decide_eq_true_eq,
        and_assoc] at hp
      obtain ⟨hsome, hcid, hday, hov⟩ := hp
      cases hcidE : entry.clientId with
      | none =>
        rw [hcidE] at hcid
        rw [hcid] at hsome
        simp at hsome
      | some cid =>
        rw [hcidE] at hcid hcA
        have hcZ : tr.isAvailable EntityKind.client cid entry.startTime entry.endTime
            none = true := hcA
        have hcz : tr.clientMasks cid &&& getRangeMask entry.startTime entry.endTime = 0 := by
          simpa [AvailabilityTracker.isAvailable] using hcZ
        have hsubc := hinv.cmask a hacc cid hcid
        have hz := subMask_land_zero hsubc hcz
        have hfalse := sessionsOverlap_false_of_mask_disjoint (hinv.aligned a hacc) he hz
        rw [hfalse] at hov
        exact Bool.false_ne_true hov
    refine ⟨?_, ?_, ?_, ?_, ?_⟩
    · intro e hme
      rcases List.mem_append.1 hme with h | h
      · exact hinv.aligned e h
      · rw [List.mem_singleton] at h
        subst h
        exact he
    · intro e hme
      rw [book_therapistMasks]
      rcases List.mem_append.1 hme with h | h
      · by_cases hx : e.therapistId = entry.therapistId
        · rw [if_pos hx]
          exact subMask_lor_left _ (hinv.tmask e h)
        · rw [if_neg hx]
          exact hinv.tmask e h
      · rw [List.mem_singleton] at h
        subst h
        rw [if_pos rfl]
        exact subMask_lor_self _
    · intro e hme cid hcid
      rcases List.mem_append.1 hme with h | h
      · cases hce : entry.clientId with
        | none =>
          rw [book_clientMasks_none]
          exact hinv.cmask e h cid hcid
        | some c2 =>
          rw [book_clientMasks_some]
          by_cases hx : cid = c2
          · rw [if_pos hx]
            exact subMask_lor_left _ (hinv.cmask e h cid hcid)
          · rw [if_neg hx]
            exact hinv.cmask e h cid hcid
      · rw [List.mem_singleton] at h
        subst h
        rw [hcid, book_clientMasks_some, if_pos rfl]
        exact subMask_lor_self _
    · rw [List.pairwise_append]
      refine ⟨hinv.tpair, List.pairwise_singleton _ _, ?_⟩
      intro a ha b hb
      rw [List.mem_singleton] at hb
      subst hb
      exact hpairT a ha
    · rw [List.pairwise_append]
      refine ⟨hinv.cpair, List.pairwise_singleton _ _, ?_⟩
      intro a ha b hb
      rw [List.mem_singleton] at hb
      subst hb
      exact hpairC a ha
  next =>
    exact hinv

theorem crossover_replay_inv :
    ∀ (l : List ScheduleEntry) (acc : GeneratedSchedule) (tr : AvailabilityTracker),
      (∀ e ∈ l, EntryAligned e) → ReplayInv acc tr →
      ReplayInv (l.foldl crossoverReplayStep (acc, tr)).1
        (l.foldl crossoverReplayStep (acc, tr)).2 := by
  intro l
  induction l with
  | nil =>
    intro acc tr _ h
    exact h
  | cons e l ih =>
    intro acc tr hal hinv
    rw [List.foldl_cons]
    have hstep := crossoverReplayStep_inv (hal e (List.mem_cons_self _ _)) hinv
    exact ih (crossoverReplayStep (acc, tr) e).1 (crossoverReplayStep (acc, tr) e).2
      (fun x hx => hal x (List.mem_cons_of_mem _ hx)) hstep

theorem mem_freshenIds {l : GeneratedSchedule} {st : St} {e : ScheduleEntry}
    (h : e ∈ (freshenIds l st).1) :
    ∃ g ∈ l, e.startTime = g.startTime ∧ e.endTime = g.endTime := by
  induction l generalizing st with
  | nil => exact absurd h (List.not_mem_nil _)
  | cons a l ih =>
    rw [freshenIds] at h
    dsimp only at h
    rcases List.mem_cons.1 h with h | h
    · subst h
      exact ⟨a, List.mem_cons_self _ _, rfl, rfl⟩
    · obtain ⟨g, hg, h1, h2⟩ := ih h
      exact ⟨g, List.mem_cons_of_mem _ hg, h1, h2⟩

/-- The sorted replay of any list of aligned entries yields a schedule with
no overlapping same-therapist pair and no overlapping same-client pair. -/
theorem replay_pairwise (therapists : List Therapist) (l : GeneratedSchedule)
    (callouts : List Callout) (selectedDate : JDate)
    (hal : ∀ e ∈ l, EntryAligned e) :
    ((jsStableSort (crossLt therapists) l).foldl crossoverReplayStep
        ([], AvailabilityTracker.rebuild [] callouts selectedDate)).1.Pairwise
      (fun a b => isTherapistConflictPair a b = false) ∧
    ((jsStableSort (crossLt therapists) l).foldl crossoverReplayStep
        ([], AvailabilityTracker.rebuild [] callouts selectedDate)).1.Pairwise
      (fun a b => isClientConflictPair a b = false) := by
  have hal' : ∀ e ∈ jsStableSort (crossLt therapists) l, EntryAligned e :=
    fun e he => hal e ((jsStableSort_perm _ l).mem_iff.1 he)
  have hinv0 : ReplayInv [] (AvailabilityTracker.rebuild [] callouts selectedDate) :=
    ⟨fun e he => absurd he (List.not_mem_nil _), fun e he => absurd he (List.not_mem_nil _),
     fun e he _ _ => absurd he (List.not_mem_nil _), List.Pairwise.nil, List.Pairwise.nil⟩
  have h := crossover_replay_inv _ [] _ hal' hinv0
  exact ⟨h.tpair, h.cpair⟩

/-- Amended claim C8: the conflict-freeness holds on the merge path only.
When the first draw stays within `CROSSOVER_RATE` and every parent entry
is grid-aligned with positive length, the offspring contains no two
entries of the same therapist with overlapping ranges and no two entries
of the same non-null client with overlapping ranges; the clone path
(`crossover_clone_conflict`) returns a parent unfiltered. -/
theorem crossover_merge_no_conflict (o : Oracle) (parent1 parent2 : GeneratedSchedule)
    (therapists : List Therapist) (clients : List Client) (selectedDate : JDate)
    (callouts : List Callout) (st : St)
    (hmerge : ¬o.rand st.k > CROSSOVER_RATE)
    (halign : ∀ e ∈ parent1 ++ parent2, EntryAligned e) :
    (crossover o parent1 parent2 therapists clients selectedDate callouts st).1.Pairwise
      (fun a b => isTherapistConflictPair a b = false) ∧
    (crossover o parent1 parent2 therapists clients selectedDate callouts st).1.Pairwise
      (fun a b => isClientConflictPair a b = false) := by
  rw [crossover]
  dsimp only
  rw [if_neg hmerge]
  refine replay_pairwise therapists _ callouts selectedDate ?_
  intro e he
  obtain ⟨g, hg, h1, h2⟩ := mem_freshenIds he
  have hgp : g ∈ parent1 ++ parent2 := by
    rcases List.mem_append.1 hg with h | h
    · exact List.mem_append_left _ (List.mem_filter.1 h).1
    · exact List.mem_append_right _ (List.mem_filter.1 h).1
  have hga := halign g hgp
  rw [EntryAligned, h1, h2]
  exact hga

/-- Witness for the amended claim C8 on a concrete merge: the first draw is
0 (below the 0.7 rate) and the two parents hold one aligned session each. -/
theorem crossover_merge_no_conflict_witness :
    (¬(⟨fun _ => 0, fun _ ts => ts⟩ : Oracle).rand (⟨0, 0⟩ : St).k > CROSSOVER_RATE) ∧
    ((crossover ⟨fun _ => 0, fun _ ts => ts⟩
        [⟨"b1", some "C1", some "c1", "V1", "v1", DayOfWeek.monday, 540, 600, SessionType.ABA⟩]
        [⟨"b2", some "C2", some "c2", "V2", "v2", DayOfWeek.monday, 540, 600, SessionType.ABA⟩]
        [⟨"v1", "V1", none, "BCBA", ["BCBA"], []⟩, ⟨"v2", "V2", none, "RBT", [], []⟩]
        [] ⟨0, DayOfWeek.monday, true⟩ [] ⟨0, 0⟩).1.Pairwise
      (fun a b => isTherapistConflictPair a b = false)) :=
  ⟨by decide,
   (crossover_merge_no_conflict ⟨fun _ => 0, fun _ ts => ts⟩
      [⟨"b1", some "C1", some "c1", "V1", "v1", DayOfWeek.monday, 540, 600, SessionType.ABA⟩]
      [⟨"b2", some "C2", some "c2", "V2", "v2", DayOfWeek.monday, 540, 600, SessionType.ABA⟩]
      [⟨"v1", "V1", none, "BCBA", ["BCBA"], []⟩, ⟨"v2", "V2", none, "RBT", [], []⟩]
      [] ⟨0, DayOfWeek.monday, true⟩ [] ⟨0, 0⟩ (by decide) (by decide)).1⟩

/-! ## The validation service (`src/utils/validationService`, concatenated
into `colorUtils.ts`) -/

/-- `[...new Map(l.map(i => [key(i), i])).values()]`: one entry per key in
first-occurrence order of the keys, each carrying the last item with that
key. -/
def jsMapDedup (key : ValidationError → String) (l : List ValidationError) :
    List ValidationError :=
  (jsDedup (l.map key)).filterMap (fun k => l.reverse.find? (fun e => key e = k))

/-- The deduplication key `item.ruleId + item.message`. -/
def errKey (e : ValidationError) : String := e.ruleId ++ e.message

/-- JavaScript string interpolation of a nullable string (`null` prints as
"null"). -/
def jsStr : Option String → String
  | none => "null"
  | some s => s

/-- JavaScript `x || d` on a nullable string (both `null` and the empty
string are falsy). -/
def jsOr (x : Option String) (d : String) : String :=
  match x with
  | none => d
  | some s => if s = "" then d else s

/-- The `DayOfWeek` enum's string values. -/
def dayName : DayOfWeek → String
  | .monday => "Monday"
  | .tuesday => "Tuesday"
  | .wednesday => "Wednesday"
  | .thursday => "Thursday"
  | .friday => "Friday"
  | .saturday => "Saturday"
  | .sunday => "Sunday"

/-- The `SessionType` union's string values. -/
def sessionTypeName : SessionType → String
  | .ABA => "ABA"
  | .AlliedHealth_OT => "AlliedHealth_OT"
  | .AlliedHealth_SLP => "AlliedHealth_SLP"
  | .IndirectTime => "IndirectTime"
  | .AdminTime => "AdminTime"

/-- The `AlliedHealthServiceType` union's string values. -/
def ahName : AHType → String
  | .OT => "OT"
  | .SLP => "SLP"

/-- The callout `entityType` union's string values. -/
def entityKindName : EntityKind → String
  | .client => "client"
  | .therapist => "therapist"

/-- `validateSessionEntry` of the validation service.  The falsy-times
early return corresponds to absent "HH:MM" strings, which the minute
embedding does not represent (generated entries always carry times); it is
omitted. -/
def validateSessionEntry (entryToValidate : ScheduleEntry)
    (currentSchedule : GeneratedSchedule) (clients : List Client)
    (therapists : List Therapist) (originalEntryForEditId : Option String) :
    List ValidationError :=
  let clientId := entryToValidate.clientId
  let clientName := entryToValidate.clientName
  let therapistId := entryToValidate.therapistId
  let therapistName := entryToValidate.therapistName
  let day := entryToValidate.day
  let startTimeMinutes := entryToValidate.startTime
  let endTimeMinutes := entryToValidate.endTime
  let sessionType := entryToValidate.sessionType
  let timeOrder : List ValidationError :=
    if startTimeMinutes ≥ endTimeMinutes then
      [⟨"INVALID_TIME_ORDER", "Session end time must be after start time."⟩] else []
  let therapistData := therapists.find? (fun t => t.id = therapistId)
  let therapistErrs : List ValidationError :=
    match therapistData with
    | none =>
      [⟨"THERAPIST_NOT_FOUND", "Therapist \"" ++ therapistName ++ "\" (ID: " ++
        therapistId ++ ") not found."⟩]
    | some _ =>
      if startTimeMinutes < STAFF_ASSUMED_AVAILABILITY_START ∨
          endTimeMinutes > STAFF_ASSUMED_AVAILABILITY_END then
        [⟨"OUTSIDE_THERAPIST_AVAILABILITY", "Session for " ++ therapistName ++ " (" ++
          to12HourTime startTimeMinutes ++ "-" ++ to12HourTime endTimeMinutes ++
          ") is outside their availability window (" ++
          to12HourTime STAFF_ASSUMED_AVAILABILITY_START ++ " - " ++
          to12HourTime STAFF_ASSUMED_AVAILABILITY_END ++ ")."⟩]
      else []
  let opHoursErrs : List ValidationError :=
    if sessionType = SessionType.ABA ∨ sessionType = SessionType.AlliedHealth_OT ∨
        sessionType = SessionType.AlliedHealth_SLP then
      if startTimeMinutes < COMPANY_OPERATING_HOURS_START ∨
          endTimeMinutes > COMPANY_OPERATING_HOURS_END then
        [⟨"OUTSIDE_OPERATING_HOURS", "Client-facing session (" ++
          sessionTypeName sessionType ++
          ") must be within company operating hours (" ++
          to12HourTime COMPANY_OPERATING_HOURS_START ++ " - " ++
          to12HourTime COMPANY_OPERATING_HOURS_END ++ ")."⟩]
      else []
    else []
  let isWeekend := day = DayOfWeek.saturday ∨ day = DayOfWeek.sunday
  let weekendErrs : List ValidationError :=
    if isWeekend ∧ sessionType = SessionType.ABA then
      [⟨"ABA_ON_WEEKEND", "ABA sessions cannot be scheduled on weekends (" ++
        dayName day ++ ")."⟩]
    else []
  let conflictErrs : List ValidationError :=
    (currentSchedule.map (fun existingEntry =>
      if (match originalEntryForEditId with
          | some oid => ¬oid = "" && existingEntry.id = oid
          | none => false) then []
      else if existingEntry.id = entryToValidate.id ∧
          ¬originalEntryForEditId = some entryToValidate.id then []
      else
        (if existingEntry.therapistId = therapistId ∧ existingEntry.day = day ∧
            sessionsOverlap existingEntry.startTime existingEntry.endTime
              startTimeMinutes endTimeMinutes then
          [(⟨"THERAPIST_TIME_CONFLICT", "Therapist " ++ therapistName ++
            " is already booked from " ++ to12HourTime existingEntry.startTime ++ "-" ++
            to12HourTime existingEntry.endTime ++ " with " ++
            jsOr existingEntry.clientName "Indirect Task" ++ "."⟩ : ValidationError)]
        else []) ++
        (if clientId.isSome ∧ existingEntry.clientId = clientId ∧
            existingEntry.day = day ∧
            sessionsOverlap existingEntry.startTime existingEntry.endTime
              startTimeMinutes endTimeMinutes then
          [(⟨"CLIENT_TIME_CONFLICT", "Client " ++ jsStr clientName ++
            " is already scheduled with " ++ existingEntry.therapistName ++ " from " ++
            to12HourTime existingEntry.startTime ++ "-" ++
            to12HourTime existingEntry.endTime ++ "."⟩ : ValidationError)]
        else []) ++
        (if clientId.isSome ∧ existingEntry.clientId = clientId ∧
            existingEntry.therapistId = therapistId ∧ existingEntry.day = day ∧
            (existingEntry.endTime = startTimeMinutes ∨
             existingEntry.startTime = endTimeMinutes) then
          [(⟨"SAME_CLIENT_BACK_TO_BACK", "Therapist " ++ therapistName ++
            " cannot work with client " ++ jsStr clientName ++
            " back-to-back without a break. There must be at least a 15-minute gap or a different session between consecutive sessions with the same client."⟩ :
            ValidationError)]
        else []))).join
  let clientErrs : List ValidationError :=
    match clientId with
    | none => []
    | some cid =>
      match clients.find? (fun c => c.id = cid) with
      | none =>
        [⟨"CLIENT_NOT_FOUND", "Client \"" ++ jsStr clientName ++ "\" (ID: " ++ cid ++
          ") not found."⟩]
      | some clientData =>
        match therapistData with
        | none => []
        | some td =>
          if clientData.insuranceRequirements.length > 0 then
            let unmetRequirements := clientData.insuranceRequirements.filter
              (fun req => ¬td.qualifications.contains req)
            if unmetRequirements.length > 0 then
              [⟨"INSURANCE_MISMATCH", "Therapist " ++ therapistName ++
                " does not meet insurance requirements for " ++ jsStr clientName ++ ": " ++
                String.intercalate ", " unmetRequirements ++ "."⟩]
            else []
          else []
  let ahErrs : List ValidationError :=
    if sessionType = SessionType.AlliedHealth_OT ∨
        sessionType = SessionType.AlliedHealth_SLP then
      let serviceType : AHType :=
        if sessionType = SessionType.AlliedHealth_OT then AHType.OT else AHType.SLP
      (match therapistData with
       | none => []
       | some td =>
         if ¬td.canProvideAlliedHealth.contains serviceType then
           [(⟨"ALLIED_HEALTH_QUALIFICATION_MISSING", "Therapist " ++ therapistName ++
             " cannot provide " ++ ahName serviceType ++ " services."⟩ : ValidationError)]
         else []) ++
      (let requiredQual :=
        if serviceType = AHType.OT then "OT Certified" else "SLP Certified"
       match therapistData with
       | none => []
       | some td =>
         if ¬td.qualifications.contains requiredQual then
           [(⟨"ALLIED_HEALTH_CERTIFICATION_MISSING", "Therapist " ++ therapistName ++
             " lacks qualification \"" ++ requiredQual ++ "\" for " ++
             ahName serviceType ++ "."⟩ : ValidationError)]
         else [])
    else []
  let duration := endTimeMinutes - startTimeMinutes
  let durationErrs : List ValidationError :=
    if sessionType = SessionType.ABA then
      (if duration < 60 then
        [(⟨"ABA_DURATION_TOO_SHORT", "ABA session must be at least 60 minutes."⟩ :
          ValidationError)] else []) ++
      (if duration > 180 then
        [(⟨"ABA_DURATION_TOO_LONG", "ABA session cannot exceed 180 minutes."⟩ :
          ValidationError)] else [])
    else if sessionType = SessionType.AlliedHealth_OT ∨
        sessionType = SessionType.AlliedHealth_SLP then
      if duration ≤ 0 then
        [⟨"ALLIED_HEALTH_DURATION_INVALID", sessionTypeName sessionType ++
          " session must have positive duration."⟩]
      else []
    else if sessionType = SessionType.IndirectTime then
      if ¬duration = 30 then
        [⟨"LUNCH_DURATION_INVALID", "Lunch/Indirect Time must be exactly 30 minutes."⟩]
      else []
    else []
  let clientPresenceErrs : List ValidationError :=
    (if (sessionType = SessionType.IndirectTime ∨ sessionType = SessionType.AdminTime) ∧
        ¬clientId = none then
      [(⟨"INDIRECT_TIME_CLIENT_SPECIFIED", "Client must be N/A for " ++
        sessionTypeName sessionType ++ "."⟩ : ValidationError)] else []) ++
    (if ¬sessionType = SessionType.IndirectTime ∧ ¬sessionType = SessionType.AdminTime ∧
        clientId = none then
      [(⟨"CLIENT_REQUIRED_FOR_SESSION", "Client must be specified for " ++
        sessionTypeName sessionType ++ "."⟩ : ValidationError)] else [])
  jsMapDedup errKey (timeOrder ++ therapistErrs ++ opHoursErrs ++ weekendErrs ++
    conflictErrs ++ clientErrs ++ ahErrs ++ durationErrs ++ clientPresenceErrs)

/-- The head values of a JavaScript `for (v = a; v < b; v += 15)` loop. -/
def scanTimes (a b : ℤ) : List ℤ :=
  (List.range ((b - a + 14).fdiv 15).toNat).map (fun i => a + 15 * (i : ℤ))

/-- The client-callout merge reduce of `validateFullSchedule` (the source
mutates the last accumulated period in place). -/
def mergeInto : List TimeRange → TimeRange → List TimeRange
  | [], cur => [cur]
  | [last], cur =>
    if cur.lo ≤ last.hi then [⟨last.lo, max last.hi cur.hi⟩] else [last, cur]
  | a :: rest, cur => a :: mergeInto rest cur

/-- `validateFullSchedule` of the validation service.  The null-argument
early exits (`!scheduleToValidate`, and the all-empty-with-null-date
return) are outside the embedding: the engine always passes the schedule
array and the selected date.  An invalid date yields the single
INVALID_SELECTED_DATE error, as in the source. -/
def validateFullSchedule (scheduleToValidate : GeneratedSchedule) (clients : List Client)
    (therapists : List Therapist) (selectedDate : JDate)
    (operatingHoursStart operatingHoursEnd : ℤ) (callouts : List Callout) :
    List ValidationError :=
  if ¬selectedDate.valid then
    jsMapDedup errKey
      [⟨"INVALID_SELECTED_DATE", "Selected date for validation is invalid."⟩]
  else
    let currentDay := selectedDate.weekday
    let isWeekendDay := currentDay = DayOfWeek.saturday ∨ currentDay = DayOfWeek.sunday
    let perEntry := (scheduleToValidate.map (fun entry =>
      let wrongDay : List ValidationError :=
        if ¬entry.day = currentDay then
          [⟨"WRONG_DAY_FOR_ENTRY", "Entry for " ++ jsOr entry.clientName "Indirect" ++
            " with " ++ entry.therapistName ++ " is scheduled on " ++ dayName entry.day ++
            " but should be on " ++ dayName currentDay ++ ". (ID: " ++ entry.id ++ ")"⟩]
        else []
      let entryErrors : List ValidationError :=
        (validateSessionEntry entry scheduleToValidate clients therapists
          (some entry.id)).map (fun e =>
          ⟨e.ruleId, "Entry (" ++ entry.therapistName ++ " with " ++
            jsOr entry.clientName "N/A" ++ " at " ++ to12HourTime entry.startTime ++
            " on " ++ dayName entry.day ++ ", ID: " ++ entry.id ++ "): " ++ e.message⟩)
      let calloutErrs : List ValidationError :=
        ((callouts.filter (fun co =>
          isDateAffectedByCalloutRange selectedDate co.startDate co.endDate ∧
          ((co.entityType = EntityKind.therapist ∧ co.entityId = entry.therapistId) ∨
           (co.entityType = EntityKind.client ∧ some co.entityId = entry.clientId)) ∧
          sessionsOverlap entry.startTime entry.endTime co.startTime co.endTime)).map
          (fun co =>
          ⟨"SESSION_OVERLAPS_CALLOUT", "Session for " ++ entry.therapistName ++ " with " ++
            jsOr entry.clientName "N/A" ++ " (" ++ to12HourTime entry.startTime ++ "-" ++
            to12HourTime entry.endTime ++ ", ID: " ++ entry.id ++ ") overlaps with " ++
            entityKindName co.entityType ++ " " ++ co.entityName ++
            "\x27s callout (" ++ to12HourTime co.startTime ++ "-" ++
            to12HourTime co.endTime ++ "). Reason: " ++ jsOr co.reason "N/A"⟩))
      wrongDay ++ entryErrors ++ calloutErrs)).join
    let perTherapist := ((jsDedup (scheduleToValidate.map (fun s => s.therapistId))).map
      (fun therapistId =>
      match therapists.find? (fun t => t.id = therapistId) with
      | none => ([] : List ValidationError)
      | some therapist =>
        let therapistSessions := scheduleToValidate.filter
          (fun s => s.therapistId = therapistId ∧ s.day = currentDay)
        let billableSessions := therapistSessions.filter (fun s =>
          s.sessionType = SessionType.ABA ∨ s.sessionType = SessionType.AlliedHealth_OT ∨
          s.sessionType = SessionType.AlliedHealth_SLP)
        let maxNotes : List ValidationError :=
          if billableSessions.length > 4 then
            [⟨"MAX_NOTES_EXCEEDED", "Therapist " ++ therapist.name ++ " has " ++
              toString billableSessions.length ++
              " billable sessions (notes), which is high."⟩]
          else []
        let bcba : List ValidationError :=
          if therapist.qualifications.contains "BCBA" ∧ billableSessions.length = 0 ∧
              therapistSessions.length > 0 then
            [⟨"BCBA_NO_DIRECT_TIME", "Therapist " ++ therapist.name ++
              " is a BCBA but has no direct client time scheduled."⟩]
          else []
        let lunchSessions := therapistSessions.filter (fun s =>
          (s.sessionType = SessionType.IndirectTime ∨
           s.sessionType = SessionType.AdminTime) ∧ s.clientId = none)
        let lunchErrs : List ValidationError :=
          if billableSessions.length > 0 then
            if lunchSessions.length = 0 then
              [⟨"MISSING_LUNCH_BREAK", "Therapist " ++ therapist.name ++
                " has billable work but no lunch break scheduled."⟩]
            else
              let validLunches := lunchSessions.filter (fun s =>
                s.sessionType = SessionType.IndirectTime ∧
                s.startTime ≥ LUNCH_COVERAGE_START_TIME ∧
                s.startTime ≤ LUNCH_COVERAGE_END_TIME - 30)
              if validLunches.length = 0 then
                [⟨"LUNCH_OUTSIDE_WINDOW", "Therapist " ++ therapist.name ++
                  " has no valid lunch break (30min IndirectTime) within the core window (" ++
                  to12HourTime LUNCH_COVERAGE_START_TIME ++ " - " ++
                  to12HourTime LUNCH_COVERAGE_END_TIME ++ ")."⟩]
              else if validLunches.length > 1 then
                [⟨"MULTIPLE_LUNCHES", "Therapist " ++ therapist.name ++ " has " ++
                  toString validLunches.length ++
                  " lunch sessions in the core window. Only one is allowed."⟩]
              else []
          else if lunchSessions.length > 0 then
            [⟨"LUNCH_WITHOUT_BILLABLE_WORK", "Therapist " ++ therapist.name ++
              " has a lunch break scheduled but no billable work."⟩]
          else []
        let weekendErrs : List ValidationError :=
          if isWeekendDay ∧ therapistSessions.length > 0 ∧
              therapistSessions.any (fun s => s.sessionType = SessionType.ABA) then
            [⟨"THERAPIST_WEEKEND_ABA", "Therapist " ++ therapist.name ++
              " has an ABA session scheduled on a weekend, which is not permitted."⟩]
          else []
        maxNotes ++ bcba ++ lunchErrs ++ weekendErrs)).join
    let perClient := (clients.map (fun client =>
      let clientSessionsToday := scheduleToValidate.filter
        (fun s => s.clientId = some client.id ∧ s.day = currentDay)
      let mdErrs : List ValidationError :=
        if client.insuranceRequirements.contains "MD_MEDICAID" then
          let uniqueTherapists := jsDedup (clientSessionsToday.map (fun s => s.therapistId))
          if uniqueTherapists.length > 3 then
            [⟨"MD_MEDICAID_LIMIT_VIOLATED", "MD Medicaid client " ++ client.name ++
              " is scheduled with " ++ toString uniqueTherapists.length ++
              " unique therapists, exceeding the limit of 3."⟩]
          else []
        else []
      let coverageErrs : List ValidationError :=
        if isWeekendDay then []
        else
          let clientCalloutsForDay := jsSortBy (fun r => r.lo)
            ((callouts.filter (fun co =>
              co.entityType = EntityKind.client ∧ co.entityId = client.id ∧
              isDateAffectedByCalloutRange selectedDate co.startDate co.endDate)).map
              (fun co => (⟨co.startTime, co.endTime⟩ : TimeRange)))
          let mergedPeriods := clientCalloutsForDay.foldl mergeInto []
          let clientABASessionsToday := clientSessionsToday.filter
            (fun s => s.sessionType = SessionType.ABA)
          let clientAHSessionsToday := clientSessionsToday.filter
            (fun s => s.sessionType.isAlliedHealth)
          ((scanTimes operatingHoursStart operatingHoursEnd).map (fun intervalStart =>
            let intervalEnd := intervalStart + 15
            if mergedPeriods.any (fun p => intervalStart < p.hi ∧ intervalEnd > p.lo) then
              ([] : List ValidationError)
            else if clientAHSessionsToday.any (fun s =>
                intervalStart < s.endTime ∧ intervalEnd > s.startTime) then []
            else if clientABASessionsToday.any (fun s =>
                intervalStart < s.endTime ∧ intervalEnd > s.startTime) then []
            else
              [⟨"CLIENT_COVERAGE_GAP_AT_TIME", "Client " ++ client.name ++
                " has an ABA coverage gap on " ++ dayName currentDay ++ " from " ++
                to12HourTime intervalStart ++ " to " ++ to12HourTime intervalEnd ++
                "."⟩])).join
      mdErrs ++ coverageErrs)).join
    jsMapDedup errKey (perEntry ++ perTherapist ++ perClient)

/-! ## Fitness (`calculateFitness` of `csoService.ts`) -/

/-- The adaptive penalty weights returned by `calculateAdaptivePenalties`. -/
structure Penalties where
  CONFLICT_PENALTY : ℚ
  CREDENTIAL_MISMATCH_PENALTY : ℚ
  CALLOUT_OVERLAP_PENALTY : ℚ
  CLIENT_COVERAGE_GAP_PENALTY : ℚ
  MISSING_LUNCH_PENALTY : ℚ
  LUNCH_STAGGER_PENALTY : ℚ
  SESSION_DURATION_PENALTY : ℚ
  MD_MEDICAID_LIMIT_PENALTY : ℚ
  BCBA_DIRECT_TIME_PENALTY : ℚ
  UNMET_AH_NEED_PENALTY : ℚ
  BASE_SCHEDULE_DEVIATION_PENALTY : ℚ
  TEAM_ALIGNMENT_PENALTY : ℚ
  MAX_NOTES_PENALTY : ℚ
  LUNCH_OUTSIDE_WINDOW_PENALTY : ℚ
  SCHEDULE_FRAGMENTATION_PENALTY : ℚ
  CONTINUOUS_WORK_WITHOUT_BREAK_PENALTY : ℚ
  SAME_CLIENT_BACK_TO_BACK_PENALTY : ℚ

/-- `calculateAdaptivePenalties` of `csoService.ts`.  `Math.log2` has no
computable ℚ counterpart and is threaded as the parameter `jsLog2`; the
engine only feeds it the product of the client and therapist counts. -/
def calculateAdaptivePenalties (jsLog2 : ℤ → ℚ) (clients : List Client)
    (therapists : List Therapist) (schedule : GeneratedSchedule) : Penalties :=
  let numClients : ℤ := clients.length
  let numTherapists : ℤ := therapists.length
  let scaleFactor : ℚ := max 1 (jsLog2 (numClients * numTherapists))
  { CONFLICT_PENALTY := 5000 * scaleFactor
    CREDENTIAL_MISMATCH_PENALTY := 4000 * scaleFactor
    CALLOUT_OVERLAP_PENALTY := 4500 * scaleFactor
    CLIENT_COVERAGE_GAP_PENALTY := 2000 * scaleFactor * ((numClients : ℚ) / 10)
    MISSING_LUNCH_PENALTY := 2500 * scaleFactor
    LUNCH_STAGGER_PENALTY := 800 * scaleFactor
    SESSION_DURATION_PENALTY := 1000 * scaleFactor
    MD_MEDICAID_LIMIT_PENALTY := 2000 * scaleFactor
    BCBA_DIRECT_TIME_PENALTY := 500
    UNMET_AH_NEED_PENALTY := 300
    BASE_SCHEDULE_DEVIATION_PENALTY := 50
    TEAM_ALIGNMENT_PENALTY := 100
    MAX_NOTES_PENALTY := 50
    LUNCH_OUTSIDE_WINDOW_PENALTY := 200
    SCHEDULE_FRAGMENTATION_PENALTY := 10
    CONTINUOUS_WORK_WITHOUT_BREAK_PENALTY := 3500 * scaleFactor
    SAME_CLIENT_BACK_TO_BACK_PENALTY := 6000 * scaleFactor }

/-- One lunch entry's step of `countStaggerViolations`: count a violation
when a teammate's recorded lunch start lies within 30 minutes, then record
this start under the team. -/
def staggerStep (therapists : List Therapist)
    (state : ℕ × (String → List ℤ)) (s : ScheduleEntry) : ℕ × (String → List ℤ) :=
  match getTherapistById therapists s.therapistId with
  | none => state
  | some t =>
    match t.teamId with
    | none => state
    | some teamId =>
      let start := s.startTime
      let teamTimes := state.2 teamId
      let overlaps := (teamTimes.filter (fun existing => |existing - start| < 30)).length
      let violations := if overlaps ≥ 1 then state.1 + 1 else state.1
      (violations, fun x => if x = teamId then teamTimes ++ [start] else state.2 x)

/-- `countStaggerViolations` of `csoService.ts`. -/
def countStaggerViolations (schedule : GeneratedSchedule)
    (therapists : List Therapist) : ℕ :=
  ((schedule.filter (fun s => s.sessionType = SessionType.IndirectTime)).foldl
    (staggerStep therapists) (0, fun _ => [])).1

/-- The idle-gap sum of one therapist's start-sorted sessions: gaps that
are positive and not exactly 30 minutes. -/
def idleGapSum : List ScheduleEntry → ℤ
  | [] => 0
  | [_] => 0
  | a :: b :: rest =>
    let gap := b.startTime - a.endTime
    (if gap > 0 ∧ ¬gap = 30 then gap else 0) + idleGapSum (b :: rest)

/-- `calculateFragmentationPenalty` of `csoService.ts`. -/
def calculateFragmentationPenalty (schedule : GeneratedSchedule)
    (therapists : List Therapist) (penaltyWeight : ℚ) : ℚ :=
  let totalIdleMinutes : ℤ := therapists.foldl (fun acc t =>
    let sessions := jsSortBy (fun s => s.startTime)
      (schedule.filter (fun s => s.therapistId = t.id))
    acc + idleGapSum sessions) 0
  (totalIdleMinutes : ℚ) * penaltyWeight

/-- The per-rule error count of `calculateFitness` (`counts[e.ruleId]`). -/
def countRule (errors : List ValidationError) (rid : String) : ℕ :=
  (errors.filter (fun e => e.ruleId = rid)).length

/-- `calculateFitness` of `csoService.ts`. -/
def calculateFitness (jsLog2 : ℤ → ℚ) (schedule : GeneratedSchedule)
    (clients : List Client) (therapists : List Therapist) (selectedDate : JDate)
    (callouts : List Callout) : ℚ :=
  let penalties := calculateAdaptivePenalties jsLog2 clients therapists schedule
  let errors := validateFullSchedule schedule clients therapists selectedDate
    COMPANY_OPERATING_HOURS_START COMPANY_OPERATING_HOURS_END callouts
  let f0 : ℚ := 0
  let f1 := if ¬countRule errors "CLIENT_TIME_CONFLICT" = 0 then
    f0 + penalties.CONFLICT_PENALTY * (min (countRule errors "CLIENT_TIME_CONFLICT") 5 : ℕ)
    else f0
  let f2 := if ¬countRule errors "THERAPIST_TIME_CONFLICT" = 0 then
    f1 + penalties.CONFLICT_PENALTY *
      (min (countRule errors "THERAPIST_TIME_CONFLICT") 5 : ℕ)
    else f1
  let f3 := if ¬countRule errors "SAME_CLIENT_BACK_TO_BACK" = 0 then
    f2 + penalties.SAME_CLIENT_BACK_TO_BACK_PENALTY *
      (countRule errors "SAME_CLIENT_BACK_TO_BACK" : ℕ)
    else f2
  let f4 := if ¬countRule errors "INSURANCE_MISMATCH" = 0 then
    f3 + penalties.CREDENTIAL_MISMATCH_PENALTY *
      (min (countRule errors "INSURANCE_MISMATCH") 5 : ℕ)
    else f3
  let f5 := if ¬countRule errors "SESSION_OVERLAPS_CALLOUT" = 0 then
    f4 + penalties.CALLOUT_OVERLAP_PENALTY *
      (min (countRule errors "SESSION_OVERLAPS_CALLOUT") 5 : ℕ)
    else f4
  let f6 := if ¬countRule errors "MISSING_LUNCH_BREAK" = 0 then
    f5 + penalties.MISSING_LUNCH_PENALTY *
      (min (countRule errors "MISSING_LUNCH_BREAK") therapists.length : ℕ)
    else f5
  let f7 := if ¬countRule errors "LUNCH_OUTSIDE_WINDOW" = 0 then
    f6 + penalties.LUNCH_OUTSIDE_WINDOW_PENALTY *
      (countRule errors "LUNCH_OUTSIDE_WINDOW" : ℕ)
    else f6
  let f8 := f7 + penalties.LUNCH_STAGGER_PENALTY *
    (countStaggerViolations schedule therapists : ℕ)
  let f9 := if ¬countRule errors "ABA_DURATION_TOO_SHORT" = 0 then
    f8 + penalties.SESSION_DURATION_PENALTY *
      (countRule errors "ABA_DURATION_TOO_SHORT" : ℕ)
    else f8
  let f10 := if ¬countRule errors "ABA_DURATION_TOO_LONG" = 0 then
    f9 + penalties.SESSION_DURATION_PENALTY *
      (countRule errors "ABA_DURATION_TOO_LONG" : ℕ)
    else f9
  let f11 := if ¬countRule errors "MD_MEDICAID_LIMIT_VIOLATED" = 0 then
    f10 + penalties.MD_MEDICAID_LIMIT_PENALTY *
      (countRule errors "MD_MEDICAID_LIMIT_VIOLATED" : ℕ)
    else f10
  let f12 := if ¬countRule errors "CLIENT_COVERAGE_GAP_AT_TIME" = 0 then
    let gapPenalty := countRule errors "CLIENT_COVERAGE_GAP_AT_TIME" / 4
    f11 + penalties.CLIENT_COVERAGE_GAP_PENALTY *
      (min gapPenalty (clients.length * 2) : ℕ)
    else f11
  let f13 := f12 + calculateFragmentationPenalty schedule therapists
    penalties.SCHEDULE_FRAGMENTATION_PENALTY
  let f14 := if ¬countRule errors "TEAM_ALIGNMENT_MISMATCH" = 0 then
    f13 + penalties.TEAM_ALIGNMENT_PENALTY *
      (countRule errors "TEAM_ALIGNMENT_MISMATCH" : ℕ)
    else f13
  f14

/-! ## The remaining repair operators of `csoService.ts` -/

/-- The merge scan of one therapist's start-sorted sessions in
`cleanupScheduleIssues`, threading the pass's `merged` flag. -/
def mergeRun (currentSession : ScheduleEntry) (merged : Bool) :
    List ScheduleEntry → List ScheduleEntry × Bool
  | [] => ([currentSession], merged)
  | nextSession :: rest =>
    if currentSession.clientId = nextSession.clientId ∧
        currentSession.sessionType = nextSession.sessionType ∧
        currentSession.endTime = nextSession.startTime ∧
        currentSession.sessionType = SessionType.ABA then
      let combinedDuration := (nextSession.endTime - nextSession.startTime) +
        (currentSession.endTime - currentSession.startTime)
      if combinedDuration ≤ 180 then
        mergeRun { currentSession with endTime := nextSession.endTime } true rest
      else
        let p := mergeRun nextSession merged rest
        (currentSession :: p.1, p.2)
    else
      let p := mergeRun nextSession merged rest
      (currentSession :: p.1, p.2)

/-- One pass of `cleanupScheduleIssues`: regroup by therapist in first-seen
order, sort each group by start, and merge adjacent same-client ABA runs of
combined duration at most 180 minutes. -/
def cleanupPass (schedule : GeneratedSchedule) : GeneratedSchedule × Bool :=
  (jsDedup (schedule.map (fun s => s.therapistId))).foldl (fun acc therapistId =>
    let sessions := jsSortBy (fun s => s.startTime)
      (schedule.filter (fun s => s.therapistId = therapistId))
    match sessions with
    | [] => acc
    | [s] => (acc.1 ++ [s], acc.2)
    | s :: rest =>
      let p := mergeRun s acc.2 rest
      (acc.1 ++ p.1, p.2)) ([], false)

/-- `MAX_MERGE_ITERATIONS` of `cleanupScheduleIssues`. -/
def MAX_MERGE_ITERATIONS : ℕ := 50

/-- The `while (merged && iterations < 50)` loop: every executed pass
replaces the schedule (a no-merge pass still regroups it). -/
def cleanupLoop : ℕ → GeneratedSchedule → GeneratedSchedule
  | 0, schedule => schedule
  | fuel + 1, schedule =>
    let p := cleanupPass schedule
    if p.2 then cleanupLoop fuel p.1 else p.1

/-- `cleanupScheduleIssues` of `csoService.ts`. -/
def cleanupScheduleIssues (schedule : GeneratedSchedule) : GeneratedSchedule :=
  cleanupLoop MAX_MERGE_ITERATIONS schedule

/-- One position's step of `fixCredentialIssues` (the source mutates the
entry object in place; positions are stable across the forEach). -/
def fixCredentialStep (clients : List Client) (therapists : List Therapist)
    (selectedDate : JDate) (callouts : List Callout)
    (schedule : GeneratedSchedule) (i : ℕ) : GeneratedSchedule :=
  match schedule.get? i with
  | none => schedule
  | some entry =>
    match entry.clientId with
    | none => schedule
    | some cid =>
      match getClientById clients cid, getTherapistById therapists entry.therapistId with
      | some client, some therapist =>
        if ¬client.insuranceRequirements.all
            (fun req => therapist.qualifications.contains req) then
          let qualifiedTherapists := therapists.filter (fun t =>
            client.insuranceRequirements.all (fun req => t.qualifications.contains req))
          match qualifiedTherapists.find? (fun t =>
            (canAddEntryToSchedule
              { entry with therapistId := t.id, therapistName := t.name }
              schedule clients therapists selectedDate callouts (some entry.id)).valid) with
          | some replacement =>
            schedule.set i
              { entry with therapistId := replacement.id, therapistName := replacement.name }
          | none => schedule
        else schedule
      | _, _ => schedule

/-- `fixCredentialIssues` of `csoService.ts`. -/
def fixCredentialIssues (schedule : GeneratedSchedule) (clients : List Client)
    (therapists : List Therapist) (selectedDate : JDate) (callouts : List Callout) :
    GeneratedSchedule :=
  (List.range schedule.length).foldl
    (fixCredentialStep clients therapists selectedDate callouts) schedule

/-- One position's step of `fixTeamAlignmentIssues`.  The source passes
`new Date()` and an empty callout list to the kernel; the date only feeds
`hasCalloutConflict`, which is constantly false on no callouts, so the
model passes a fixed valid date. -/
def fixTeamAlignmentStep (clients : List Client) (therapists : List Therapist)
    (schedule : GeneratedSchedule) (i : ℕ) : GeneratedSchedule :=
  match schedule.get? i with
  | none => schedule
  | some entry =>
    match entry.clientId with
    | none => schedule
    | some cid =>
      match getClientById clients cid, getTherapistById therapists entry.therapistId with
      | some client, some therapist =>
        match client.teamId, therapist.teamId with
        | some clientTeam, some therapistTeam =>
          if ¬clientTeam = therapistTeam then
            let teamMates := therapists.filter (fun t =>
              t.teamId = some clientTeam ∧ client.insuranceRequirements.all
                (fun r => t.qualifications.contains r))
            match teamMates.find? (fun t =>
              (canAddEntryToSchedule
                { entry with therapistId := t.id, therapistName := t.name }
                schedule clients therapists ⟨0, DayOfWeek.monday, true⟩ []
                (some entry.id)).valid) with
            | some replacement =>
              schedule.set i
                { entry with therapistId := replacement.id, therapistName := replacement.name }
            | none => schedule
          else schedule
        | _, _ => schedule
      | _, _ => schedule

/-- `fixTeamAlignmentIssues` of `csoService.ts`. -/
def fixTeamAlignmentIssues (schedule : GeneratedSchedule) (clients : List Client)
    (therapists : List Therapist) : GeneratedSchedule :=
  (List.range schedule.length).foldl (fixTeamAlignmentStep clients therapists) schedule

/-- `fixedSchedule[prevIndex] = adjusted` after a `findIndex`, else a push:
overwrite the first entry carrying the id, or append. -/
def upsertById (e : ScheduleEntry) (l : GeneratedSchedule) : GeneratedSchedule :=
  if l.any (fun x => x.id = e.id) then updateFirstById e.id (fun _ => e) l else l ++ [e]

/-- The per-therapist scan of `fixSameClientBackToBackIssues`: `prev` is
always the previous element of the sorted input, and the conflict probes
run against the cross-therapist `fixedSchedule` accumulated so far. -/
def b2bScan (day : DayOfWeek) (therapistId : String) :
    GeneratedSchedule → Option ScheduleEntry → List ScheduleEntry → GeneratedSchedule
  | fixed, _, [] => fixed
  | fixed, none, current :: rest =>
    b2bScan day therapistId (fixed ++ [current]) (some current) rest
  | fixed, some prev, current :: rest =>
    if prev.clientId = current.clientId ∧ prev.endTime = current.startTime then
      let prevEnd := prev.endTime
      let currentStart := current.startTime
      let duration := current.endTime - currentStart
      let newStart := prevEnd + 15
      let newEnd := newStart + duration
      if newEnd ≤ COMPANY_OPERATING_HOURS_END ∧
          ¬(fixed.any (fun s => s.therapistId = therapistId ∧ s.day = day ∧
              sessionsOverlap s.startTime s.endTime newStart newEnd) ∨
            fixed.any (fun s => s.clientId = current.clientId ∧ s.day = day ∧
              sessionsOverlap s.startTime s.endTime newStart newEnd)) then
        b2bScan day therapistId
          (fixed ++ [{ current with startTime := newStart, endTime := newEnd }])
          (some current) rest
      else
        let prevStart := prev.startTime
        let prevDuration := prevEnd - prevStart
        let newPrevEnd := currentStart - 15
        let newPrevStart := newPrevEnd - prevDuration
        if newPrevStart ≥ COMPANY_OPERATING_HOURS_START ∧
            ¬fixed.any (fun s =>
              (s.therapistId = therapistId ∨ s.clientId = prev.clientId) ∧
              s.day = day ∧ ¬s.id = prev.id ∧
              sessionsOverlap s.startTime s.endTime newPrevStart newPrevEnd) then
          b2bScan day therapistId
            ((upsertById { prev with startTime := newPrevStart, endTime := newPrevEnd }
              fixed) ++ [current]) (some current) rest
        else
          b2bScan day therapistId fixed (some current) rest
    else
      b2bScan day therapistId (fixed ++ [current]) (some current) rest

/-- `fixSameClientBackToBackIssues` of `csoService.ts`: client sessions are
regrouped per therapist (first-seen order), scanned sorted by start, and
the non-client sessions are appended at the end. -/
def fixSameClientBackToBackIssues (schedule : GeneratedSchedule) (clients : List Client)
    (therapists : List Therapist) (day : DayOfWeek) (selectedDate : JDate)
    (callouts : List Callout) : GeneratedSchedule :=
  let nonClientSessions := schedule.filter (fun e => e.clientId = none)
  let clientSessions := schedule.filter (fun e => e.clientId.isSome)
  let therapistIds := jsDedup (clientSessions.map (fun e => e.therapistId))
  let fixedSchedule := therapistIds.foldl (fun fixed therapistId =>
    let sessions := jsSortBy (fun s => s.startTime)
      (clientSessions.filter (fun e => e.therapistId = therapistId))
    b2bScan day therapistId fixed none sessions) []
  fixedSchedule ++ nonClientSessions

/-- The descending candidate lengths `maxLen, maxLen - 15, …` down to 60 of
`fixClientCoverageGaps`. -/
def gapLens (maxLen : ℤ) : List ℤ :=
  (List.range (((maxLen - 60).fdiv 15) + 1).toNat).map (fun i => maxLen - 15 * (i : ℤ))

/-- The length-descending placement loop for one gap: the first length with
a free qualified therapist wins. -/
def placeGapLen (day : DayOfWeek) (client : Client)
    (qualifiedTherapists : List Therapist) (gapStart : ℤ) :
    List ℤ → GeneratedSchedule × AvailabilityTracker × St →
    GeneratedSchedule × AvailabilityTracker × St
  | [], state => state
  | len :: rest, state =>
    let start := gapStart
    let finish := gapStart + len
    match qualifiedTherapists.find? (fun t =>
      state.2.1.isAvailable EntityKind.therapist t.id start finish none) with
    | some availableTherapist =>
      let p := generateId state.2.2
      let candidateEntry : ScheduleEntry :=
        ⟨p.1, some client.name, some client.id, availableTherapist.name,
         availableTherapist.id, day, start, finish, SessionType.ABA⟩
      (state.1 ++ [candidateEntry],
       state.2.1.book availableTherapist.id (some client.id) start finish, p.2)
    | none => placeGapLen day client qualifiedTherapists gapStart rest state

/-- The per-client pass of `fixClientCoverageGaps`. -/
def fixClientCoverageGapsClient (therapists : List Therapist) (day : DayOfWeek)
    (callouts : List Callout) (selectedDate : JDate)
    (state : GeneratedSchedule × AvailabilityTracker × St) (client : Client) :
    GeneratedSchedule × AvailabilityTracker × St :=
  let gaps := getClientCoverageGaps state.1 client.id callouts selectedDate
  let qualifiedTherapists := therapists.filter (fun t =>
    client.insuranceRequirements.all (fun req => t.qualifications.contains req))
  gaps.foldl (fun st gap =>
    if gap.hi - gap.lo < 60 then st
    else placeGapLen day client qualifiedTherapists gap.lo
      (gapLens (min 180 (gap.hi - gap.lo))) st) state

/-- `fixClientCoverageGaps` of `csoService.ts`: one tracker built from the
input schedule, booked as sessions are added. -/
def fixClientCoverageGaps (schedule : GeneratedSchedule) (clients : List Client)
    (therapists : List Therapist) (day : DayOfWeek) (selectedDate : JDate)
    (callouts : List Callout) (st : St) : GeneratedSchedule × St :=
  let tracker := AvailabilityTracker.rebuild schedule callouts selectedDate
  let r := clients.foldl (fixClientCoverageGapsClient therapists day callouts selectedDate)
    (schedule, tracker, st)
  (r.1, r.2.2)

/-! The lunch repair (`fixLunchIssues`). -/

/-- The therapist a JavaScript non-null assertion on a failed lookup would
dereference; reading it crashes the source and is unreachable when every
scheduled therapist id resolves. -/
def dTherapist : Therapist := ⟨"", "", none, "", [], []⟩

/-- `Math.min` against a possibly-`Infinity` accumulator (`none` is
`Infinity`). -/
def someMin (m : Option ℤ) (g : ℤ) : Option ℤ :=
  match m with
  | none => some g
  | some x => some (min x g)

/-- `m >= b` with `none` as `Infinity`. -/
def oge (m : Option ℤ) (b : ℤ) : Bool :=
  match m with
  | none => true
  | some x => x ≥ b

/-- The inclusive loop head values of `for (v = a; v <= b; v += 15)`. -/
def scanTimesIncl (a b : ℤ) : List ℤ :=
  (List.range ((b - a).fdiv 15 + 1).toNat).map (fun i => a + 15 * (i : ℤ))

/-- The candidate score of `fixLunchIssues` at a query time (the unused
`reason` strings are dropped).  When the workday is a single instant the
source divides by zero, turning the score into NaN; the model takes Lean's
`q / 0 = 0`, a case unreachable for positive-length sessions. -/
def lunchScore (schedule : GeneratedSchedule) (therapists : List Therapist)
    (therapistId : String) (therapist : Therapist) (allSessions : List ScheduleEntry)
    (workdayStart workdayEnd : ℤ) (workdayMidpoint : ℚ)
    (therapistClients : List String) (time : ℤ) : ℚ :=
  let distanceFromMidpoint : ℚ := |(time : ℚ) - workdayMidpoint|
  let maxDistance : ℚ := ((workdayEnd : ℚ) - (workdayStart : ℚ)) / 2
  let midpointScore : ℚ := 100 * (1 - min (distanceFromMidpoint / maxDistance) 1)
  let score1 := midpointScore
  let gapBefore : Option ℤ :=
    if allSessions.length > 0 then
      allSessions.foldl (fun minGap s =>
        if s.endTime ≤ time then someMin minGap (time - s.endTime) else minGap) none
    else some 0
  let gapAfter : Option ℤ :=
    if allSessions.length > 0 then
      allSessions.foldl (fun minGap s =>
        if s.startTime ≥ time + 30 then someMin minGap (s.startTime - (time + 30))
        else minGap) none
    else some 0
  let score2 :=
    if oge gapBefore 30 ∨ oge gapAfter 30 then score1 + 50
    else if oge gapBefore 15 ∨ oge gapAfter 15 then score1 + 25
    else score1
  let cov := therapistClients.foldl (fun acc cid =>
    let otherTherapistsCovering := (schedule.filter (fun s =>
      s.clientId = some cid ∧ ¬s.therapistId = therapistId ∧
      ¬s.sessionType = SessionType.IndirectTime ∧
      s.startTime < time + 30 ∧ s.endTime > time)).length
    if otherTherapistsCovering > 0 then (acc.1 + 1, acc.2 + 20) else acc)
    ((0 : ℕ), (0 : ℚ))
  let score3 :=
    if cov.1 > 0 ∧ therapistClients.length > 0 then
      score2 + cov.2 * ((cov.1 : ℚ) / (therapistClients.length : ℚ))
    else score2
  let workBefore : ℤ := ((allSessions.filter (fun s => s.endTime ≤ time)).map
    (fun s => s.endTime - s.startTime)).sum
  let workAfter : ℤ := ((allSessions.filter (fun s => s.startTime ≥ time + 30)).map
    (fun s => s.endTime - s.startTime)).sum
  let score4 :=
    if workBefore + workAfter > 0 then
      score3 + ((min workBefore workAfter : ℤ) : ℚ) / (((max workBefore workAfter : ℤ)) : ℚ) * 40
    else score3
  let score5 :=
    match therapist.teamId with
    | none => score4
    | some tmId =>
      let teamMembers := therapists.filter (fun t => t.teamId = some tmId)
      let teammatesOnLunch := (teamMembers.filter (fun t =>
        ¬t.id = therapistId ∧ schedule.any (fun s =>
          s.therapistId = t.id ∧ s.sessionType = SessionType.IndirectTime ∧
          s.startTime < time + 30 ∧ s.endTime > time))).length
      let teamShare : ℚ := (teammatesOnLunch : ℚ) /
        ((max (teamMembers.length - 1) 1 : ℕ) : ℚ)
      if teamShare < qHalf then score4 + 30
      else if teamShare > (⟨7, 10, by decide, by decide⟩ : ℚ) then score4 - 30
      else score4
  if time ≥ IDEAL_LUNCH_WINDOW_START ∧ time ≤ IDEAL_LUNCH_WINDOW_END_FOR_START then
    score5 + 20
  else score5

/-- The split-loop head values `q, q + 15, …` while `≤ bound` (the start is
a rational midpoint-derived time, see `lunchSplitTry`). -/
def splitCandidatesA (q : ℚ) (bound : ℤ) : List ℚ :=
  (List.range ((⌊((bound : ℚ) - q) / 15⌋ + 1).toNat)).map
    (fun i => q + 15 * (i : ℚ))

/-- The second split-loop head values `a, a + 15, …` while `< bound`. -/
def splitCandidatesB (a : ℤ) (bound : ℚ) : List ℤ :=
  (List.range (⌈(bound - (a : ℚ)) / 15⌉.toNat)).map (fun i => a + 15 * (i : ℤ))

/-- The split of a long session at minute `splitFloor`: shorten the
session, push the 30-minute lunch and the remainder.  The source stores the
split time through `minutesToTime`; a fractional split time survives the
string round trip as its floor, which the model stores directly. -/
def applySplit (day : DayOfWeek) (therapist : Therapist) (therapistId : String)
    (session : ScheduleEntry) (splitFloor : ℤ) (schedule : GeneratedSchedule) (st : St) :
    GeneratedSchedule × St :=
  let originalEnd := session.endTime
  let s1 := updateFirstById session.id (fun e => { e with endTime := splitFloor }) schedule
  let p1 := generateId st
  let lunch : ScheduleEntry :=
    ⟨p1.1, none, none, therapist.name, therapistId, day, splitFloor, splitFloor + 30,
     SessionType.IndirectTime⟩
  let p2 := generateId p1.2
  let second : ScheduleEntry :=
    ⟨p2.1, session.clientName, session.clientId, session.therapistName,
     session.therapistId, day, splitFloor + 30, originalEnd, SessionType.ABA⟩
  (s1 ++ [lunch, second], p2.2)

/-- The fallback of `fixLunchIssues`: try to split each long ABA session,
first at or after the preferred (possibly fractional) time, then before it.
The tracker mask of a fractional query agrees with that of its floor
(`⌊q / 15⌋ = ⌊⌊q⌋ / 15⌋`), so the availability probe takes the floor. -/
def lunchSplitTry (day : DayOfWeek) (therapist : Therapist) (therapistId : String)
    (tracker : AvailabilityTracker) (workdayMidpoint : ℚ) (schedule : GeneratedSchedule)
    (st : St) : List ScheduleEntry → Option (GeneratedSchedule × St)
  | [] => none
  | session :: rest =>
    let sessionStart := session.startTime
    let sessionEnd := session.endTime
    let preferredSplitTime : ℚ :=
      max ((sessionStart : ℚ) + 60) (min ((sessionEnd : ℚ) - 60) workdayMidpoint)
    let boundA : ℤ := min (sessionEnd - 60) (LUNCH_COVERAGE_END_TIME - 30)
    match (splitCandidatesA preferredSplitTime boundA).find? (fun q =>
      tracker.isAvailable EntityKind.therapist therapistId ⌊q⌋ (⌊q⌋ + 30)
        (some session.id)) with
    | some q => some (applySplit day therapist therapistId session ⌊q⌋ schedule st)
    | none =>
      let startB : ℤ := max (sessionStart + 60) LUNCH_COVERAGE_START_TIME
      match (splitCandidatesB startB preferredSplitTime).find? (fun t =>
        tracker.isAvailable EntityKind.therapist therapistId t (t + 30)
          (some session.id)) with
      | some t => some (applySplit day therapist therapistId session t schedule st)
      | none => lunchSplitTry day therapist therapistId tracker workdayMidpoint
          schedule st rest

/-- The per-therapist body of `fixLunchIssues`. -/
def fixLunchTherapist (therapists : List Therapist) (day : DayOfWeek)
    (tracker : AvailabilityTracker)
    (state : GeneratedSchedule × St) (therapistId : String) : GeneratedSchedule × St :=
  let schedule := state.1
  let st := state.2
  let therapistSessions := schedule.filter (fun s =>
    s.therapistId = therapistId ∧ ¬s.sessionType = SessionType.IndirectTime)
  let totalMinutes := therapistSessions.foldl
    (fun acc s => acc + (s.endTime - s.startTime)) 0
  if totalMinutes < 300 then state
  else if schedule.any (fun s =>
      s.therapistId = therapistId ∧ s.sessionType = SessionType.IndirectTime) then state
  else
    let therapist := (getTherapistById therapists therapistId).getD dTherapist
    let allSessions := jsSortBy (fun s => s.startTime)
      (schedule.filter (fun s => s.therapistId = therapistId))
    if allSessions.isEmpty then state
    else
      let workdayStart := (allSessions.getD 0 dEntry).startTime
      let workdayEnd := (allSessions.getLastD dEntry).endTime
      let workdayMidpoint : ℚ :=
        (workdayStart : ℚ) + ((workdayEnd : ℚ) - (workdayStart : ℚ)) / 2
      let therapistClients := jsDedup
        ((allSessions.filter (fun s => s.clientId.isSome)).map
          (fun s => s.clientId.getD ""))
      let searchStart := max LUNCH_COVERAGE_START_TIME workdayStart
      let searchEnd := min (LUNCH_COVERAGE_END_TIME - 30) (workdayEnd - 30)
      let candidates := (scanTimesIncl searchStart searchEnd).filterMap (fun time =>
        if tracker.isAvailable EntityKind.therapist therapistId time (time + 30) none then
          some (time, lunchScore schedule therapists therapistId therapist allSessions
            workdayStart workdayEnd workdayMidpoint therapistClients time)
        else none)
      let sorted := jsStableSort (fun a b => b.2 < a.2) candidates
      match (sorted.take 5).find? (fun c =>
        tracker.isAvailable EntityKind.therapist therapistId c.1 (c.1 + 30) none) with
      | some c =>
        let p := generateId st
        (schedule ++ [⟨p.1, none, none, therapist.name, therapistId, day, c.1, c.1 + 30,
          SessionType.IndirectTime⟩], p.2)
      | none =>
        let longSessions := jsSortBy (fun s => s.startTime)
          (schedule.filter (fun s => s.therapistId = therapistId ∧
            s.sessionType = SessionType.ABA ∧ s.endTime - s.startTime ≥ 90))
        match lunchSplitTry day therapist therapistId tracker workdayMidpoint
            schedule st longSessions with
        | some r => r
        | none => state

/-- `fixLunchIssues` of `csoService.ts` (the tracker is built once and
never re-booked; every successful placement returns out of the therapist's
iteration). -/
def fixLunchIssues (schedule : GeneratedSchedule) (therapists : List Therapist)
    (day : DayOfWeek) (selectedDate : JDate) (callouts : List Callout) (st : St) :
    GeneratedSchedule × St :=
  let tracker := AvailabilityTracker.rebuild schedule callouts selectedDate
  let workingTherapistIds := jsDedup
    ((schedule.filter (fun s => ¬s.sessionType = SessionType.IndirectTime)).map
      (fun s => s.therapistId))
  workingTherapistIds.foldl (fixLunchTherapist therapists day tracker) (schedule, st)

/-- `repairAndMutate` of `csoService.ts` (the optional base-schedule
argument is unused by the source body and carried for the signature). -/
def repairAndMutate (o : Oracle) (schedule : GeneratedSchedule) (clients : List Client)
    (therapists : List Therapist) (day : DayOfWeek) (selectedDate : JDate)
    (callouts : List Callout) (baseScheduleForDay : Option BaseScheduleConfig)
    (st : St) : GeneratedSchedule × St :=
  let r := o.rand st.k
  let st1 := st.draw
  let m :=
    if r < MUTATION_RATE then
      mutateIncremental o schedule clients therapists selectedDate callouts st1
    else (schedule, st1)
  let s1 := cleanupScheduleIssues m.1
  let s2 := fixSessionDurations s1
  let s3 := fixCredentialIssues s2 clients therapists selectedDate callouts
  let s4 := fixMdMedicaidLimit s3 clients therapists selectedDate callouts
  let s5 := fixSameClientBackToBackIssues s4 clients therapists day selectedDate callouts
  let p6 := fixClientCoverageGaps s5 clients therapists day selectedDate callouts m.2
  let p7 := fixLunchIssues p6.1 therapists day selectedDate callouts p6.2
  let s8 := fixTeamAlignmentIssues p7.1 clients therapists
  (s8, p7.2)

/-! ## Constructive heuristic, selection and local search -/

/-- The learned lunch slots of the learning context. -/
structure LearnedLunch where
  therapistId : String
  startTime : ℤ
  endTime : ℤ
  deriving DecidableEq, Repr

/-- `interface LearningContext`; the `violationPenalties` record is always
empty and never read, and is dropped. -/
structure LearningContext where
  topRatedSchedules : List GeneratedSchedule
  learnedLunchTimes : List LearnedLunch

/-- `loadLearningContext` on its success path; the high-rated schedules of
the missing `ScheduleLearningService` are a model input. -/
def loadLearningContext (topRatedSchedules : List GeneratedSchedule) : LearningContext :=
  { topRatedSchedules := topRatedSchedules
    learnedLunchTimes := (topRatedSchedules.map (fun s =>
      (s.filter (fun e => e.sessionType = SessionType.IndirectTime)).map
        (fun e => LearnedLunch.mk e.therapistId e.startTime e.endTime))).join }

/-- `interface PlanningTask` of the constructive heuristic. -/
structure PlanningTask where
  clientId : String
  clientName : String
  type : SessionType
  minDuration : ℤ
  maxDuration : ℤ
  priority : ℤ
  possibleTherapists : List Therapist
  preferredStart : Option ℤ
  preferredEnd : Option ℤ

/-- The ABA expansion loop: extend the duration in 15-minute steps while
the search window and both availabilities allow. -/
def expandLoop (tr : AvailabilityTracker) (tid cid : String) (time searchEnd : ℤ) :
    List ℤ → ℤ → ℤ
  | [], best => best
  | d :: rest, best =>
    let extendedEnd := time + d
    if extendedEnd > searchEnd then best
    else if tr.isAvailable EntityKind.therapist tid time extendedEnd none ∧
        tr.isAvailable EntityKind.client cid time extendedEnd none then
      expandLoop tr tid cid time searchEnd rest d
    else best

/-- The time loop of the greedy placement for one candidate therapist.
Returns the updated state and whether the task was placed; draws consumed
in failed iterations persist, and the fresh id is generated before the
kernel check, as in the source. -/
def heurTryTimes (o : Oracle) (clients : List Client) (therapists : List Therapist)
    (day : DayOfWeek) (selectedDate : JDate) (callouts : List Callout)
    (task : PlanningTask) (therapist : Therapist) (searchEnd : ℤ) :
    List ℤ → GeneratedSchedule × AvailabilityTracker × St →
    (GeneratedSchedule × AvailabilityTracker × St) × Bool
  | [], state => (state, false)
  | time :: rest, state =>
    let sched := state.1
    let tr := state.2.1
    let st := state.2.2
    let minEnd := time + task.minDuration
    if tr.isAvailable EntityKind.therapist therapist.id time minEnd none ∧
        tr.isAvailable EntityKind.client task.clientId time minEnd none then
      let bestDuration :=
        if task.type = SessionType.ABA then
          expandLoop tr therapist.id task.clientId time searchEnd
            (scanTimesIncl (task.minDuration + 15) task.maxDuration) task.minDuration
        else task.minDuration
      let teamSkip : Bool × St :=
        match getClientById clients task.clientId with
        | some client =>
          if client.teamId.isSome ∧ therapist.teamId.isSome ∧
              ¬client.teamId = therapist.teamId then
            (o.rand st.k > qThreeTenths, st.draw)
          else (false, st)
        | none => (false, st)
      if teamSkip.1 then
        heurTryTimes o clients therapists day selectedDate callouts task therapist
          searchEnd rest (sched, tr, teamSkip.2)
      else
        let p := generateId teamSkip.2
        let newEntry : ScheduleEntry :=
          ⟨p.1, some task.clientName, some task.clientId, therapist.name, therapist.id,
           day, time, time + bestDuration, task.type⟩
        if (canAddEntryToSchedule newEntry sched clients therapists selectedDate callouts
            none).valid then
          ((sched ++ [newEntry],
            tr.book therapist.id (some task.clientId) time (time + bestDuration), p.2),
           true)
        else
          heurTryTimes o clients therapists day selectedDate callouts task therapist
            searchEnd rest (sched, tr, p.2)
    else
      heurTryTimes o clients therapists day selectedDate callouts task therapist
        searchEnd rest (sched, tr, st)

/-- The candidate-therapist loop of the greedy placement. -/
def heurTryTherapists (o : Oracle) (clients : List Client) (therapists : List Therapist)
    (day : DayOfWeek) (selectedDate : JDate) (callouts : List Callout)
    (task : PlanningTask) (searchStart searchEnd : ℤ) :
    List Therapist → GeneratedSchedule × AvailabilityTracker × St →
    GeneratedSchedule × AvailabilityTracker × St
  | [], state => state
  | therapist :: rest, state =>
    let r := heurTryTimes o clients therapists day selectedDate callouts task therapist
      searchEnd (scanTimesIncl searchStart (searchEnd - task.minDuration)) state
    if r.2 then r.1
    else heurTryTherapists o clients therapists day selectedDate callouts task
      searchStart searchEnd rest r.1

/-- One task of the greedy placement (the comparator-randomized candidate
shuffle consumes implementation-defined draws; the model dedicates one
oracle index to it). -/
def heurPlaceTask (o : Oracle) (clients : List Client) (therapists : List Therapist)
    (day : DayOfWeek) (selectedDate : JDate) (callouts : List Callout)
    (state : GeneratedSchedule × AvailabilityTracker × St) (task : PlanningTask) :
    GeneratedSchedule × AvailabilityTracker × St :=
  let st := state.2.2
  let candidateTherapists := o.shuffleT st.k task.possibleTherapists
  let st1 := st.draw
  let searchStart := task.preferredStart.getD COMPANY_OPERATING_HOURS_START
  let searchEnd := task.preferredEnd.getD COMPANY_OPERATING_HOURS_END
  heurTryTherapists o clients therapists day selectedDate callouts task searchStart
    searchEnd candidateTherapists (state.1, state.2.1, st1)

/-- The lunch pass of the heuristic for one working therapist. -/
def heurLunchTherapist (therapists : List Therapist) (day : DayOfWeek)
    (lc : LearningContext) (state : GeneratedSchedule × AvailabilityTracker × St)
    (therapistId : String) : GeneratedSchedule × AvailabilityTracker × St :=
  let schedule := state.1
  let tr := state.2.1
  let st := state.2.2
  let tSessions := schedule.filter (fun s => s.therapistId = therapistId)
  let mins := tSessions.foldl (fun acc s => acc + (s.endTime - s.startTime)) 0
  if mins < 300 then state
  else if schedule.any (fun s =>
      s.therapistId = therapistId ∧ s.sessionType = SessionType.IndirectTime) then state
  else
    let therapist := (getTherapistById therapists therapistId).getD dTherapist
    let tryLearned : Option ℤ :=
      match lc.learnedLunchTimes.find? (fun lt => lt.therapistId = therapistId) with
      | some pattern =>
        if tr.isAvailable EntityKind.therapist therapistId pattern.startTime
            (pattern.startTime + 30) none then
          some pattern.startTime
        else none
      | none => none
    match tryLearned with
    | some learnedStart =>
      let p := generateId st
      (schedule ++ [⟨p.1, none, none, therapist.name, therapistId, day, learnedStart,
        learnedStart + 30, SessionType.IndirectTime⟩],
       tr.book therapistId none learnedStart (learnedStart + 30), p.2)
    | none =>
      match (scanTimesIncl IDEAL_LUNCH_WINDOW_START IDEAL_LUNCH_WINDOW_END_FOR_START).find?
        (fun time =>
          tr.isAvailable EntityKind.therapist therapistId time (time + 30) none) with
      | some time =>
        let p := generateId st
        (schedule ++ [⟨p.1, none, none, therapist.name, therapist.id, day, time,
          time + 30, SessionType.IndirectTime⟩],
         tr.book therapistId none time (time + 30), p.2)
      | none => state

/-- The allied-health planning task of one still-unmet need of a client. -/
def ahTaskOf (therapists : List Therapist) (schedule0 : GeneratedSchedule)
    (client : Client) (need : AlliedHealthNeed) : Option PlanningTask :=
  let existing := (schedule0.filter (fun s =>
    s.clientId = some client.id ∧ s.sessionType.includesAH need.type)).length
  if (existing : ℤ) < need.frequencyPerWeek then
    let qualified := therapists.filter (fun t =>
      t.canProvideAlliedHealth.contains need.type ∧
      client.insuranceRequirements.all (fun req => t.qualifications.contains req))
    some { clientId := client.id
           clientName := client.name
           type := (match need.type with
             | AHType.OT => SessionType.AlliedHealth_OT
             | AHType.SLP => SessionType.AlliedHealth_SLP)
           minDuration := need.durationMinutes
           maxDuration := need.durationMinutes
           priority := 1000 - (qualified.length : ℤ) * 10 + need.durationMinutes
           possibleTherapists := qualified
           preferredStart := need.preferredTimeSlot.map (fun p => p.1)
           preferredEnd := need.preferredTimeSlot.map (fun p => p.2) }
  else none

/-- The ABA planning task of one client (present when a qualified
therapist exists). -/
def abaTaskOf (therapists : List Therapist) (client : Client) : List PlanningTask :=
  let qualified := therapists.filter (fun t =>
    client.insuranceRequirements.all (fun req => t.qualifications.contains req))
  if qualified.length > 0 then
    [{ clientId := client.id
       clientName := client.name
       type := SessionType.ABA
       minDuration := 60
       maxDuration := 180
       priority := 500 - (qualified.length : ℤ) * 10 + 180
       possibleTherapists := qualified
       preferredStart := none
       preferredEnd := none }]
  else []

/-- `constructiveHeuristicInitialization` of `csoService.ts`.  Team ids in
engine data are non-empty, so their JavaScript truthiness is `isSome`. -/
def constructiveHeuristicInitialization (o : Oracle) (clients : List Client)
    (therapists : List Therapist) (day : DayOfWeek) (selectedDate : JDate)
    (callouts : List Callout) (baseScheduleForDay : Option BaseScheduleConfig)
    (learningContext : LearningContext) (st : St) : GeneratedSchedule × St :=
  let base :=
    match baseScheduleForDay with
    | none => (([] : GeneratedSchedule), st)
    | some bs =>
      freshenIds (bs.schedule.filter (fun entry =>
        ¬(callouts.any (fun co =>
          (some co.entityId = entry.clientId ∨ co.entityId = entry.therapistId) ∧
          isDateAffectedByCalloutRange selectedDate co.startDate co.endDate ∧
          sessionsOverlap entry.startTime entry.endTime co.startTime co.endTime)) ∧
        entry.day = day)) st
  let schedule0 := base.1
  let st0 := base.2
  let tracker := AvailabilityTracker.rebuild schedule0 callouts selectedDate
  let tasks0 : List PlanningTask := (clients.map (fun client =>
    client.alliedHealthNeeds.filterMap (ahTaskOf therapists schedule0 client) ++
    abaTaskOf therapists client)).join
  let tasks := jsStableSort (fun a b => a.priority > b.priority) tasks0
  let placed := tasks.foldl (heurPlaceTask o clients therapists day selectedDate callouts)
    (schedule0, tracker, st0)
  let lunched := (jsDedup (placed.1.map (fun s => s.therapistId))).foldl
    (heurLunchTherapist therapists day learningContext) placed
  (lunched.1, lunched.2.2)

/-- The default individual a JavaScript out-of-range population index would
yield; reading it crashes the source, unreachable under a valid oracle and
a nonempty population. -/
def dIndiv : GeneratedSchedule × ℚ := ([], 0)

/-- `diversityPreservingSelection` of `csoService.ts`. -/
def diversityPreservingSelection (o : Oracle)
    (population : List (GeneratedSchedule × ℚ)) (st : St) : GeneratedSchedule × St :=
  let similarityCheck := o.rand st.k
  let st1 := st.draw
  if similarityCheck < qThreeTenths then
    let randomIdx := jsFloorNat (o.rand st1.k * population.length)
    ((population.getD randomIdx dIndiv).1, st1.draw)
  else
    let r := (List.range 5).foldl (fun (acc : Option (GeneratedSchedule × ℚ) × St) _ =>
      let idx := jsFloorNat (o.rand acc.2.k * population.length)
      let st' := acc.2.draw
      let candidate := population.getD idx dIndiv
      match acc.1 with
      | none => (some candidate, st')
      | some best =>
        if candidate.2 < best.2 then (some candidate, st') else (some best, st'))
      (none, st1)
    ((r.1.getD dIndiv).1, r.2)

/-- The therapist swap of `localSearchImprovement` at positions `i < j`
(the non-null name assertion reads the empty name where the source would
crash on an unknown therapist). -/
def swapTherapists (therapists : List Therapist) (sched : GeneratedSchedule)
    (i j : ℕ) : GeneratedSchedule :=
  let e1 := sched.getD i dEntry
  let e2 := sched.getD j dEntry
  let n1 := ((getTherapistById therapists e2.therapistId).map (fun t => t.name)).getD ""
  let n2 := ((getTherapistById therapists e1.therapistId).map (fun t => t.name)).getD ""
  (sched.set i { e1 with therapistId := e2.therapistId, therapistName := n1 }).set j
    { e2 with therapistId := e1.therapistId, therapistName := n2 }

/-- The first improving therapist swap, scanning pairs in index order. -/
def findImprovingSwap (jsLog2 : ℤ → ℚ) (clients : List Client)
    (therapists : List Therapist) (selectedDate : JDate) (callouts : List Callout)
    (cur : GeneratedSchedule) (curF : ℚ) : Option (GeneratedSchedule × ℚ) :=
  (((List.range cur.length).map (fun i =>
    ((List.range cur.length).filter (fun j => i < j)).map (fun j => (i, j)))).join).findSome?
    (fun p =>
      let entry1 := cur.getD p.1 dEntry
      let entry2 := cur.getD p.2 dEntry
      if entry1.clientId.isSome ∧ entry2.clientId.isSome ∧
          ¬entry1.therapistId = entry2.therapistId then
        let testSchedule := swapTherapists therapists cur p.1 p.2
        let testFitness := calculateFitness jsLog2 testSchedule clients therapists
          selectedDate callouts
        if testFitness < curF then some (testSchedule, testFitness) else none
      else none)

/-- The improvement loop of `localSearchImprovement`. -/
def localSearchLoop (jsLog2 : ℤ → ℚ) (clients : List Client)
    (therapists : List Therapist) (selectedDate : JDate) (callouts : List Callout) :
    ℕ → GeneratedSchedule → ℚ → GeneratedSchedule
  | 0, cur, _ => cur
  | fuel + 1, cur, curF =>
    match findImprovingSwap jsLog2 clients therapists selectedDate callouts cur curF with
    | none => cur
    | some r => localSearchLoop jsLog2 clients therapists selectedDate callouts fuel r.1 r.2

/-- `localSearchImprovement` of `csoService.ts`. -/
def localSearchImprovement (jsLog2 : ℤ → ℚ) (schedule : GeneratedSchedule)
    (clients : List Client) (therapists : List Therapist) (selectedDate : JDate)
    (callouts : List Callout) (maxIterations : ℕ) : GeneratedSchedule :=
  localSearchLoop jsLog2 clients therapists selectedDate callouts maxIterations schedule
    (calculateFitness jsLog2 schedule clients therapists selectedDate callouts)

/-! ## `runCsoAlgorithm` of `csoService.ts` -/

/-- `interface GAGenerationResult`.  `bestFitness` is an `Option ℚ` whose
`none` is the JavaScript `Infinity` the loop initialises it to (the
source's `schedule` is nullable but always set to an array here). -/
structure GAGenerationResult where
  schedule : GeneratedSchedule
  finalValidationErrors : List ValidationError
  generations : ℕ
  bestFitness : Option ℚ
  success : Bool
  statusMessage : String

/-- `best < q` with `none` as `Infinity` (never below a finite bound). -/
def optLt (a : Option ℚ) (q : ℚ) : Bool :=
  match a with
  | none => false
  | some x => x < q

/-- `f < best` with `none` as `Infinity` (any finite value improves). -/
def optLtQ (f : ℚ) (best : Option ℚ) : Bool :=
  match best with
  | none => true
  | some b => f < b

/-- `bestFitnessOverall.toFixed(0)`: `Infinity` prints as itself, a finite
value rounds (the engine's values are far from the half-to-even corner
cases of the float rendering). -/
def fitnessToFixed0 : Option ℚ → String
  | none => "Infinity"
  | some q => toString (round q)

/-- The mutable state of the generational loop. -/
structure GAState where
  population : List GeneratedSchedule
  bestFitnessOverall : Option ℚ
  bestScheduleOverall : Option GeneratedSchedule
  generationsRun : ℕ
  generationsWithoutImprovement : ℕ
  st : St

/-- The evaluation-and-record prefix of one generation: fitnesses, stable
ascending sort, best-ever and plateau bookkeeping (`generationsRun = gen +
1` is one increment per executed iteration).  Also returns the sorted
population the evolution step consumes. -/
def recordGeneration (jsLog2 : ℤ → ℚ) (clients : List Client)
    (therapists : List Therapist) (selectedDate : JDate) (callouts : List Callout)
    (s : GAState) : GAState × List (GeneratedSchedule × ℚ) :=
  let popWithFitness := s.population.map (fun p =>
    (p, calculateFitness jsLog2 p clients therapists selectedDate callouts))
  let sortedPop := jsStableSort (fun a b => a.2 < b.2) popWithFitness
  let head := sortedPop.getD 0 dIndiv
  if optLtQ head.2 s.bestFitnessOverall then
    ({ s with
        bestFitnessOverall := some head.2
        bestScheduleOverall := some head.1
        generationsWithoutImprovement := 0
        generationsRun := s.generationsRun + 1 }, sortedPop)
  else
    ({ s with
        generationsWithoutImprovement := s.generationsWithoutImprovement + 1
        generationsRun := s.generationsRun + 1 }, sortedPop)

/-- `Math.floor(POPULATION_SIZE * ELITISM_RATE)` (5). -/
def eliteCount : ℕ := 5

/-- The `while (newPop.length < POPULATION_SIZE)` breeding loop, fueled. -/
def childLoop (o : Oracle) (clients : List Client) (therapists : List Therapist)
    (day : DayOfWeek) (selectedDate : JDate) (callouts : List Callout)
    (sortedPop : List (GeneratedSchedule × ℚ)) :
    ℕ → List GeneratedSchedule → St → List GeneratedSchedule × St
  | 0, newPop, st => (newPop, st)
  | fuel + 1, newPop, st =>
    if newPop.length < POPULATION_SIZE then
      let p1 := diversityPreservingSelection o sortedPop st
      let p2 := diversityPreservingSelection o sortedPop p1.2
      let child := crossover o p1.1 p2.1 therapists clients selectedDate callouts p2.2
      let repaired := repairAndMutate o child.1 clients therapists day selectedDate
        callouts none child.2
      childLoop o clients therapists day selectedDate callouts sortedPop fuel
        (newPop ++ [repaired.1]) repaired.2
    else (newPop, st)

/-- The evolution step: elitism then breeding. -/
def evolve (o : Oracle) (clients : List Client) (therapists : List Therapist)
    (day : DayOfWeek) (selectedDate : JDate) (callouts : List Callout)
    (sortedPop : List (GeneratedSchedule × ℚ)) (s : GAState) : GAState :=
  let elites := (sortedPop.take eliteCount).map (fun p => p.1)
  let r := childLoop o clients therapists day selectedDate callouts sortedPop
    POPULATION_SIZE elites s.st
  { s with population := r.1, st := r.2 }

/-- The generational loop (`for gen in 0..MAX_GENERATIONS` with the
zero-fitness and plateau early exits), fueled by remaining generations. -/
def gaLoop (o : Oracle) (jsLog2 : ℤ → ℚ) (clients : List Client)
    (therapists : List Therapist) (day : DayOfWeek) (selectedDate : JDate)
    (callouts : List Callout) : ℕ → GAState → GAState
  | 0, s => s
  | fuel + 1, s =>
    let r := recordGeneration jsLog2 clients therapists selectedDate callouts s
    if r.1.bestFitnessOverall = some 0 then r.1
    else if r.1.generationsWithoutImprovement ≥ PLATEAU_LIMIT then r.1
    else gaLoop o jsLog2 clients therapists day selectedDate callouts fuel
      (evolve o clients therapists day selectedDate callouts r.2 r.1)

/-- The top-rated seeding loop over the first five high-rated schedules:
fresh ids are drawn before the length checks, and the loop breaks once the
population reaches `POPULATION_SIZE * 0.2` (10). -/
def seedTopRated (day : DayOfWeek) :
    List GeneratedSchedule → List GeneratedSchedule → St → List GeneratedSchedule × St
  | [], population, st => (population, st)
  | topSchedule :: rest, population, st =>
    let f := freshenIds (topSchedule.filter (fun s => s.day = day)) st
    let population' := if f.1.length > 0 then population ++ [f.1] else population
    if population'.length ≥ 10 then (population', f.2)
    else seedTopRated day rest population' f.2

/-- The `while (population.length < POPULATION_SIZE)` heuristic fill,
fueled. -/
def fillPopulation (o : Oracle) (clients : List Client) (therapists : List Therapist)
    (day : DayOfWeek) (selectedDate : JDate) (callouts : List Callout)
    (baseScheduleForDay : Option BaseScheduleConfig) (lc : LearningContext) :
    ℕ → List GeneratedSchedule → St → List GeneratedSchedule × St
  | 0, population, st => (population, st)
  | fuel + 1, population, st =>
    if population.length < POPULATION_SIZE then
      let h := constructiveHeuristicInitialization o clients therapists day selectedDate
        callouts baseScheduleForDay lc st
      fillPopulation o clients therapists day selectedDate callouts baseScheduleForDay lc
        fuel (population ++ [h.1]) h.2
    else (population, st)

/-- `runCsoAlgorithm` of `csoService.ts`.  The inputs standing for the
services missing from the sources: `baseSchedules` is
`baseScheduleService.getBaseSchedules()` and `topRated` the high-rated
schedules `loadLearningContext` obtains on its success path; `o` and
`jsLog2` are the `Math.random` and `Math.log2` oracles, `st` the draw and
fresh-id counters. -/
def runCsoAlgorithm (o : Oracle) (jsLog2 : ℤ → ℚ)
    (baseSchedules : List BaseScheduleConfig) (topRated : List GeneratedSchedule)
    (clients : List Client) (therapists : List Therapist) (selectedDate : JDate)
    (callouts : List Callout)
    (initialScheduleForOptimization : Option GeneratedSchedule) (st : St) :
    GAGenerationResult :=
  let day := getDayOfWeekFromDate selectedDate
  let baseScheduleForDay :=
    match initialScheduleForOptimization with
    | some _ => none
    | none => baseSchedules.find? (fun bs => bs.appliesToDays.contains day)
  let learningContext := loadLearningContext topRated
  let init : List GeneratedSchedule × St :=
    match initialScheduleForOptimization with
    | some initial =>
      let r := repairAndMutate o initial clients therapists day selectedDate callouts
        none st
      ([r.1], r.2)
    | none =>
      match baseScheduleForDay with
      | some bs =>
        let r := repairAndMutate o bs.schedule clients therapists day selectedDate
          callouts none st
        ([r.1], r.2)
      | none => ([], st)
  let seeded := seedTopRated day (learningContext.topRatedSchedules.take 5) init.1 init.2
  let filled := fillPopulation o clients therapists day selectedDate callouts
    baseScheduleForDay learningContext POPULATION_SIZE seeded.1 seeded.2
  let final := gaLoop o jsLog2 clients therapists day selectedDate callouts
    MAX_GENERATIONS
    { population := filled.1, bestFitnessOverall := none, bestScheduleOverall := none,
      generationsRun := 0, generationsWithoutImprovement := 0, st := filled.2 }
  let post : Option GeneratedSchedule × Option ℚ :=
    match final.bestScheduleOverall with
    | some best =>
      let improved := localSearchImprovement jsLog2 best clients therapists selectedDate
        callouts 30
      (some improved,
       some (calculateFitness jsLog2 improved clients therapists selectedDate callouts))
    | none => (none, final.bestFitnessOverall)
  let finalCleaned :=
    match post.1 with
    | some bs => cleanupScheduleIssues bs
    | none => []
  let finalErrors := validateFullSchedule finalCleaned clients therapists selectedDate
    COMPANY_OPERATING_HOURS_START COMPANY_OPERATING_HOURS_END callouts
  { schedule := finalCleaned
    finalValidationErrors := finalErrors
    generations := final.generationsRun
    bestFitness := post.2
    success := optLt post.2 500
    statusMessage := "Optimization Complete: " ++ toString final.generationsRun ++
      " generations. Best Fitness: " ++ fitnessToFixed0 post.2 }

/-! ## Claim C1: the success flag -/

theorem optLt_iff (a : Option ℚ) (q : ℚ) :
    optLt a q = true ↔ ∃ f, a = some f ∧ f < q := by
  cases a with
  | none => simp [optLt]
  | some x => simp [optLt]

theorem runCso_success_eq (o : Oracle) (jsLog2 : ℤ → ℚ)
    (baseSchedules : List BaseScheduleConfig) (topRated : List GeneratedSchedule)
    (clients : List Client) (therapists : List Therapist) (selectedDate : JDate)
    (callouts : List Callout) (initial : Option GeneratedSchedule) (st : St) :
    (runCsoAlgorithm o jsLog2 baseSchedules topRated clients therapists selectedDate
      callouts initial st).success =
    optLt (runCsoAlgorithm o jsLog2 baseSchedules topRated clients therapists selectedDate
      callouts initial st).bestFitness 500 := rfl

/-- Claim C1: for every input, `runCsoAlgorithm` returns `success = true`
exactly when the best fitness it returns is a finite value strictly below
500 (the `Infinity` of a loop that never recorded a best is below
nothing). -/
theorem runCso_success_iff (o : Oracle) (jsLog2 : ℤ → ℚ)
    (baseSchedules : List BaseScheduleConfig) (topRated : List GeneratedSchedule)
    (clients : List Client) (therapists : List Therapist) (selectedDate : JDate)
    (callouts : List Callout) (initial : Option GeneratedSchedule) (st : St) :
    (runCsoAlgorithm o jsLog2 baseSchedules topRated clients therapists selectedDate
        callouts initial st).success = true ↔
      ∃ f, (runCsoAlgorithm o jsLog2 baseSchedules topRated clients therapists
        selectedDate callouts initial st).bestFitness = some f ∧ f < 500 := by
  rw [runCso_success_eq]
  exact optLt_iff _ _

/-! ## Claim C4: the generation budget -/

theorem recordGeneration_gens (jsLog2 : ℤ → ℚ) (clients : List Client)
    (therapists : List Therapist) (selectedDate : JDate) (callouts : List Callout)
    (s : GAState) :
    (recordGeneration jsLog2 clients therapists selectedDate callouts s).1.generationsRun =
      s.generationsRun + 1 := by
  rw [recordGeneration]
  split <;> rfl

theorem evolve_gens (o : Oracle) (clients : List Client) (therapists : List Therapist)
    (day : DayOfWeek) (selectedDate : JDate) (callouts : List Callout)
    (sortedPop : List (GeneratedSchedule × ℚ)) (s : GAState) :
    (evolve o clients therapists day selectedDate callouts sortedPop s).generationsRun =
      s.generationsRun := rfl

theorem gaLoop_gens (o : Oracle) (jsLog2 : ℤ → ℚ) (clients : List Client)
    (therapists : List Therapist) (day : DayOfWeek) (selectedDate : JDate)
    (callouts : List Callout) :
    ∀ (fuel : ℕ) (s : GAState),
      (gaLoop o jsLog2 clients therapists day selectedDate callouts fuel
        s).generationsRun ≤ s.generationsRun + fuel := by
  intro fuel
  induction fuel with
  | zero =>
    intro s
    simp [gaLoop]
  | succ n ih =>
    intro s
    rw [gaLoop]
    split
    · rw [recordGeneration_gens]
      omega
    · split
      · rw [recordGeneration_gens]
        omega
      · have h := ih (evolve o clients therapists day selectedDate callouts
          (recordGeneration jsLog2 clients therapists selectedDate callouts s).2
          (recordGeneration jsLog2 clients therapists selectedDate callouts s).1)
        rw [evolve_gens, recordGeneration_gens] at h
        omega

/-- Claim C4: the generational loop runs at most `MAX_GENERATIONS` (150)
iterations and the returned generation count never exceeds it; the loop
returns directly after the generation whose recorded best fitness is 0,
and after a generation that reaches `PLATEAU_LIMIT` (30) consecutive
non-improvements. -/
theorem runCso_generations_le (o : Oracle) (jsLog2 : ℤ → ℚ)
    (baseSchedules : List BaseScheduleConfig) (topRated : List GeneratedSchedule)
    (clients : List Client) (therapists : List Therapist) (selectedDate : JDate)
    (callouts : List Callout) (initial : Option GeneratedSchedule) (st : St) :
    (runCsoAlgorithm o jsLog2 baseSchedules topRated clients therapists selectedDate
      callouts initial st).generations ≤ MAX_GENERATIONS ∧
    (∀ (day : DayOfWeek) (fuel : ℕ) (s : GAState),
      (recordGeneration jsLog2 clients therapists selectedDate callouts
          s).1.bestFitnessOverall = some 0 →
      gaLoop o jsLog2 clients therapists day selectedDate callouts (fuel + 1) s =
        (recordGeneration jsLog2 clients therapists selectedDate callouts s).1) ∧
    (∀ (day : DayOfWeek) (fuel : ℕ) (s : GAState),
      ¬(recordGeneration jsLog2 clients therapists selectedDate callouts
          s).1.bestFitnessOverall = some 0 →
      (recordGeneration jsLog2 clients therapists selectedDate callouts
          s).1.generationsWithoutImprovement ≥ PLATEAU_LIMIT →
      gaLoop o jsLog2 clients therapists day selectedDate callouts (fuel + 1) s =
        (recordGeneration jsLog2 clients therapists selectedDate callouts s).1) := by
  refine ⟨?_, ?_, ?_⟩
  · rw [runCsoAlgorithm.eq_def]
    dsimp only
    exact le_trans (gaLoop_gens _ _ _ _ _ _ _ MAX_GENERATIONS _) le_rfl
  · intro day fuel s h
    rw [gaLoop]
    rw [if_pos h]
  · intro day fuel s h1 h2
    rw [gaLoop]
    rw [if_neg h1, if_pos h2]

/-- A test oracle: every `Math.random` draw is 0 and every shuffle is the
identity permutation. -/
def oZero : Oracle := ⟨fun _ => 0, fun _ ts => ts⟩

/-- A test `Math.log2` oracle, constantly 0 (its value never matters on
empty schedules). -/
def logZero : ℤ → ℚ := fun _ => 0

theorem runCso_generations_le_witness :
    (runCsoAlgorithm oZero logZero [] [] [] [] ⟨0, DayOfWeek.monday, true⟩ [] none
        ⟨0, 0⟩).generations ≤ MAX_GENERATIONS ∧
    gaLoop oZero logZero [] [] DayOfWeek.monday ⟨0, DayOfWeek.monday, true⟩ [] (3 + 1)
        ⟨[], none, none, 0, 0, ⟨0, 0⟩⟩ =
      (recordGeneration logZero [] [] ⟨0, DayOfWeek.monday, true⟩ []
        ⟨[], none, none, 0, 0, ⟨0, 0⟩⟩).1 ∧
    gaLoop oZero logZero [] [] DayOfWeek.monday ⟨0, DayOfWeek.monday, true⟩ [] (3 + 1)
        ⟨[], some ⟨-1, 1, by decide, by decide⟩, some [], 0, 30, ⟨0, 0⟩⟩ =
      (recordGeneration logZero [] [] ⟨0, DayOfWeek.monday, true⟩ []
        ⟨[], some ⟨-1, 1, by decide, by decide⟩, some [], 0, 30, ⟨0, 0⟩⟩).1 :=
  ⟨(runCso_generations_le oZero logZero [] [] [] [] ⟨0, DayOfWeek.monday, true⟩ [] none
      ⟨0, 0⟩).1,
   (runCso_generations_le oZero logZero [] [] [] [] ⟨0, DayOfWeek.monday, true⟩ [] none
      ⟨0, 0⟩).2.1 DayOfWeek.monday 3 ⟨[], none, none, 0, 0, ⟨0, 0⟩⟩ rfl,
   (runCso_generations_le oZero logZero [] [] [] [] ⟨0, DayOfWeek.monday, true⟩ [] none
      ⟨0, 0⟩).2.2 DayOfWeek.monday 3
      ⟨[], some ⟨-1, 1, by decide, by decide⟩, some [], 0, 30, ⟨0, 0⟩⟩ (by decide)
      (by decide)⟩

/-! ## Claim C9: empty inputs -/

/-- The one-client, zero-therapist input of the counterexample. -/
def c9clients : List Client := [⟨"c1", "C1", none, [], []⟩]

/-- The counterexample's selected date (a valid Monday). -/
def c9date : JDate := ⟨0, DayOfWeek.monday, true⟩

/-! Empty-schedule behaviour of the pipeline pieces. -/

theorem fixMdMedicaidLimitClient_nil (clients0 : List Client) (therapists : List Therapist)
    (selectedDate : JDate) (callouts : List Callout) (c : Client) :
    fixMdMedicaidLimitClient clients0 therapists selectedDate callouts [] c = [] := by
  rw [fixMdMedicaidLimitClient]
  split
  · rfl
  · rfl

theorem fixMdMedicaidLimit_nil (clients : List Client) (therapists : List Therapist)
    (selectedDate : JDate) (callouts : List Callout) :
    fixMdMedicaidLimit [] clients therapists selectedDate callouts = [] := by
  rw [fixMdMedicaidLimit]
  have : ∀ (L : List Client),
      L.foldl (fixMdMedicaidLimitClient clients therapists selectedDate callouts) [] = [] := by
    intro L
    induction L with
    | nil => rfl
    | cons c L ih =>
      rw [List.foldl_cons, fixMdMedicaidLimitClient_nil]
      exact ih
  exact this clients

theorem placeGapLen_nilTherapists (day : DayOfWeek) (client : Client) (gapStart : ℤ) :
    ∀ (lens : List ℤ) (state : GeneratedSchedule × AvailabilityTracker × St),
      placeGapLen day client [] gapStart lens state = state := by
  intro lens
  induction lens with
  | nil => intro state; rfl
  | cons len rest ih =>
    intro state
    rw [placeGapLen]
    exact ih state

theorem fixClientCoverageGaps_nil (clients : List Client) (day : DayOfWeek)
    (selectedDate : JDate) (callouts : List Callout) (st : St) :
    fixClientCoverageGaps [] clients [] day selectedDate callouts st = ([], st) := by
  rw [fixClientCoverageGaps]
  have hstep : ∀ (state : GeneratedSchedule × AvailabilityTracker × St) (c : Client),
      fixClientCoverageGapsClient [] day callouts selectedDate state c = state := by
    intro state c
    rw [fixClientCoverageGapsClient]
    simp only [List.filter_nil]
    have : ∀ (gs : List TimeRange),
        gs.foldl (fun st2 gap =>
          if gap.hi - gap.lo < 60 then st2
          else placeGapLen day c []
            gap.lo (gapLens (min 180 (gap.hi - gap.lo))) st2) state = state := by
      intro gs
      induction gs with
      | nil => rfl
      | cons g gs ih =>
        rw [List.foldl_cons]
        split
        · exact ih
        · rw [placeGapLen_nilTherapists]
          exact ih
    exact this _
  have : ∀ (L : List Client) (state : GeneratedSchedule × AvailabilityTracker × St),
      L.foldl (fixClientCoverageGapsClient [] day callouts selectedDate) state = state := by
    intro L
    induction L with
    | nil => intro state; rfl
    | cons c L ih =>
      intro state
      rw [List.foldl_cons, hstep]
      exact ih state
  rw [this]

theorem fixLunchIssues_nil (therapists : List Therapist) (day : DayOfWeek)
    (selectedDate : JDate) (callouts : List Callout) (st : St) :
    fixLunchIssues [] therapists day selectedDate callouts st = ([], st) := rfl

theorem mutateIncremental_nil (o : Oracle) (clients : List Client)
    (therapists : List Therapist) (selectedDate : JDate) (callouts : List Callout)
    (st : St) : mutateIncremental o [] clients therapists selectedDate callouts st =
      ([], st) := rfl

/-- A draw from the zero oracle is below any positive bound. -/
theorem oZero_rand_lt {q : ℚ} (h : 0 < q) (k : ℕ) : oZero.rand k < q := h

/-- A draw from the zero oracle never exceeds a nonnegative bound. -/
theorem oZero_rand_not_gt {q : ℚ} (h : ¬(0 : ℚ) > q) (k : ℕ) : ¬oZero.rand k > q := h

/-- On an empty schedule and without therapists, the whole repair pipeline
is the identity on the schedule. -/
theorem repairAndMutate_nil (clients : List Client) (day : DayOfWeek)
    (selectedDate : JDate) (callouts : List Callout) (st : St) :
    (repairAndMutate oZero [] clients [] day selectedDate callouts none st).1 = [] := by
  rw [repairAndMutate]
  dsimp only
  rw [if_pos (oZero_rand_lt (by decide) st.k)]
  rw [mutateIncremental_nil]
  dsimp only
  rw [show cleanupScheduleIssues [] = [] from rfl]
  rw [show fixSessionDurations [] = [] from rfl]
  rw [show fixCredentialIssues [] clients [] selectedDate callouts = [] from rfl]
  rw [fixMdMedicaidLimit_nil]
  rw [show fixSameClientBackToBackIssues [] clients [] day selectedDate callouts = []
    from rfl]
  rw [fixClientCoverageGaps_nil]
  dsimp only
  rw [fixLunchIssues_nil]
  rfl

theorem crossover_nil (therapists : List Therapist) (clients : List Client)
    (selectedDate : JDate) (callouts : List Callout) (st : St) :
    (crossover oZero [] [] therapists clients selectedDate callouts st).1 = [] := by
  rw [crossover]
  dsimp only
  rw [if_neg (oZero_rand_not_gt (by decide) st.k)]
  rfl

theorem getD0_fst_empty {l : List (GeneratedSchedule × ℚ)}
    (h : ∀ x ∈ l, x.1 = []) : (l.getD 0 dIndiv).1 = [] := by
  cases l with
  | nil => rfl
  | cons a t => exact h a (List.mem_cons_self _ _)

theorem sel_fst_empty {pop : List (GeneratedSchedule × ℚ)}
    (h : ∀ x ∈ pop, x.1 = []) (st : St) :
    (diversityPreservingSelection oZero pop st).1 = [] := by
  rw [diversityPreservingSelection]
  dsimp only
  rw [if_pos (oZero_rand_lt (by decide) st.k)]
  have hm : oZero.rand st.draw.k * (pop.length : ℚ) = 0 := zero_mul _
  rw [hm]
  rw [show jsFloorNat 0 = 0 by simp [jsFloorNat]]
  exact getD0_fst_empty h

/-- The generational-loop invariant of the counterexample's run: every
individual is the empty schedule, and a recorded best schedule is empty
and present whenever a best fitness is. -/
def C9Inv (s : GAState) : Prop :=
  (∀ p ∈ s.population, p = []) ∧
  (s.bestScheduleOverall = none ∨ s.bestScheduleOverall = some []) ∧
  (s.bestScheduleOverall = none → s.bestFitnessOverall = none)

theorem record_c9 {s : GAState} (h : C9Inv s) :
    C9Inv (recordGeneration logZero c9clients [] c9date [] s).1 ∧
    (recordGeneration logZero c9clients [] c9date [] s).1.bestScheduleOverall = some [] ∧
    (∀ x ∈ (recordGeneration logZero c9clients [] c9date [] s).2, x.1 = []) := by
  have hpop : ∀ x ∈ s.population.map (fun p =>
      (p, calculateFitness logZero p c9clients [] c9date [])), x.1 = [] := by
    intro x hx
    obtain ⟨p, hp, rfl⟩ := List.mem_map.1 hx
    exact h.1 p hp
  have hsorted : ∀ x ∈ jsStableSort (fun a b => a.2 < b.2)
      (s.population.map (fun p =>
        (p, calculateFitness logZero p c9clients [] c9date []))), x.1 = [] :=
    fun x hx => hpop x ((jsStableSort_perm _ _).mem_iff.1 hx)
  have hhead : ((jsStableSort (fun a b => a.2 < b.2)
      (s.population.map (fun p =>
        (p, calculateFitness logZero p c9clients [] c9date [])))).getD 0 dIndiv).1 = [] :=
    getD0_fst_empty hsorted
  rw [recordGeneration]
  split
  · refine ⟨⟨h.1, Or.inr ?_, fun hx => ?_⟩, ?_, hsorted⟩
    · rw [hhead]
    · exact absurd hx (by simp)
    · rw [hhead]
  · rename_i hcond
    have hbs : s.bestScheduleOverall = some [] := by
      rcases h.2.1 with hn | hsome
      · exact absurd (by rw [h.2.2 hn]; rfl) hcond
      · exact hsome
    exact ⟨⟨h.1, Or.inr hbs, fun hx => absurd (hbs.symm.trans hx) (by simp)⟩, hbs, hsorted⟩

set_option maxHeartbeats 1600000 in
theorem childLoop_c9 {sortedPop : List (GeneratedSchedule × ℚ)} {day : DayOfWeek}
    (hs : ∀ x ∈ sortedPop, x.1 = []) :
    ∀ (fuel : ℕ) (newPop : List GeneratedSchedule) (st : St),
      (∀ p ∈ newPop, p = []) →
      ∀ p ∈ (childLoop oZero c9clients [] day c9date [] sortedPop fuel newPop st).1,
        p = [] := by
  have hchild : ∀ (st : St),
      (repairAndMutate oZero (crossover oZero
          (diversityPreservingSelection oZero sortedPop st).1
          (diversityPreservingSelection oZero sortedPop
            (diversityPreservingSelection oZero sortedPop st).2).1
          [] c9clients c9date []
          (diversityPreservingSelection oZero sortedPop
            (diversityPreservingSelection oZero sortedPop st).2).2).1
        c9clients [] day c9date [] none
        (crossover oZero
          (diversityPreservingSelection oZero sortedPop st).1
          (diversityPreservingSelection oZero sortedPop
            (diversityPreservingSelection oZero sortedPop st).2).1
          [] c9clients c9date []
          (diversityPreservingSelection oZero sortedPop
            (diversityPreservingSelection oZero sortedPop st).2).2).2).1 = [] := by
    intro st
    rw [sel_fst_empty hs, sel_fst_empty hs, crossover_nil]
    exact repairAndMutate_nil _ _ _ _ _
  intro fuel
  induction fuel with
  | zero => intro newPop st hnew; exact hnew
  | succ n ih =>
    intro newPop st hnew
    rw [childLoop]
    split
    · apply ih
      intro p hp
      rcases List.mem_append.1 hp with hp | hp
      · exact hnew p hp
      · rw [List.mem_singleton] at hp
        exact hp.trans (hchild st)
    · exact hnew

theorem evolve_c9 {sortedPop : List (GeneratedSchedule × ℚ)} {day : DayOfWeek}
    {s : GAState} (hs : ∀ x ∈ sortedPop, x.1 = []) (h : C9Inv s) :
    C9Inv (evolve oZero c9clients [] day c9date [] sortedPop s) ∧
    (evolve oZero c9clients [] day c9date [] sortedPop s).bestScheduleOverall =
      s.bestScheduleOverall := by
  rw [evolve]
  dsimp only
  refine ⟨⟨?_, h.2.1, h.2.2⟩, rfl⟩
  apply childLoop_c9 hs
  intro p hp
  obtain ⟨x, hx, rfl⟩ := List.mem_map.1 hp
  exact hs x (List.take_subset _ _ hx)

theorem gaLoop_c9 {day : DayOfWeek} : ∀ (fuel : ℕ) (s : GAState), C9Inv s →
    (gaLoop oZero logZero c9clients [] day c9date [] (fuel + 1)
      s).bestScheduleOverall = some [] := by
  intro fuel
  induction fuel with
  | zero =>
    intro s h
    rw [gaLoop]
    split
    · exact (record_c9 h).2.1
    · split
      · exact (record_c9 h).2.1
      · rw [gaLoop]
        exact ((evolve_c9 (record_c9 h).2.2 (record_c9 h).1).2).trans (record_c9 h).2.1
  | succ n ih =>
    intro s h
    rw [gaLoop]
    split
    · exact (record_c9 h).2.1
    · split
      · exact (record_c9 h).2.1
      · exact ih _ (evolve_c9 (record_c9 h).2.2 (record_c9 h).1).1

/-- The constructive heuristic produces nothing for the counterexample's
input: the one client has no allied-health needs, and with no therapists
no ABA task is created. -/
theorem heuristic_c9 (day : DayOfWeek) (selectedDate : JDate) (callouts : List Callout)
    (lc : LearningContext) (st : St) :
    (constructiveHeuristicInitialization oZero c9clients [] day selectedDate callouts
      none lc st).1 = [] := rfl

/-- With no clients there are no planning tasks, so the heuristic returns
the empty schedule whatever the therapists. -/
theorem heuristic_no_clients (o : Oracle) (therapists : List Therapist)
    (day : DayOfWeek) (selectedDate : JDate) (callouts : List Callout)
    (lc : LearningContext) (st : St) :
    (constructiveHeuristicInitialization o [] therapists day selectedDate callouts
      none lc st).1 = [] := rfl

theorem fillPopulation_allNil {o : Oracle} {clients : List Client}
    {therapists : List Therapist} {day : DayOfWeek} {selectedDate : JDate}
    {callouts : List Callout} {lc : LearningContext}
    (hh : ∀ st, (constructiveHeuristicInitialization o clients therapists day
      selectedDate callouts none lc st).1 = []) :
    ∀ (fuel : ℕ) (pop : List GeneratedSchedule) (st : St), (∀ p ∈ pop, p = []) →
      ∀ p ∈ (fillPopulation o clients therapists day selectedDate callouts none lc
        fuel pop st).1, p = [] := by
  intro fuel
  induction fuel with
  | zero => intro pop st hp; exact hp
  | succ n ih =>
    intro pop st hp
    rw [fillPopulation]
    split
    · apply ih
      intro p hmem
      rcases List.mem_append.1 hmem with hm | hm
      · exact hp p hm
      · rw [List.mem_singleton] at hm
        subst hm
        exact hh st
    · exact hp

/-- The local search has no swap candidates on an empty schedule. -/
theorem localSearch_nil (jsLog2 : ℤ → ℚ) (clients : List Client)
    (therapists : List Therapist) (selectedDate : JDate) (callouts : List Callout)
    (maxIterations : ℕ) :
    localSearchImprovement jsLog2 [] clients therapists selectedDate callouts
      maxIterations = [] := by
  cases maxIterations with
  | zero => rfl
  | succ n => rfl

/-- With no clients and no entries, the full validation finds nothing on a
valid date. -/
theorem validateFullSchedule_nil (therapists : List Therapist) (selectedDate : JDate)
    (callouts : List Callout) (h : selectedDate.valid = true) :
    validateFullSchedule [] [] therapists selectedDate COMPANY_OPERATING_HOURS_START
      COMPANY_OPERATING_HOURS_END callouts = [] := by
  rw [validateFullSchedule]
  rw [if_neg (not_not_intro h)]
  rfl

theorem calculateFragmentationPenalty_nil (therapists : List Therapist) (w : ℚ) :
    calculateFragmentationPenalty [] therapists w = 0 := by
  rw [calculateFragmentationPenalty]
  have hfold : ∀ (L : List Therapist) (acc : ℤ), L.foldl (fun acc t =>
      acc + idleGapSum (jsSortBy (fun s => s.startTime)
        (List.filter (fun s => s.therapistId = t.id) ([] : GeneratedSchedule)))) acc =
      acc := by
    intro L
    induction L with
    | nil => intro acc; rfl
    | cons t L ih =>
      intro acc
      rw [List.foldl_cons]
      rw [show idleGapSum (jsSortBy (fun s => s.startTime)
        (List.filter (fun s => s.therapistId = t.id) ([] : GeneratedSchedule))) = 0
        from rfl]
      rw [add_zero]
      exact ih acc
  rw [hfold]
  simp

/-- The fitness of the empty schedule with no clients is exactly 0,
whatever the therapists, the callouts and the `Math.log2` oracle. -/
theorem calculateFitness_nil (jsLog2 : ℤ → ℚ) (therapists : List Therapist)
    (selectedDate : JDate) (callouts : List Callout) (h : selectedDate.valid = true) :
    calculateFitness jsLog2 [] [] therapists selectedDate callouts = 0 := by
  rw [calculateFitness]
  rw [validateFullSchedule_nil therapists selectedDate callouts h]
  simp [countRule, countStaggerViolations, calculateFragmentationPenalty_nil]

/-- On an all-empty population with no clients, one generation records a
best fitness of exactly 0 and an empty best schedule. -/
theorem record_zeroFit (jsLog2 : ℤ → ℚ) (therapists : List Therapist)
    (selectedDate : JDate) (callouts : List Callout) (s : GAState)
    (hval : selectedDate.valid = true) (hpop : ∀ p ∈ s.population, p = [])
    (hbf : s.bestFitnessOverall = none) :
    (recordGeneration jsLog2 [] therapists selectedDate callouts s).1 =
      { s with bestFitnessOverall := some 0
               bestScheduleOverall := some []
               generationsWithoutImprovement := 0
               generationsRun := s.generationsRun + 1 } := by
  have hmap : ∀ x ∈ s.population.map (fun p =>
      (p, calculateFitness jsLog2 p [] therapists selectedDate callouts)),
      x = (([] : GeneratedSchedule), (0 : ℚ)) := by
    intro x hx
    obtain ⟨p, hp, rfl⟩ := List.mem_map.1 hx
    have hp0 := hpop p hp
    subst hp0
    rw [calculateFitness_nil jsLog2 therapists selectedDate callouts hval]
  have hsorted : ∀ x ∈ jsStableSort (fun a b => a.2 < b.2)
      (s.population.map (fun p =>
        (p, calculateFitness jsLog2 p [] therapists selectedDate callouts))),
      x = (([] : GeneratedSchedule), (0 : ℚ)) :=
    fun x hx => hmap x ((jsStableSort_perm _ _).mem_iff.1 hx)
  have hhead : (jsStableSort (fun a b => a.2 < b.2)
      (s.population.map (fun p =>
        (p, calculateFitness jsLog2 p [] therapists selectedDate callouts)))).getD 0
      dIndiv = (([] : GeneratedSchedule), (0 : ℚ)) := by
    cases hl : jsStableSort (fun a b => a.2 < b.2)
      (s.population.map (fun p =>
        (p, calculateFitness jsLog2 p [] therapists selectedDate callouts))) with
    | nil => rfl
    | cons a t => exact hsorted a (by rw [hl]; exact List.mem_cons_self a t)
  rw [recordGeneration]
  rw [hhead, hbf]
  split
  · rfl
  · rename_i hc
    exact absurd rfl hc

/-- With no clients the very first generation exits the loop at best
fitness 0. -/
theorem gaLoop_zeroFit (o : Oracle) (jsLog2 : ℤ → ℚ) (therapists : List Therapist)
    (day : DayOfWeek) (selectedDate : JDate) (callouts : List Callout) (fuel : ℕ)
    (s : GAState) (hval : selectedDate.valid = true)
    (hpop : ∀ p ∈ s.population, p = []) (hbf : s.bestFitnessOverall = none) :
    gaLoop o jsLog2 [] therapists day selectedDate callouts (fuel + 1) s =
      { s with bestFitnessOverall := some 0
               bestScheduleOverall := some []
               generationsWithoutImprovement := 0
               generationsRun := s.generationsRun + 1 } := by
  rw [gaLoop]
  rw [record_zeroFit jsLog2 therapists selectedDate callouts s hval hpop hbf]
  rw [if_pos rfl]

/-- The population-initialization prefix of `runCsoAlgorithm` (its
`initialPopulation` construction), factored out verbatim so the generational
loop can be reasoned about in isolation; `runCso_decompose` proves by `rfl`
that `runCsoAlgorithm` is this prefix followed by the loop and `csoPost`. -/
def runCsoInit (o : Oracle) (baseSchedules : List BaseScheduleConfig)
    (topRated : List GeneratedSchedule) (clients : List Client)
    (therapists : List Therapist) (selectedDate : JDate) (callouts : List Callout)
    (initialScheduleForOptimization : Option GeneratedSchedule) (st : St) :
    List GeneratedSchedule × St :=
  let day := getDayOfWeekFromDate selectedDate
  let baseScheduleForDay :=
    match initialScheduleForOptimization with
    | some _ => none
    | none => baseSchedules.find? (fun bs => bs.appliesToDays.contains day)
  let learningContext := loadLearningContext topRated
  let init : List GeneratedSchedule × St :=
    match initialScheduleForOptimization with
    | some initial =>
      let r := repairAndMutate o initial clients therapists day selectedDate callouts
        none st
      ([r.1], r.2)
    | none =>
      match baseScheduleForDay with
      | some bs =>
        let r := repairAndMutate o bs.schedule clients therapists day selectedDate
          callouts none st
        ([r.1], r.2)
      | none => ([], st)
  let seeded := seedTopRated day (learningContext.topRatedSchedules.take 5) init.1 init.2
  fillPopulation o clients therapists day selectedDate callouts baseScheduleForDay
    learningContext POPULATION_SIZE seeded.1 seeded.2

/-- The post-loop tail of `runCsoAlgorithm` (local search, cleanup, final
validation and result assembly), verbatim, over an abstract loop result. -/
def csoPost (jsLog2 : ℤ → ℚ) (clients : List Client) (therapists : List Therapist)
    (selectedDate : JDate) (callouts : List Callout) (final : GAState) :
    GAGenerationResult :=
  let post : Option GeneratedSchedule × Option ℚ :=
    match final.bestScheduleOverall with
    | some best =>
      let improved := localSearchImprovement jsLog2 best clients therapists selectedDate
        callouts 30
      (some improved,
       some (calculateFitness jsLog2 improved clients therapists selectedDate callouts))
    | none => (none, final.bestFitnessOverall)
  let finalCleaned :=
    match post.1 with
    | some bs => cleanupScheduleIssues bs
    | none => []
  let finalErrors := validateFullSchedule finalCleaned clients therapists selectedDate
    COMPANY_OPERATING_HOURS_START COMPANY_OPERATING_HOURS_END callouts
  { schedule := finalCleaned
    finalValidationErrors := finalErrors
    generations := final.generationsRun
    bestFitness := post.2
    success := optLt post.2 500
    statusMessage := "Optimization Complete: " ++ toString final.generationsRun ++
      " generations. Best Fitness: " ++ fitnessToFixed0 post.2 }

/-- `runCsoAlgorithm` is definitionally the initialization, the loop, and
the post-processing tail. -/
theorem runCso_decompose (o : Oracle) (jsLog2 : ℤ → ℚ)
    (baseSchedules : List BaseScheduleConfig) (topRated : List GeneratedSchedule)
    (clients : List Client) (therapists : List Therapist) (selectedDate : JDate)
    (callouts : List Callout) (initial : Option GeneratedSchedule) (st : St) :
    runCsoAlgorithm o jsLog2 baseSchedules topRated clients therapists selectedDate
      callouts initial st =
    csoPost jsLog2 clients therapists selectedDate callouts
      (gaLoop o jsLog2 clients therapists (getDayOfWeekFromDate selectedDate)
        selectedDate callouts MAX_GENERATIONS
        { population := (runCsoInit o baseSchedules topRated clients therapists
            selectedDate callouts initial st).1
          bestFitnessOverall := none
          bestScheduleOverall := none
          generationsRun := 0
          generationsWithoutImprovement := 0
          st := (runCsoInit o baseSchedules topRated clients therapists selectedDate
            callouts initial st).2 }) := rfl

/-- When the loop's best schedule is empty, the returned schedule is empty,
the violations are those of the empty schedule, and the success flag
compares the empty schedule's fitness with 500. -/
theorem csoPost_fields (jsLog2 : ℤ → ℚ) (clients : List Client)
    (therapists : List Therapist) (selectedDate : JDate) (callouts : List Callout)
    (final : GAState) (h : final.bestScheduleOverall = some []) :
    (csoPost jsLog2 clients therapists selectedDate callouts final).schedule = [] ∧
    (csoPost jsLog2 clients therapists selectedDate callouts
        final).finalValidationErrors =
      validateFullSchedule [] clients therapists selectedDate
        COMPANY_OPERATING_HOURS_START COMPANY_OPERATING_HOURS_END callouts ∧
    (csoPost jsLog2 clients therapists selectedDate callouts final).success =
      optLt (some (calculateFitness jsLog2 [] clients therapists selectedDate callouts))
        500 := by
  rw [csoPost]
  rw [h]
  dsimp only
  rw [localSearch_nil]
  rw [show cleanupScheduleIssues [] = [] from rfl]
  exact ⟨rfl, rfl, rfl⟩

/-- Counterexample to claim C9 as stated: at this input — one client, an
empty therapist list, a valid Monday date and no callouts —
`runCsoAlgorithm` does not return an empty violations list: each of the 36
15-minute intervals of the operating window is an uncovered
`CLIENT_COVERAGE_GAP_AT_TIME` for the client. -/
theorem runCso_empty_therapists_violations :
    ¬(runCsoAlgorithm oZero logZero [] [] c9clients [] c9date [] none
      ⟨0, 0⟩).finalValidationErrors = [] := by
  obtain ⟨I, hI⟩ : ∃ I, runCsoInit oZero [] [] c9clients [] c9date [] none ⟨0, 0⟩ = I :=
    ⟨_, rfl⟩
  have hIfill : ∀ p ∈ I.1, p = [] := by
    rw [← hI]
    rw [show runCsoInit oZero [] [] c9clients [] c9date [] none ⟨0, 0⟩ =
      fillPopulation oZero c9clients [] (getDayOfWeekFromDate c9date) c9date [] none
        (loadLearningContext []) POPULATION_SIZE [] ⟨0, 0⟩ from rfl]
    exact fillPopulation_allNil
      (fun st' => heuristic_c9 (getDayOfWeekFromDate c9date) c9date []
        (loadLearningContext []) st')
      POPULATION_SIZE [] ⟨0, 0⟩ (fun p hp => absurd hp (List.not_mem_nil p))
  have hbest : (gaLoop oZero logZero c9clients [] (getDayOfWeekFromDate c9date) c9date
      [] MAX_GENERATIONS
      { population := I.1
        bestFitnessOverall := none
        bestScheduleOverall := none
        generationsRun := 0
        generationsWithoutImprovement := 0
        st := I.2 }).bestScheduleOverall = some [] :=
    gaLoop_c9 149 _ ⟨hIfill, Or.inl rfl, fun _ => rfl⟩
  rw [runCso_decompose, hI]
  rw [(csoPost_fields logZero c9clients [] c9date [] _ hbest).2.1]
  decide

/-- Claim C9 (amended): called with an empty clients list and a valid
date, `runCsoAlgorithm` returns an empty schedule, an empty violations
list and `success = true`, whatever the therapists, callouts and random
stream (the first generation already records the best fitness 0 and
exits).  The empty-therapists half of the original claim is false: with a
nonempty clients list and no therapists the schedule is still empty but
the violations list need not be, as the counterexample's weekday input
shows (a weekend date, whose coverage scan is skipped, or callouts
covering the window can still leave it empty); no input-validation guard
exists in the function. -/
theorem runCso_empty_clients (o : Oracle) (jsLog2 : ℤ → ℚ)
    (therapists : List Therapist) (selectedDate : JDate) (callouts : List Callout)
    (st : St) (h : selectedDate.valid = true) :
    (runCsoAlgorithm o jsLog2 [] [] [] therapists selectedDate callouts none st).schedule
        = [] ∧
    (runCsoAlgorithm o jsLog2 [] [] [] therapists selectedDate callouts none
        st).finalValidationErrors = [] ∧
    (runCsoAlgorithm o jsLog2 [] [] [] therapists selectedDate callouts none st).success
        = true := by
  obtain ⟨I, hI⟩ : ∃ I, runCsoInit o [] [] [] therapists selectedDate callouts none
      st = I := ⟨_, rfl⟩
  have hIfill : ∀ p ∈ I.1, p = [] := by
    rw [← hI]
    rw [show runCsoInit o [] [] [] therapists selectedDate callouts none st =
      fillPopulation o [] therapists (getDayOfWeekFromDate selectedDate) selectedDate
        callouts none (loadLearningContext []) POPULATION_SIZE [] st from rfl]
    exact fillPopulation_allNil
      (fun st' => heuristic_no_clients o therapists (getDayOfWeekFromDate selectedDate)
        selectedDate callouts (loadLearningContext []) st')
      POPULATION_SIZE [] st (fun p hp => absurd hp (List.not_mem_nil p))
  have hbest : (gaLoop o jsLog2 [] therapists (getDayOfWeekFromDate selectedDate)
      selectedDate callouts MAX_GENERATIONS
      { population := I.1
        bestFitnessOverall := none
        bestScheduleOverall := none
        generationsRun := 0
        generationsWithoutImprovement := 0
        st := I.2 }).bestScheduleOverall = some [] := by
    rw [show MAX_GENERATIONS = 149 + 1 from rfl]
    rw [gaLoop_zeroFit o jsLog2 therapists (getDayOfWeekFromDate selectedDate)
      selectedDate callouts 149 _ h hIfill rfl]
  rw [runCso_decompose, hI]
  refine ⟨(csoPost_fields jsLog2 [] therapists selectedDate callouts _ hbest).1, ?_, ?_⟩
  · rw [(csoPost_fields jsLog2 [] therapists selectedDate callouts _ hbest).2.1]
    exact validateFullSchedule_nil therapists selectedDate callouts h
  · rw [(csoPost_fields jsLog2 [] therapists selectedDate callouts _ hbest).2.2]
    rw [calculateFitness_nil jsLog2 therapists selectedDate callouts h]
    rfl

theorem runCso_empty_clients_witness :
    c9date.valid = true ∧
    (runCsoAlgorithm oZero logZero [] [] [] [] c9date [] none ⟨0, 0⟩).schedule = [] ∧
    (runCsoAlgorithm oZero logZero [] [] [] [] c9date [] none
      ⟨0, 0⟩).finalValidationErrors = [] ∧
    (runCsoAlgorithm oZero logZero [] [] [] [] c9date [] none ⟨0, 0⟩).success = true :=
  ⟨rfl, runCso_empty_clients oZero logZero [] c9date [] ⟨0, 0⟩ rfl⟩

end Cso
